import Mathlib

/-!
Verification development for the Libra Move VM core: the gas algebra
(language/vm/src/gas_schedule.rs), the bytecode interpreter
(language/vm/vm-runtime/src/interpreter.rs), the transaction executor
(language/vm/vm-runtime/src/txn_executor.rs), and the abstract transaction
fuzzer (language/tools/transaction-fuzzer).

The Rust code is embedded shallowly: unsigned 64-bit carriers become Nat
with explicit reduction modulo 2 ^ 64 where the Rust operation wraps,
fallible Rust functions returning VMResult become Except VMStatus, and the
possibly diverging interpreter loops become fuel-indexed functions.
Components of the repository whose sources are not available here (the
value module, the transaction data cache, the gas meter, libra-types) are
modelled from the specification and are marked as such in their doc
comments; everything else is translated from the Rust source.
-/

/-- Major status codes of VMStatus used by the embedded components.
Modelled from the spec: the full status-code list lives in libra-types,
which is not among the available sources; only the codes the embedded code
mentions are included. -/
inductive StatusCode
  | EXECUTED
  | ARITHMETIC_ERROR
  | OUT_OF_GAS
  | EXECUTION_STACK_OVERFLOW
  | CALL_STACK_OVERFLOW
  | EMPTY_VALUE_STACK
  | PC_OVERFLOW
  | LINKER_ERROR
  | VERIFIER_INVARIANT_VIOLATION
  | UNKNOWN_INVARIANT_VIOLATION_ERROR
  | UNREACHABLE
  | ABORTED
  | DATA_FORMAT_ERROR
  | EVENT_KEY_MISMATCH
  | INDEX_OUT_OF_BOUNDS
  | INTERNAL_TYPE_ERROR
  | VERIFICATION_ERROR
  deriving DecidableEq

/-- Status types partitioning the status codes.
Modelled from the spec, section 7: errors are partitioned into Validation,
Verification, InvariantViolation, Deserialization and Execution. -/
inductive StatusType
  | Validation
  | Verification
  | InvariantViolation
  | Deserialization
  | Execution
  deriving DecidableEq

/-- Classification of each embedded status code into its status type.
Modelled from the spec, section 7: InvariantViolation marks impossible
states (the three invariant-violation codes and UNREACHABLE); the runtime
failure codes are Execution; the verifier and linker codes are
Verification. -/
def StatusCode.statusType : StatusCode → StatusType
  | .EXECUTED => .Execution
  | .ARITHMETIC_ERROR => .Execution
  | .OUT_OF_GAS => .Execution
  | .EXECUTION_STACK_OVERFLOW => .Execution
  | .CALL_STACK_OVERFLOW => .Execution
  | .EMPTY_VALUE_STACK => .Execution
  | .PC_OVERFLOW => .Execution
  | .LINKER_ERROR => .Verification
  | .VERIFIER_INVARIANT_VIOLATION => .InvariantViolation
  | .UNKNOWN_INVARIANT_VIOLATION_ERROR => .InvariantViolation
  | .UNREACHABLE => .InvariantViolation
  | .ABORTED => .Execution
  | .DATA_FORMAT_ERROR => .Execution
  | .EVENT_KEY_MISMATCH => .Execution
  | .INDEX_OUT_OF_BOUNDS => .Verification
  | .INTERNAL_TYPE_ERROR => .InvariantViolation
  | .VERIFICATION_ERROR => .Verification

/-- The VMStatus error value: a major status code plus optional sub-status
and message, as constructed by VMStatus::new, with_sub_status and
with_message in the Rust code. -/
structure VMStatus where
  major : StatusCode
  sub_status : Option Nat := none
  message : Option String := none
  deriving DecidableEq

def VMStatus.new (major : StatusCode) : VMStatus := { major }

def VMStatus.with_sub_status (s : VMStatus) (sub : Nat) : VMStatus :=
  { s with sub_status := some sub }

def VMStatus.with_message (s : VMStatus) (msg : String) : VMStatus :=
  { s with message := some msg }

/-- VMStatus.is(StatusType) from the vm errors module: the status belongs
to the given status type. -/
def VMStatus.statusType (s : VMStatus) : StatusType := s.major.statusType

/-- VMResult of the vm errors module. -/
abbrev VMResult (α : Type) := Except VMStatus α

/-- Major status code of a VMResult, when it is an error. -/
def VMResult.majorOf {α : Type} : VMResult α → Option StatusCode
  | .ok _ => none
  | .error e => some e.major

/-! ## Gas algebra: language/vm/src/gas_schedule.rs

The carrier GasCarrier is u64. The Rust arithmetic used by the GasAlgebra
trait is the plain Add/Sub/Mul/Div of u64, which in release builds wraps
modulo 2 ^ 64 (and truncates on division); the carrier is embedded as Nat
with that wrapping made explicit. -/

def u64Modulus : Nat := 2 ^ 64

/-- Wrapping u64 addition: Rust Add::add on u64 (release semantics). -/
def u64wrapAdd (a b : Nat) : Nat := (a + b) % u64Modulus

/-- Wrapping u64 subtraction: Rust Sub::sub on u64 (release semantics,
two's complement wrap-around on underflow). -/
def u64wrapSub (a b : Nat) : Nat := (a + (u64Modulus - b % u64Modulus)) % u64Modulus

/-- Wrapping u64 multiplication: Rust Mul::mul on u64 (release semantics). -/
def u64wrapMul (a b : Nat) : Nat := (a * b) % u64Modulus

/-- Truncating u64 division: Rust Div::div on u64. Division by zero panics
in Rust; theorems about division therefore carry a nonzero hypothesis. -/
def u64div (a b : Nat) : Nat := a / b

/-- The GasAlgebra trait of gas_schedule.rs: projection into and out of
the carrier. The arithmetic operations below are the trait's default
methods, defined through map2 exactly as in the source. -/
class GasAlgebra (α : Type) where
  new : Nat → α
  get : α → Nat

/-- GasAlgebra::map. -/
def GasAlgebra.map {α : Type} [GasAlgebra α] (x : α) (f : Nat → Nat) : α :=
  GasAlgebra.new (f (GasAlgebra.get x))

/-- GasAlgebra::map2: combine two gas values over the shared carrier; the
two arguments may come from different instances of the trait. -/
def GasAlgebra.map2 {α β : Type} [GasAlgebra α] [GasAlgebra β]
    (x : α) (other : β) (f : Nat → Nat → Nat) : α :=
  GasAlgebra.new (f (GasAlgebra.get x) (GasAlgebra.get other))

/-- GasAlgebra::app: apply a function of two carriers, returning the bare
result. -/
def GasAlgebra.app {α β γ : Type} [GasAlgebra α] [GasAlgebra β]
    (x : α) (other : β) (f : Nat → Nat → γ) : γ :=
  f (GasAlgebra.get x) (GasAlgebra.get other)

/-- GasAlgebra::unitary_cast: conversion between algebras over the same
carrier. -/
def GasAlgebra.unitary_cast {α β : Type} [GasAlgebra α] [GasAlgebra β] (x : α) : β :=
  GasAlgebra.new (GasAlgebra.get x)

/-- GasAlgebra::add, defined as map2 with the carrier's Add. -/
def GasAlgebra.add {α β : Type} [GasAlgebra α] [GasAlgebra β] (x : α) (right : β) : α :=
  GasAlgebra.map2 x right u64wrapAdd

/-- GasAlgebra::sub, defined as map2 with the carrier's Sub. -/
def GasAlgebra.sub {α β : Type} [GasAlgebra α] [GasAlgebra β] (x : α) (right : β) : α :=
  GasAlgebra.map2 x right u64wrapSub

/-- GasAlgebra::mul, defined as map2 with the carrier's Mul. -/
def GasAlgebra.mul {α β : Type} [GasAlgebra α] [GasAlgebra β] (x : α) (right : β) : α :=
  GasAlgebra.map2 x right u64wrapMul

/-- GasAlgebra::div, defined as map2 with the carrier's Div. -/
def GasAlgebra.div {α β : Type} [GasAlgebra α] [GasAlgebra β] (x : α) (right : β) : α :=
  GasAlgebra.map2 x right u64div

/-- The AbstractMemorySize newtype produced by the define_gas_unit macro. -/
structure AbstractMemorySize where
  val : Nat
  deriving DecidableEq

instance : GasAlgebra AbstractMemorySize := ⟨AbstractMemorySize.mk, AbstractMemorySize.val⟩

/-- The GasUnits newtype produced by the define_gas_unit macro. -/
structure GasUnits where
  val : Nat
  deriving DecidableEq

instance : GasAlgebra GasUnits := ⟨GasUnits.mk, GasUnits.val⟩

/-- The GasPrice newtype produced by the define_gas_unit macro. -/
structure GasPrice where
  val : Nat
  deriving DecidableEq

instance : GasAlgebra GasPrice := ⟨GasPrice.mk, GasPrice.val⟩

/-- Constant INTRINSIC_GAS_PER_BYTE of gas_schedule.rs. -/
def INTRINSIC_GAS_PER_BYTE : GasUnits := GasAlgebra.new 8

/-- Constant MIN_TRANSACTION_GAS_UNITS of gas_schedule.rs. -/
def MIN_TRANSACTION_GAS_UNITS : GasUnits := GasAlgebra.new 600

/-- Constant WORD_SIZE of gas_schedule.rs. -/
def WORD_SIZE : AbstractMemorySize := GasAlgebra.new 8

/-- Constant LARGE_TRANSACTION_CUTOFF of gas_schedule.rs. -/
def LARGE_TRANSACTION_CUTOFF : AbstractMemorySize := GasAlgebra.new 600

/-- Constant MAXIMUM_NUMBER_OF_GAS_UNITS of gas_schedule.rs. -/
def MAXIMUM_NUMBER_OF_GAS_UNITS : GasUnits := GasAlgebra.new 1000000

/-- Constant GLOBAL_MEMORY_PER_BYTE_COST of gas_schedule.rs. -/
def GLOBAL_MEMORY_PER_BYTE_COST : GasUnits := GasAlgebra.new 8

/-- Constant GLOBAL_MEMORY_PER_BYTE_WRITE_COST of gas_schedule.rs. -/
def GLOBAL_MEMORY_PER_BYTE_WRITE_COST : GasUnits := GasAlgebra.new 8

/-- Modelled from the spec: MAX_TRANSACTION_SIZE_IN_BYTES is declared in
libra-types (not among the available sources); the spec only says the
maximum transaction size is enforced upstream by the executor. The
repository's historical value 4096 is used; the theorems below only need
that it is far below the u64 modulus. -/
def MAX_TRANSACTION_SIZE_IN_BYTES : Nat := 4096

/-- words_in of gas_schedule.rs: the number of words in a memory size,
rounded up, computed as (size + (word_size - 1)) / word_size through map2. -/
def words_in (size : AbstractMemorySize) : AbstractMemorySize :=
  GasAlgebra.map2 size WORD_SIZE (fun sz word_size => u64div (u64wrapAdd sz (word_size - 1)) word_size)

/-- calculate_intrinsic_gas of gas_schedule.rs: the minimum transaction
fee, plus a per-word charge on the bytes past the large-transaction
cutoff. -/
def calculate_intrinsic_gas (transaction_size : AbstractMemorySize) : GasUnits :=
  let min_transaction_fee := MIN_TRANSACTION_GAS_UNITS
  if GasAlgebra.get transaction_size > GasAlgebra.get LARGE_TRANSACTION_CUTOFF then
    let excess := words_in (GasAlgebra.sub transaction_size LARGE_TRANSACTION_CUTOFF)
    GasAlgebra.add min_transaction_fee (GasAlgebra.mul INTRINSIC_GAS_PER_BYTE excess)
  else
    GasAlgebra.unitary_cast min_transaction_fee

/-! ## Bytecode instructions

The Bytecode enum of vm/src/file_format.rs (not among the available
sources) as matched exhaustively by the interpreter dispatch loop in
interpreter.rs; the match there covers every variant, so the variant list
below is determined by the interpreter source. Table indices, offsets and
constants are embedded as Nat. -/
inductive Bytecode
  | Pop
  | Ret
  | BrTrue (offset : Nat)
  | BrFalse (offset : Nat)
  | Branch (offset : Nat)
  | LdConst (int_const : Nat)
  | LdAddr (idx : Nat)
  | LdStr (idx : Nat)
  | LdByteArray (idx : Nat)
  | LdTrue
  | LdFalse
  | CopyLoc (idx : Nat)
  | MoveLoc (idx : Nat)
  | StLoc (idx : Nat)
  | Call (idx : Nat) (type_actuals_idx : Nat)
  | MutBorrowLoc (idx : Nat)
  | ImmBorrowLoc (idx : Nat)
  | ImmBorrowField (fd_idx : Nat)
  | MutBorrowField (fd_idx : Nat)
  | Pack (sd_idx : Nat) (type_actuals_idx : Nat)
  | Unpack (sd_idx : Nat) (type_actuals_idx : Nat)
  | ReadRef
  | WriteRef
  | Add
  | Sub
  | Mul
  | Mod
  | Div
  | BitOr
  | BitAnd
  | Xor
  | Or
  | And
  | Lt
  | Gt
  | Le
  | Ge
  | Abort
  | Eq
  | Neq
  | GetTxnGasUnitPrice
  | GetTxnMaxGasUnits
  | GetTxnSequenceNumber
  | GetTxnSenderAddress
  | GetTxnPublicKey
  | MutBorrowGlobal (idx : Nat) (type_actuals_idx : Nat)
  | ImmBorrowGlobal (idx : Nat) (type_actuals_idx : Nat)
  | Exists (idx : Nat) (type_actuals_idx : Nat)
  | MoveFrom (idx : Nat) (type_actuals_idx : Nat)
  | MoveToSender (idx : Nat) (type_actuals_idx : Nat)
  | CreateAccount
  | FreezeRef
  | Not
  | GetGasRemaining

/-! ## Type tags, signature tokens and the loaded-module view -/

/-- The runtime TypeTag of libra-types, as produced by derive_type_tag.
Modelled from the spec glossary: a type tag carries a module id (address
and module name), a struct name, and recursive type actuals; the StructTag
payload of the Struct variant is inlined as fields. -/
inductive TypeTag
  | Bool
  | Address
  | U64
  | ByteArray
  | Struct (address : Nat) (module : String) (name : String) (type_params : List TypeTag)

/-- The SignatureToken enum of vm/src/file_format.rs as consumed by
derive_type_tag: primitive types, type parameters, references, and struct
instantiations with their type-actual tokens. -/
inductive SignatureToken
  | Bool
  | Address
  | U64
  | ByteArray
  | String
  | TypeParameter (idx : Nat)
  | Reference (t : SignatureToken)
  | MutableReference (t : SignatureToken)
  | Struct (idx : Nat) (struct_type_actuals : List SignatureToken)

/-- A struct handle of the module's handle pool: a module-handle index and
an identifier index, as read by derive_type_tag. -/
structure StructHandle where
  module : Nat
  name : Nat

/-- A module handle of the module's handle pool: an address-pool index and
an identifier index. -/
structure ModuleHandle where
  address : Nat
  name : Nat

/-- A function definition as the interpreter sees one through
FunctionReference: local count, argument count, native flag and code
stream. The FunctionRef accessors local_count, arg_count, is_native and
code_definition project these fields. -/
structure FunctionDef where
  name : String
  local_count : Nat
  arg_count : Nat
  is_native : Bool
  code : List Bytecode

/-- A module id: address plus module name, as used to key the module
cache and to resolve native functions. -/
structure ModuleIdT where
  address : Nat
  name : String
  deriving DecidableEq

/-- The LoadedModule view consumed by the interpreter: the pools that the
ModuleAccess accessor methods read, the locals-signature pool, the
function-definition tables, the field-offset and struct-definition tables,
and the module's own id. The Rust accessors index these pools directly
(the bytecode verifier guarantees the indices are in bounds); the
embedding totalizes the accessors with default values, and theorems that
depend on a pool entry carry an in-bounds hypothesis. -/
structure LoadedModule where
  struct_handles : List StructHandle
  module_handles : List ModuleHandle
  identifiers : List String
  address_pool : List Nat
  user_strings : List String
  byte_array_pool : List (List Nat)
  locals_signatures : List (List SignatureToken)
  function_defs : List FunctionDef
  function_defs_table : List (String × Nat)
  struct_defs_table : List (String × Nat)
  field_offsets : List Nat
  struct_def_field_counts : List Nat
  self_id : ModuleIdT

/-- ModuleAccess::struct_handle_at. -/
def LoadedModule.struct_handle_at (m : LoadedModule) (idx : Nat) : StructHandle :=
  m.struct_handles.getD idx { module := 0, name := 0 }

/-- ModuleAccess::module_handle_at. -/
def LoadedModule.module_handle_at (m : LoadedModule) (idx : Nat) : ModuleHandle :=
  m.module_handles.getD idx { address := 0, name := 0 }

/-- ModuleAccess::identifier_at. -/
def LoadedModule.identifier_at (m : LoadedModule) (idx : Nat) : String :=
  m.identifiers.getD idx ""

/-- ModuleAccess::address_at. -/
def LoadedModule.address_at (m : LoadedModule) (idx : Nat) : Nat :=
  m.address_pool.getD idx 0

/-- ModuleAccess::user_string_at. -/
def LoadedModule.user_string_at (m : LoadedModule) (idx : Nat) : String :=
  m.user_strings.getD idx ""

/-- ModuleAccess::byte_array_at. -/
def LoadedModule.byte_array_at (m : LoadedModule) (idx : Nat) : List Nat :=
  m.byte_array_pool.getD idx []

/-- ModuleAccess::locals_signature_at, projected to its token list. -/
def LoadedModule.locals_signature_at (m : LoadedModule) (idx : Nat) : List SignatureToken :=
  m.locals_signatures.getD idx []

/-- LoadedModule::get_field_offset: looks up the field offset for a field
definition index, failing when the index is unknown. -/
def LoadedModule.get_field_offset (m : LoadedModule) (fd_idx : Nat) : VMResult Nat :=
  match m.field_offsets.get? fd_idx with
  | some off => .ok off
  | none => .error (VMStatus.new .INDEX_OUT_OF_BOUNDS)

/-- StructDefinition::declared_field_count through struct_def_at: the
number of declared fields of the struct definition at the given index. -/
def LoadedModule.declared_field_count (m : LoadedModule) (sd_idx : Nat) : VMResult Nat :=
  match m.struct_def_field_counts.get? sd_idx with
  | some n => .ok n
  | none => .error (VMStatus.new .INDEX_OUT_OF_BOUNDS)

/-! ## derive_type_tag: interpreter.rs lines 101-145 -/

mutual
/-- derive_type_tag of interpreter.rs: resolve a signature token to a
runtime TypeTag given the current frame's type-actual tags. Primitive
tokens map to their tags; strings are unimplemented (unknown invariant
violation); type parameters index into the type-actual tags (verifier
invariant violation when out of bounds); references cannot be derived
(verifier invariant violation); struct tokens recurse into their type
actuals and read the struct's name and module from the module's pools. -/
def derive_type_tag (module : LoadedModule) (type_actual_tags : List TypeTag) :
    SignatureToken → VMResult TypeTag
  | .Bool => .ok .Bool
  | .Address => .ok .Address
  | .U64 => .ok .U64
  | .ByteArray => .ok .ByteArray
  | .String =>
    .error ((VMStatus.new .UNKNOWN_INVARIANT_VIOLATION_ERROR).with_message
      ("Cannot derive type tags for strings: unimplemented."))
  | .TypeParameter idx =>
    match type_actual_tags.get? idx with
    | some inner => .ok inner
    | none =>
      .error ((VMStatus.new .VERIFIER_INVARIANT_VIOLATION).with_message
        ("Cannot derive type tag: type parameter index out of bounds."))
  | .Reference _ =>
    .error ((VMStatus.new .VERIFIER_INVARIANT_VIOLATION).with_message
      ("Cannot derive type tag for references."))
  | .MutableReference _ =>
    .error ((VMStatus.new .VERIFIER_INVARIANT_VIOLATION).with_message
      ("Cannot derive type tag for references."))
  | .Struct idx struct_type_actuals =>
    match derive_type_tag_list module type_actual_tags struct_type_actuals with
    | .error e => .error e
    | .ok struct_type_actuals_tags =>
      let struct_handle := module.struct_handle_at idx
      let struct_name := module.identifier_at struct_handle.name
      let module_handle := module.module_handle_at struct_handle.module
      let module_address := module.address_at module_handle.address
      let module_name := module.identifier_at module_handle.name
      .ok (.Struct module_address module_name struct_name struct_type_actuals_tags)

/-- The collect step of derive_type_tag's Struct arm: derive each type
actual in order, propagating the first error, as the Rust
iter().map().collect over VMResult does. -/
def derive_type_tag_list (module : LoadedModule) (type_actual_tags : List TypeTag) :
    List SignatureToken → VMResult (List TypeTag)
  | [] => .ok []
  | ty :: rest =>
    match derive_type_tag module type_actual_tags ty with
    | .error e => .error e
    | .ok tag =>
      match derive_type_tag_list module type_actual_tags rest with
      | .error e => .error e
      | .ok tags => .ok (tag :: tags)
end

/-! ## Runtime values, locals and stacks

The value module (vm-runtime-types) is not among the available sources;
Value, Locals and the operations on them are modelled from the spec,
sections 3 and 4.B. References are embedded as opaque tokens whose
behavior (field borrow, read, write) is supplied by the oracle record
VMContext below, since reference cells use interior mutability in Rust. -/

/-- A runtime value. Modelled from the spec, section 3: Bool, U64,
Address, ByteArray, String, Struct (ordered field values), and the two
reference variants, embedded as opaque reference tokens. -/
inductive Value
  | bool (b : Bool)
  | u64 (n : Nat)
  | address (a : Nat)
  | byte_array (bytes : List Nat)
  | string (s : String)
  | struct_ (fields : List Value)
  | local_ref (rid : Nat)
  | global_ref (rid : Nat)

/-- Whether a value is one of the two reference variants (the Rust
ReferenceValue extraction used by pop_as of ReferenceValue). -/
def Value.isReference : Value → Bool
  | .local_ref _ => true
  | .global_ref _ => true
  | _ => false

mutual
/-- Modelled from the spec: the abstract memory size of a value, with the
constant sizes of section 4.A (one word for plain constants, the struct
overhead, the reference size) and byte lengths for the variable-size
values. Only its use as the size operand of MoveFrom and MoveToSender
matters to the theorems below. -/
def Value.size : Value → Nat
  | .bool _ => 1
  | .u64 _ => 1
  | .address _ => 32
  | .byte_array bytes => bytes.length
  | .string s => s.length
  | .struct_ fields => 2 + Value.sizeList fields
  | .local_ref _ => 8
  | .global_ref _ => 8

/-- Total abstract memory size of a struct's field values. -/
def Value.sizeList : List Value → Nat
  | [] => 0
  | v :: rest => Value.size v + Value.sizeList rest
end

mutual
/-- Value::equals. Modelled from the spec, section 4.B: structural
equality that fails on incomparable types; comparison of reference values
is routed to an invariant-violation error since reference identity is
outside this embedding. -/
def Value.equals : Value → Value → VMResult Bool
  | .bool l, .bool r => .ok (l == r)
  | .u64 l, .u64 r => .ok (l == r)
  | .address l, .address r => .ok (l == r)
  | .byte_array l, .byte_array r => .ok (l == r)
  | .string l, .string r => .ok (l == r)
  | .struct_ l, .struct_ r => Value.equalsList l r
  | _, _ => .error (VMStatus.new .INTERNAL_TYPE_ERROR)

/-- Field-wise structural equality of struct contents. -/
def Value.equalsList : List Value → List Value → VMResult Bool
  | [], [] => .ok true
  | l :: ls, r :: rs =>
    match Value.equals l r with
    | .error e => .error e
    | .ok b =>
      match Value.equalsList ls rs with
      | .error e => .error e
      | .ok bs => .ok (b && bs)
  | _, _ => .ok false
end

/-- Value::not_equals: the negation of equals. -/
def Value.not_equals (l r : Value) : VMResult Bool :=
  match Value.equals l r with
  | .error e => .error e
  | .ok b => .ok (!b)

/-- Value::value_as of bool. Modelled from the spec: extracting a value at
the wrong tag is an internal type error. -/
def Value.value_as_bool : Value → VMResult Bool
  | .bool b => .ok b
  | _ => .error (VMStatus.new .INTERNAL_TYPE_ERROR)

/-- Value::value_as of u64. -/
def Value.value_as_u64 : Value → VMResult Nat
  | .u64 n => .ok n
  | _ => .error (VMStatus.new .INTERNAL_TYPE_ERROR)

/-- Value::value_as of AccountAddress. -/
def Value.value_as_address : Value → VMResult Nat
  | .address a => .ok a
  | _ => .error (VMStatus.new .INTERNAL_TYPE_ERROR)

/-- Value::value_as of ByteArray. -/
def Value.value_as_byte_array : Value → VMResult (List Nat)
  | .byte_array bytes => .ok bytes
  | _ => .error (VMStatus.new .INTERNAL_TYPE_ERROR)

/-- Value::value_as of Struct, projecting the field list. -/
def Value.value_as_struct : Value → VMResult (List Value)
  | .struct_ fields => .ok fields
  | _ => .error (VMStatus.new .INTERNAL_TYPE_ERROR)

/-- Value::value_as of ReferenceValue: the value itself when it is a
reference variant. -/
def Value.value_as_reference (v : Value) : VMResult Value :=
  if v.isReference then .ok v else .error (VMStatus.new .INTERNAL_TYPE_ERROR)

/-- Struct::get_field_value. Modelled from the spec: reads one field of a
struct by offset, failing when the offset is out of range. -/
def Struct.get_field_value (fields : List Value) (idx : Nat) : VMResult Value :=
  match fields.get? idx with
  | some v => .ok v
  | none => .error (VMStatus.new .INDEX_OUT_OF_BOUNDS)

/-- One slot of the locals array: a value or the Invalid sentinel.
Modelled from the spec, section 3. -/
inductive LocalSlot
  | Invalid
  | val (v : Value)

/-- The locals array of an activation. Modelled from the spec, sections 3
and 4.B. -/
structure Locals where
  slots : List LocalSlot

/-- Locals::new: all slots start Invalid. -/
def Locals.new (size : Nat) : Locals := ⟨List.replicate size .Invalid⟩

/-- Locals::copy_loc: read a valid slot; reading an Invalid slot fails
(spec section 4.B: a verifier bug), and an out-of-bounds index fails. -/
def Locals.copy_loc (l : Locals) (idx : Nat) : VMResult Value :=
  match l.slots.get? idx with
  | some (.val v) => .ok v
  | some .Invalid => .error (VMStatus.new .VERIFICATION_ERROR)
  | none => .error (VMStatus.new .INDEX_OUT_OF_BOUNDS)

/-- Locals::move_loc: read a valid slot and set it to Invalid. -/
def Locals.move_loc (l : Locals) (idx : Nat) : VMResult (Value × Locals) :=
  match l.slots.get? idx with
  | some (.val v) => .ok (v, ⟨l.slots.set idx .Invalid⟩)
  | some .Invalid => .error (VMStatus.new .VERIFICATION_ERROR)
  | none => .error (VMStatus.new .INDEX_OUT_OF_BOUNDS)

/-- Locals::store_loc: overwrite a slot (always succeeds on an in-bounds
index, spec section 4.B). -/
def Locals.store_loc (l : Locals) (idx : Nat) (value : Value) : VMResult Locals :=
  if idx < l.slots.length then .ok ⟨l.slots.set idx (.val value)⟩
  else .error (VMStatus.new .INDEX_OUT_OF_BOUNDS)

/-- Locals::borrow_loc: produce a local reference to a valid slot. The
reference is embedded as an opaque token holding the slot index. -/
def Locals.borrow_loc (l : Locals) (idx : Nat) : VMResult Value :=
  match l.slots.get? idx with
  | some (.val _) => .ok (.local_ref idx)
  | some .Invalid => .error (VMStatus.new .VERIFICATION_ERROR)
  | none => .error (VMStatus.new .INDEX_OUT_OF_BOUNDS)

/-- Constant OPERAND_STACK_SIZE_LIMIT of interpreter.rs. -/
def OPERAND_STACK_SIZE_LIMIT : Nat := 1024

/-- Constant CALL_STACK_SIZE_LIMIT of interpreter.rs. -/
def CALL_STACK_SIZE_LIMIT : Nat := 1024

/-- The operand stack of interpreter.rs: a bounded vector of values. The
Rust Vec pushes and pops at its end; the embedding stores the stack with
its TOP at the HEAD of the list. -/
structure Stack where
  values : List Value

/-- Stack::new. -/
def Stack.new : Stack := ⟨[]⟩

/-- Stack::push of interpreter.rs lines 995-1002: push when below the
limit, fail with EXECUTION_STACK_OVERFLOW otherwise (the stack is
unmodified on failure: no new stack is produced). -/
def Stack.push (s : Stack) (value : Value) : VMResult Stack :=
  if s.values.length < OPERAND_STACK_SIZE_LIMIT then .ok ⟨value :: s.values⟩
  else .error (VMStatus.new .EXECUTION_STACK_OVERFLOW)

/-- Stack::pop of interpreter.rs lines 1005-1009. -/
def Stack.pop (s : Stack) : VMResult (Value × Stack) :=
  match s.values with
  | [] => .error (VMStatus.new .EMPTY_VALUE_STACK)
  | v :: rest => .ok (v, ⟨rest⟩)

/-- Stack::popn of interpreter.rs lines 1021-1029: split off the top n
values, returned in bottom-to-top order as the Rust split_off does. -/
def Stack.popn (s : Stack) (n : Nat) : VMResult (List Value × Stack) :=
  if n ≤ s.values.length then .ok ((s.values.take n).reverse, ⟨s.values.drop n⟩)
  else .error (VMStatus.new .EMPTY_VALUE_STACK)

/-! ## Gas meter, transaction metadata, frames and the interpreter state -/

/-- Transaction metadata as read by the interpreter's special opcodes and
the executor. Modelled from the spec, section 6 (transaction input): the
sender, sequence number, gas fields, transaction size and public key. -/
structure TransactionMetadata where
  sender : Nat
  sequence_number : Nat
  max_gas_amount : GasUnits
  gas_unit_price : GasPrice
  transaction_size : AbstractMemorySize
  public_key : List Nat

/-- A contract event: guid key, count, type tag and serialized payload.
Modelled from the spec, section 3 (Events). -/
structure ContractEvent where
  key : List Nat
  sequence_number : Nat
  type_tag : TypeTag
  event_data : List Nat

/-- The gas meter of vm-runtime. The GasMeter implementation is not among
the available sources (only its call sites are); it is modelled from the
spec: it holds the remaining gas and an enabled flag toggled by
disable_metering and enable_metering, checks gas before deducting and
fails with OUT_OF_GAS, and computes an instruction's cost as its
cost-table total times the memory-size operand. The charge_log field is a
ghost trace recording every calculate_and_consume invocation with its
memory-size operand (most recent first); it exists only so that theorems
can speak about how often and with which size operand an instruction is
charged. -/
structure GasMeter where
  enabled : Bool
  remaining : GasUnits
  charge_log : List (Bytecode × Nat)

/-- GasMeter::new: metering starts enabled with the given gas budget. -/
def GasMeter.new (gas : GasUnits) : GasMeter :=
  { enabled := true, remaining := gas, charge_log := [] }

/-- GasMeter::remaining_gas. -/
def GasMeter.remaining_gas (gm : GasMeter) : GasUnits := gm.remaining

/-- GasMeter::disable_metering. -/
def GasMeter.disable_metering (gm : GasMeter) : GasMeter := { gm with enabled := false }

/-- GasMeter::enable_metering. -/
def GasMeter.enable_metering (gm : GasMeter) : GasMeter := { gm with enabled := true }

/-- GasMeter::consume_gas. Modelled from the spec, section 5: gas is
checked before deduction and exhaustion fails with OUT_OF_GAS atomically;
a disabled meter deducts nothing. -/
def GasMeter.consume_gas (gm : GasMeter) (amount : GasUnits) : VMResult GasMeter :=
  if gm.enabled then
    if amount.val ≤ gm.remaining.val then
      .ok { gm with remaining := GasUnits.mk (gm.remaining.val - amount.val) }
    else .error (VMStatus.new .OUT_OF_GAS)
  else .ok gm

/-- GasMeter::calculate_and_consume. Modelled from the spec, section 4.D:
the instruction's cost-table total (supplied as the function
instruction_cost) is multiplied by the memory-size operand and consumed.
The invocation is recorded in the ghost charge log (also when metering is
disabled, since the call still happens). -/
def GasMeter.calculate_and_consume (gm : GasMeter) (instruction_cost : Bytecode → Nat)
    (instruction : Bytecode) (size : AbstractMemorySize) : VMResult GasMeter :=
  let gm := { gm with charge_log := (instruction, size.val) :: gm.charge_log }
  gm.consume_gas (GasUnits.mk (u64wrapMul (instruction_cost instruction) size.val))

/-- GasMeter::charge_transaction_gas. Modelled from the spec, section 4.D
entry contract: charge the intrinsic gas for the transaction size. -/
def GasMeter.charge_transaction_gas (gm : GasMeter) (txn_size : AbstractMemorySize) :
    VMResult GasMeter :=
  gm.consume_gas (calculate_intrinsic_gas txn_size)

/-- A FunctionRef: a function definition resolved inside its loaded
module, as produced by FunctionRef::new. -/
structure FunctionRef where
  module : LoadedModule
  fdef : FunctionDef

/-- FunctionRef::new: resolve a function definition index in a module. -/
def FunctionRef.new (module : LoadedModule) (idx : Nat) : FunctionRef :=
  { module
    fdef := module.function_defs.getD idx
      { name := "", local_count := 0, arg_count := 0, is_native := false, code := [] } }

/-- FunctionReference::name. -/
def FunctionRef.name (f : FunctionRef) : String := f.fdef.name

def FunctionRef.local_count (f : FunctionRef) : Nat := f.fdef.local_count

def FunctionRef.arg_count (f : FunctionRef) : Nat := f.fdef.arg_count

def FunctionRef.is_native (f : FunctionRef) : Bool := f.fdef.is_native

def FunctionRef.code_definition (f : FunctionRef) : List Bytecode := f.fdef.code

/-- A frame of the call stack: program counter, locals, function and the
type-tag actuals bound at call time (interpreter.rs lines 1063-1070). -/
structure Frame where
  pc : Nat
  locals : Locals
  function : FunctionRef
  type_actual_tags : List TypeTag

/-- Frame::new. -/
def Frame.new (function : FunctionRef) (type_actual_tags : List TypeTag) (locals : Locals) : Frame :=
  { pc := 0, locals, function, type_actual_tags }

def Frame.module (f : Frame) : LoadedModule := f.function.module

def Frame.code_definition (f : Frame) : List Bytecode := f.function.code_definition

def Frame.copy_loc (f : Frame) (idx : Nat) : VMResult Value := f.locals.copy_loc idx

def Frame.move_loc (f : Frame) (idx : Nat) : VMResult (Value × Frame) :=
  match f.locals.move_loc idx with
  | .error e => .error e
  | .ok (v, locals) => .ok (v, { f with locals })

def Frame.store_loc (f : Frame) (idx : Nat) (value : Value) : VMResult Frame :=
  match f.locals.store_loc idx value with
  | .error e => .error e
  | .ok locals => .ok { f with locals }

def Frame.borrow_loc (f : Frame) (idx : Nat) : VMResult Value := f.locals.borrow_loc idx

/-- The call stack of interpreter.rs: a bounded vector of frames with the
top at the head of the list. -/
structure CallStack where
  frames : List Frame

/-- CallStack::new. -/
def CallStack.new : CallStack := ⟨[]⟩

/-- CallStack::push of interpreter.rs lines 1043-1053: push when below the
limit; when full the frame is handed back unchanged (the Rust Result's Err
payload) and the stack is unmodified. -/
def CallStack.push (cs : CallStack) (frame : Frame) : Except Frame CallStack :=
  if cs.frames.length < CALL_STACK_SIZE_LIMIT then .ok ⟨frame :: cs.frames⟩
  else .error frame

/-- CallStack::pop. -/
def CallStack.pop (cs : CallStack) : Option (Frame × CallStack) :=
  match cs.frames with
  | [] => none
  | f :: rest => some (f, ⟨rest⟩)

/-- An ExitCode from execute_code_unit (interpreter.rs lines 1072-1081). -/
inductive ExitCode
  | Return
  | Call (idx : Nat) (type_actuals_idx : Nat)
  | CreateAccount

/-! ## External collaborators of the interpreter

The module cache, the transaction data cache, native function dispatch,
value serialization and reference-cell mutation are external to the
embedded core (their sources are not available here); they are modelled
from the spec, sections 4.C and 6, as an oracle record over opaque state
types. The data cache's contents are an opaque token DVState evolved by
the oracle operations; reference-cell writes evolve the same token. -/

/-- Opaque state of the transaction data cache (overlay over the remote
view), including the reference-cell world. -/
abbrev DVState := Nat

/-- Opaque resolved struct definition (StructDef of vm-runtime-types). -/
abbrev StructDef := Nat

/-- Opaque materialized write set. -/
abbrev WriteSetT := Nat

/-- An access path naming a resource slot: address plus path bytes (spec,
section 6). -/
structure AccessPath where
  address : Nat
  path : List Nat

/-- The result of a native function: its cost and its produced values
(native_functions dispatch contract, interpreter.rs lines 678-688). -/
structure NativeResult where
  cost : Nat
  result : VMResult (List Value)

/-- A resolved native function: expected argument count and dispatch. -/
structure NativeFunction where
  num_args : Nat
  dispatch : List Value → VMResult NativeResult

/-- The oracle record bundling every external collaborator the embedded
interpreter and executor consume. Modelled from the spec, section 6
(module cache contract, remote view contract) and section 4.C (data cache
operations, each returning an AbstractMemorySize for gas accounting).
instruction_cost is the per-instruction total of the cost table (spec,
section 4.A); the sizes returned by the data-cache operations drive the
second gas charge of the global-storage instructions. -/
structure VMContext where
  instruction_cost : Bytecode → Nat
  resolve_function_ref : LoadedModule → Nat → VMResult (Option FunctionRef)
  resolve_struct_def : LoadedModule → Nat → VMResult (Option StructDef)
  get_loaded_module : ModuleIdT → VMResult (Option LoadedModule)
  resolve_native_function : ModuleIdT → String → Option NativeFunction
  simple_serialize : Value → Option (List Nat)
  event_key_of : List Nat → Option (List Nat)
  make_access_path : LoadedModule → Nat → Nat → AccessPath
  borrow_field : Value → Nat → VMResult Value
  read_ref : Value → VMResult Value
  write_ref : Value → Value → DVState → DVState
  borrow_global : AccessPath → StructDef → DVState → VMResult (Nat × AbstractMemorySize × DVState)
  resource_exists : AccessPath → StructDef → DVState → VMResult (Bool × AbstractMemorySize × DVState)
  move_resource_from : AccessPath → StructDef → DVState → VMResult (Value × DVState)
  move_resource_to : AccessPath → StructDef → List Value → DVState → VMResult DVState
  data_cache_clear : DVState → DVState
  make_write_set : DVState → List (ModuleIdT × List Nat) → VMResult WriteSetT

/-- The ModuleId of the LibraAccount module (interpreter.rs lines 50-58);
the core code address is embedded as 0. -/
def ACCOUNT_MODULE : ModuleIdT := { address := 0, name := "LibraAccount" }

/-- The ModuleId of the Event module. -/
def EVENT_MODULE : ModuleIdT := { address := 0, name := "Event" }

/-- Name of the account-creation function (interpreter.rs line 62). -/
def CREATE_ACCOUNT_NAME : String := "make"

/-- Name of the account struct (interpreter.rs line 63). -/
def ACCOUNT_STRUCT_NAME : String := "T"

/-- Name of the event-store native (interpreter.rs line 64). -/
def EMIT_EVENT_NAME : String := "write_to_event_store"

/-- Name of the prologue function (txn_executor.rs line 62). -/
def PROLOGUE_NAME : String := "prologue"

/-- Name of the epilogue function (txn_executor.rs line 63). -/
def EPILOGUE_NAME : String := "epilogue"

/-- The interpreter state: the fields of the Interpreter struct of
interpreter.rs lines 78-99, with the borrowed data store and event vector
embedded as owned state. -/
structure Interpreter where
  operand_stack : Stack
  call_stack : CallStack
  gas_meter : GasMeter
  txn_data : TransactionMetadata
  event_data : List ContractEvent
  data_view : DVState

/-- Interpreter::new of interpreter.rs lines 156-172: empty stacks, and a
gas meter built from the transaction's max gas amount. The gas_meter
PARAMETER is accepted and ignored, exactly as in the source (the field is
initialized from txn_data instead). -/
def Interpreter.new (txn_data : TransactionMetadata) (data_view : DVState)
    (event_data : List ContractEvent) (gas_meter : GasMeter) : Interpreter :=
  { operand_stack := Stack.new
    call_stack := CallStack.new
    gas_meter := GasMeter.new txn_data.max_gas_amount
    txn_data
    event_data
    data_view }

/-- Interpreter::gas_used of interpreter.rs lines 196-202:
(max_gas_amount - remaining) * gas_unit_price over the wrapping carrier. -/
def Interpreter.gas_used (st : Interpreter) : Nat :=
  GasAlgebra.get
    (GasAlgebra.mul
      (GasAlgebra.sub st.txn_data.max_gas_amount st.gas_meter.remaining_gas)
      st.txn_data.gas_unit_price)

/-- Interpreter::clear of interpreter.rs lines 212-215: clear the data
cache and the event list. -/
def Interpreter.clear (ctx : VMContext) (st : Interpreter) : Interpreter :=
  { st with data_view := ctx.data_cache_clear st.data_view, event_data := [] }

/-- Push helper threading the interpreter state through Stack::push. -/
def Interpreter.pushValue (st : Interpreter) (v : Value) : VMResult Interpreter :=
  match st.operand_stack.push v with
  | .error e => .error e
  | .ok s => .ok { st with operand_stack := s }

/-- Pop helper threading the interpreter state through Stack::pop. -/
def Interpreter.popValue (st : Interpreter) : VMResult (Value × Interpreter) :=
  match st.operand_stack.pop with
  | .error e => .error e
  | .ok (v, s) => .ok (v, { st with operand_stack := s })

/-- Stack::pop_as of bool. -/
def Interpreter.popBool (st : Interpreter) : VMResult (Bool × Interpreter) :=
  match st.popValue with
  | .error e => .error e
  | .ok (v, st) =>
    match v.value_as_bool with
    | .error e => .error e
    | .ok b => .ok (b, st)

/-- Stack::pop_as of u64. -/
def Interpreter.popU64 (st : Interpreter) : VMResult (Nat × Interpreter) :=
  match st.popValue with
  | .error e => .error e
  | .ok (v, st) =>
    match v.value_as_u64 with
    | .error e => .error e
    | .ok n => .ok (n, st)

/-- Stack::pop_as of AccountAddress. -/
def Interpreter.popAddress (st : Interpreter) : VMResult (Nat × Interpreter) :=
  match st.popValue with
  | .error e => .error e
  | .ok (v, st) =>
    match v.value_as_address with
    | .error e => .error e
    | .ok a => .ok (a, st)

/-- Stack::pop_as of ByteArray. -/
def Interpreter.popByteArray (st : Interpreter) : VMResult (List Nat × Interpreter) :=
  match st.popValue with
  | .error e => .error e
  | .ok (v, st) =>
    match v.value_as_byte_array with
    | .error e => .error e
    | .ok bytes => .ok (bytes, st)

/-- Stack::pop_as of Struct. -/
def Interpreter.popStruct (st : Interpreter) : VMResult (List Value × Interpreter) :=
  match st.popValue with
  | .error e => .error e
  | .ok (v, st) =>
    match v.value_as_struct with
    | .error e => .error e
    | .ok fields => .ok (fields, st)

/-- Stack::pop_as of ReferenceValue. -/
def Interpreter.popReference (st : Interpreter) : VMResult (Value × Interpreter) :=
  match st.popValue with
  | .error e => .error e
  | .ok (v, st) =>
    match v.value_as_reference with
    | .error e => .error e
    | .ok r => .ok (r, st)

/-! ## Checked u64 arithmetic (the Rust u64::checked_* family) -/

/-- u64::checked_add. -/
def u64checked_add (l r : Nat) : Option Nat :=
  if l + r < u64Modulus then some (l + r) else none

/-- u64::checked_sub. -/
def u64checked_sub (l r : Nat) : Option Nat :=
  if r ≤ l then some (l - r) else none

/-- u64::checked_mul. -/
def u64checked_mul (l r : Nat) : Option Nat :=
  if l * r < u64Modulus then some (l * r) else none

/-- u64::checked_div. -/
def u64checked_div (l r : Nat) : Option Nat :=
  if r = 0 then none else some (l / r)

/-- u64::checked_rem. -/
def u64checked_rem (l r : Nat) : Option Nat :=
  if r = 0 then none else some (l % r)

/-! ## Interpreter helpers: interpreter.rs lines 718-833 -/

/-- Interpreter::binop specialized at T = u64 with a u64-valued partial
operation and composed with Value::u64, i.e. Interpreter::binop_int of
interpreter.rs lines 736-742: pop the right operand, pop the left
operand, and either push the result or fail with ARITHMETIC_ERROR when
the operation returns nothing. -/
def Interpreter.binop_int (st : Interpreter) (f : Nat → Nat → Option Nat) : VMResult Interpreter :=
  match st.popU64 with
  | .error e => .error e
  | .ok (rhs, st) =>
    match st.popU64 with
    | .error e => .error e
    | .ok (lhs, st) =>
      match f lhs rhs with
      | some v => st.pushValue (.u64 v)
      | none => .error (VMStatus.new .ARITHMETIC_ERROR)

/-- Interpreter::binop_bool at T = u64 (the comparison instructions):
always produces a boolean to push. -/
def Interpreter.binop_bool_int (st : Interpreter) (f : Nat → Nat → Bool) : VMResult Interpreter :=
  match st.popU64 with
  | .error e => .error e
  | .ok (rhs, st) =>
    match st.popU64 with
    | .error e => .error e
    | .ok (lhs, st) => st.pushValue (.bool (f lhs rhs))

/-- Interpreter::binop_bool at T = bool (the logical instructions). -/
def Interpreter.binop_bool_bool (st : Interpreter) (f : Bool → Bool → Bool) : VMResult Interpreter :=
  match st.popBool with
  | .error e => .error e
  | .ok (rhs, st) =>
    match st.popBool with
    | .error e => .error e
    | .ok (lhs, st) => st.pushValue (.bool (f lhs rhs))

/-- Interpreter::borrow_global of interpreter.rs lines 779-788: borrow
the resource through the data cache, push the global reference, and
return the borrowed resource's size. -/
def Interpreter.borrow_global_op (ctx : VMContext) (st : Interpreter)
    (ap : AccessPath) (struct_def : StructDef) : VMResult (AbstractMemorySize × Interpreter) :=
  match ctx.borrow_global ap struct_def st.data_view with
  | .error e => .error e
  | .ok (rid, size, dv) =>
    match Interpreter.pushValue { st with data_view := dv } (.global_ref rid) with
    | .error e => .error e
    | .ok st => .ok (size, st)

/-- Interpreter::exists of interpreter.rs lines 791-799: query existence,
push the boolean, return the memory size. -/
def Interpreter.exists_op (ctx : VMContext) (st : Interpreter)
    (ap : AccessPath) (struct_def : StructDef) : VMResult (AbstractMemorySize × Interpreter) :=
  match ctx.resource_exists ap struct_def st.data_view with
  | .error e => .error e
  | .ok (exists_, mem_size, dv) =>
    match Interpreter.pushValue { st with data_view := dv } (.bool exists_) with
    | .error e => .error e
    | .ok st => .ok (mem_size, st)

/-- Interpreter::move_from of interpreter.rs lines 802-811: move the
resource out of the cache, push it, return its size. -/
def Interpreter.move_from_op (ctx : VMContext) (st : Interpreter)
    (ap : AccessPath) (struct_def : StructDef) : VMResult (AbstractMemorySize × Interpreter) :=
  match ctx.move_resource_from ap struct_def st.data_view with
  | .error e => .error e
  | .ok (resource, dv) =>
    let size := AbstractMemorySize.mk resource.size
    match Interpreter.pushValue { st with data_view := dv } resource with
    | .error e => .error e
    | .ok st => .ok (size, st)

/-- Interpreter::move_to_sender of interpreter.rs lines 814-823: pop the
resource struct, move it into the cache, return its size. -/
def Interpreter.move_to_sender_op (ctx : VMContext) (st : Interpreter)
    (ap : AccessPath) (struct_def : StructDef) : VMResult (AbstractMemorySize × Interpreter) :=
  match st.popStruct with
  | .error e => .error e
  | .ok (resource, st) =>
    let size := AbstractMemorySize.mk (Value.size (.struct_ resource))
    match ctx.move_resource_to ap struct_def resource st.data_view with
    | .error e => .error e
    | .ok dv => .ok (size, { st with data_view := dv })

/-- Selector for the four data-cache operations passed to global_data_op
as closures in the source. -/
inductive GlobalDataOp
  | BorrowGlobal
  | ExistsOp
  | MoveFrom
  | MoveToSender

/-- Interpreter::global_data_op of interpreter.rs lines 757-776: build
the access path, resolve the struct definition through the module cache
(LINKER_ERROR when absent), and dispatch to the specific operation. -/
def Interpreter.global_data_op (ctx : VMContext) (st : Interpreter) (address : Nat)
    (idx : Nat) (module : LoadedModule) (op : GlobalDataOp) :
    VMResult (AbstractMemorySize × Interpreter) :=
  let ap := ctx.make_access_path module idx address
  match ctx.resolve_struct_def module idx with
  | .error e => .error e
  | .ok none => .error (VMStatus.new .LINKER_ERROR)
  | .ok (some struct_def) =>
    match op with
    | .BorrowGlobal => Interpreter.borrow_global_op ctx st ap struct_def
    | .ExistsOp => Interpreter.exists_op ctx st ap struct_def
    | .MoveFrom => Interpreter.move_from_op ctx st ap struct_def
    | .MoveToSender => Interpreter.move_to_sender_op ctx st ap struct_def

/-- The Unpack arm's push loop (interpreter.rs lines 473-476): push the
fields of the unpacked struct at offsets start, start+1, ... while
remaining counts down, reading each field through get_field_value. -/
def Interpreter.pushUnpackedFields (fields : List Value) :
    Nat → Nat → Interpreter → VMResult Interpreter
  | _, 0, st => .ok st
  | start, Nat.succ remaining, st =>
    match Struct.get_field_value fields start with
    | .error e => .error e
    | .ok v =>
      match st.pushValue v with
      | .error e => .error e
      | .ok st => Interpreter.pushUnpackedFields fields (start + 1) remaining st

/-! ## The instruction dispatch: one iteration of the inner loop of
Interpreter::execute_code_unit (interpreter.rs lines 386-608) -/

/-- One iteration of the instruction walk: charge the instruction's gas
with memory-size operand 1, advance the program counter, then execute the
instruction's semantics. The result is the possibly updated frame and
state plus an exit code when a Ret, Call or CreateAccount ends the walk
(none means the walk continues, whether by fall-through or by a taken
branch that reset the program counter). -/
def execute_instruction (ctx : VMContext) (frame : Frame) (st : Interpreter)
    (instruction : Bytecode) : VMResult (Option ExitCode × Frame × Interpreter) :=
  match st.gas_meter.calculate_and_consume ctx.instruction_cost instruction (AbstractMemorySize.mk 1) with
  | .error e => .error e
  | .ok gm =>
  let st := { st with gas_meter := gm }
  let frame := { frame with pc := frame.pc + 1 }
  match instruction with
  | .Pop =>
    match st.popValue with
    | .error e => .error e
    | .ok (_, st) => .ok (none, frame, st)
  | .Ret => .ok (some .Return, frame, st)
  | .BrTrue offset =>
    match st.popBool with
    | .error e => .error e
    | .ok (b, st) =>
      if b then .ok (none, { frame with pc := offset }, st)
      else .ok (none, frame, st)
  | .BrFalse offset =>
    match st.popBool with
    | .error e => .error e
    | .ok (b, st) =>
      if !b then .ok (none, { frame with pc := offset }, st)
      else .ok (none, frame, st)
  | .Branch offset => .ok (none, { frame with pc := offset }, st)
  | .LdConst int_const =>
    match st.pushValue (.u64 int_const) with
    | .error e => .error e
    | .ok st => .ok (none, frame, st)
  | .LdAddr idx =>
    match st.pushValue (.address (frame.module.address_at idx)) with
    | .error e => .error e
    | .ok st => .ok (none, frame, st)
  | .LdStr idx =>
    match st.pushValue (.string (frame.module.user_string_at idx)) with
    | .error e => .error e
    | .ok st => .ok (none, frame, st)
  | .LdByteArray idx =>
    match st.pushValue (.byte_array (frame.module.byte_array_at idx)) with
    | .error e => .error e
    | .ok st => .ok (none, frame, st)
  | .LdTrue =>
    match st.pushValue (.bool true) with
    | .error e => .error e
    | .ok st => .ok (none, frame, st)
  | .LdFalse =>
    match st.pushValue (.bool false) with
    | .error e => .error e
    | .ok st => .ok (none, frame, st)
  | .CopyLoc idx =>
    match frame.copy_loc idx with
    | .error e => .error e
    | .ok v =>
      match st.pushValue v with
      | .error e => .error e
      | .ok st => .ok (none, frame, st)
  | .MoveLoc idx =>
    match frame.move_loc idx with
    | .error e => .error e
    | .ok (v, frame) =>
      match st.pushValue v with
      | .error e => .error e
      | .ok st => .ok (none, frame, st)
  | .StLoc idx =>
    match st.popValue with
    | .error e => .error e
    | .ok (v, st) =>
      match frame.store_loc idx v with
      | .error e => .error e
      | .ok frame => .ok (none, frame, st)
  | .Call idx type_actuals_idx => .ok (some (.Call idx type_actuals_idx), frame, st)
  | .MutBorrowLoc idx | .ImmBorrowLoc idx =>
    match frame.borrow_loc idx with
    | .error e => .error e
    | .ok v =>
      match st.pushValue v with
      | .error e => .error e
      | .ok st => .ok (none, frame, st)
  | .ImmBorrowField fd_idx | .MutBorrowField fd_idx =>
    match frame.module.get_field_offset fd_idx with
    | .error e => .error e
    | .ok field_offset =>
      match st.popReference with
      | .error e => .error e
      | .ok (reference, st) =>
        match ctx.borrow_field reference field_offset with
        | .error e => .error e
        | .ok field_ref =>
          match st.pushValue field_ref with
          | .error e => .error e
          | .ok st => .ok (none, frame, st)
  | .Pack sd_idx _ =>
    match frame.module.declared_field_count sd_idx with
    | .error e => .error e
    | .ok field_count =>
      match st.operand_stack.popn field_count with
      | .error e => .error e
      | .ok (args, s) =>
        match Interpreter.pushValue { st with operand_stack := s } (.struct_ args) with
        | .error e => .error e
        | .ok st => .ok (none, frame, st)
  | .Unpack sd_idx _ =>
    match frame.module.declared_field_count sd_idx with
    | .error e => .error e
    | .ok field_count =>
      match st.popStruct with
      | .error e => .error e
      | .ok (fields, st) =>
        match Interpreter.pushUnpackedFields fields 0 field_count st with
        | .error e => .error e
        | .ok st => .ok (none, frame, st)
  | .ReadRef =>
    match st.popReference with
    | .error e => .error e
    | .ok (reference, st) =>
      match ctx.read_ref reference with
      | .error e => .error e
      | .ok v =>
        match st.pushValue v with
        | .error e => .error e
        | .ok st => .ok (none, frame, st)
  | .WriteRef =>
    match st.popReference with
    | .error e => .error e
    | .ok (reference, st) =>
      match st.popValue with
      | .error e => .error e
      | .ok (v, st) =>
        .ok (none, frame, { st with data_view := ctx.write_ref reference v st.data_view })
  | .Add =>
    match st.binop_int u64checked_add with
    | .error e => .error e
    | .ok st => .ok (none, frame, st)
  | .Sub =>
    match st.binop_int u64checked_sub with
    | .error e => .error e
    | .ok st => .ok (none, frame, st)
  | .Mul =>
    match st.binop_int u64checked_mul with
    | .error e => .error e
    | .ok st => .ok (none, frame, st)
  | .Mod =>
    match st.binop_int u64checked_rem with
    | .error e => .error e
    | .ok st => .ok (none, frame, st)
  | .Div =>
    match st.binop_int u64checked_div with
    | .error e => .error e
    | .ok st => .ok (none, frame, st)
  | .BitOr =>
    match st.binop_int (fun l r => some (Nat.lor l r)) with
    | .error e => .error e
    | .ok st => .ok (none, frame, st)
  | .BitAnd =>
    match st.binop_int (fun l r => some (Nat.land l r)) with
    | .error e => .error e
    | .ok st => .ok (none, frame, st)
  | .Xor =>
    match st.binop_int (fun l r => some (Nat.xor l r)) with
    | .error e => .error e
    | .ok st => .ok (none, frame, st)
  | .Or =>
    match st.binop_bool_bool (fun l r => l || r) with
    | .error e => .error e
    | .ok st => .ok (none, frame, st)
  | .And =>
    match st.binop_bool_bool (fun l r => l && r) with
    | .error e => .error e
    | .ok st => .ok (none, frame, st)
  | .Lt =>
    match st.binop_bool_int (fun l r => decide (l < r)) with
    | .error e => .error e
    | .ok st => .ok (none, frame, st)
  | .Gt =>
    match st.binop_bool_int (fun l r => decide (l > r)) with
    | .error e => .error e
    | .ok st => .ok (none, frame, st)
  | .Le =>
    match st.binop_bool_int (fun l r => decide (l ≤ r)) with
    | .error e => .error e
    | .ok st => .ok (none, frame, st)
  | .Ge =>
    match st.binop_bool_int (fun l r => decide (l ≥ r)) with
    | .error e => .error e
    | .ok st => .ok (none, frame, st)
  | .Abort =>
    match st.popU64 with
    | .error e => .error e
    | .ok (error_code, _) =>
      .error ((VMStatus.new .ABORTED).with_sub_status error_code)
  | .Eq =>
    match st.popValue with
    | .error e => .error e
    | .ok (lhs, st) =>
      match st.popValue with
      | .error e => .error e
      | .ok (rhs, st) =>
        match lhs.equals rhs with
        | .error e => .error e
        | .ok b =>
          match st.pushValue (.bool b) with
          | .error e => .error e
          | .ok st => .ok (none, frame, st)
  | .Neq =>
    match st.popValue with
    | .error e => .error e
    | .ok (lhs, st) =>
      match st.popValue with
      | .error e => .error e
      | .ok (rhs, st) =>
        match lhs.not_equals rhs with
        | .error e => .error e
        | .ok b =>
          match st.pushValue (.bool b) with
          | .error e => .error e
          | .ok st => .ok (none, frame, st)
  | .GetTxnGasUnitPrice =>
    match st.pushValue (.u64 st.txn_data.gas_unit_price.val) with
    | .error e => .error e
    | .ok st => .ok (none, frame, st)
  | .GetTxnMaxGasUnits =>
    match st.pushValue (.u64 st.txn_data.max_gas_amount.val) with
    | .error e => .error e
    | .ok st => .ok (none, frame, st)
  | .GetTxnSequenceNumber =>
    match st.pushValue (.u64 st.txn_data.sequence_number) with
    | .error e => .error e
    | .ok st => .ok (none, frame, st)
  | .GetTxnSenderAddress =>
    match st.pushValue (.address st.txn_data.sender) with
    | .error e => .error e
    | .ok st => .ok (none, frame, st)
  | .GetTxnPublicKey =>
    match st.pushValue (.byte_array st.txn_data.public_key) with
    | .error e => .error e
    | .ok st => .ok (none, frame, st)
  | .MutBorrowGlobal idx _ | .ImmBorrowGlobal idx _ =>
    match st.popAddress with
    | .error e => .error e
    | .ok (addr, st) =>
      match Interpreter.global_data_op ctx st addr idx frame.module .BorrowGlobal with
      | .error e => .error e
      | .ok (size, st) =>
        match st.gas_meter.calculate_and_consume ctx.instruction_cost instruction size with
        | .error e => .error e
        | .ok gm => .ok (none, frame, { st with gas_meter := gm })
  | .Exists idx _ =>
    match st.popAddress with
    | .error e => .error e
    | .ok (addr, st) =>
      match Interpreter.global_data_op ctx st addr idx frame.module .ExistsOp with
      | .error e => .error e
      | .ok (size, st) =>
        match st.gas_meter.calculate_and_consume ctx.instruction_cost instruction size with
        | .error e => .error e
        | .ok gm => .ok (none, frame, { st with gas_meter := gm })
  | .MoveFrom idx _ =>
    match st.popAddress with
    | .error e => .error e
    | .ok (addr, st) =>
      match Interpreter.global_data_op ctx st addr idx frame.module .MoveFrom with
      | .error e => .error e
      | .ok (size, st) =>
        match st.gas_meter.calculate_and_consume ctx.instruction_cost instruction size with
        | .error e => .error e
        | .ok gm => .ok (none, frame, { st with gas_meter := gm })
  | .MoveToSender idx _ =>
    let addr := st.txn_data.sender
    match Interpreter.global_data_op ctx st addr idx frame.module .MoveToSender with
    | .error e => .error e
    | .ok (size, st) =>
      match st.gas_meter.calculate_and_consume ctx.instruction_cost instruction size with
      | .error e => .error e
      | .ok gm => .ok (none, frame, { st with gas_meter := gm })
  | .CreateAccount => .ok (some .CreateAccount, frame, st)
  | .FreezeRef => .ok (none, frame, st)
  | .Not =>
    match st.popBool with
    | .error e => .error e
    | .ok (b, st) =>
      match st.pushValue (.bool (!b)) with
      | .error e => .error e
      | .ok st => .ok (none, frame, st)
  | .GetGasRemaining =>
    match st.pushValue (.u64 st.gas_meter.remaining_gas.val) with
    | .error e => .error e
    | .ok st => .ok (none, frame, st)

/-! ## Native calls and call frames: interpreter.rs lines 626-716 -/

/-- The argument-gathering loop of call_native (interpreter.rs lines
678-680): pop expected_args values, pushing each onto the FRONT of the
argument buffer so that the buffer ends up in source (bottom-to-top)
order. -/
def Interpreter.popNativeArgs : Nat → List Value → Interpreter → VMResult (List Value × Interpreter)
  | 0, arguments, st => .ok (arguments, st)
  | Nat.succ k, arguments, st =>
    match st.popValue with
    | .error e => .error e
    | .ok (v, st) => Interpreter.popNativeArgs k (v :: arguments) st

/-- The result-push loop of call_native (interpreter.rs lines 683-688). -/
def Interpreter.pushValues : List Value → Interpreter → VMResult Interpreter
  | [], st => .ok st
  | v :: rest, st =>
    match st.pushValue v with
    | .error e => .error e
    | .ok st => Interpreter.pushValues rest st

/-- Modelled from the spec: ByteArray::new(addr.to_vec()), the byte-array
image of an account address, embedded as a singleton token list. -/
def addressToByteArray (addr : Nat) : List Nat := [addr]

/-- Interpreter::call_emit_event of interpreter.rs lines 693-716: the
special native that appends to the event store. Expects exactly one type
actual; pops the message (serialized, DATA_FORMAT_ERROR when it cannot
be), the count and the key (EVENT_KEY_MISMATCH when not a valid event
key), and appends the event in emission order. -/
def Interpreter.call_emit_event (ctx : VMContext) (st : Interpreter)
    (type_actual_tags : List TypeTag) : VMResult Interpreter :=
  match type_actual_tags with
  | [type_tag] =>
    (match st.popValue with
    | .error e => .error e
    | .ok (v, st) =>
      match ctx.simple_serialize v with
      | none => .error (VMStatus.new .DATA_FORMAT_ERROR)
      | some msg =>
        match st.popU64 with
        | .error e => .error e
        | .ok (count, st) =>
          match st.popByteArray with
          | .error e => .error e
          | .ok (key, st) =>
            match ctx.event_key_of key with
            | none => .error (VMStatus.new .EVENT_KEY_MISMATCH)
            | some guid =>
              .ok { st with event_data := st.event_data ++
                     [{ key := guid, sequence_number := count, type_tag, event_data := msg }] })
  | _ =>
    .error ((VMStatus.new .VERIFIER_INVARIANT_VIOLATION).with_message
      ("write_to_event_storage expects 1 argument."))

/-- Interpreter::call_native of interpreter.rs lines 655-690: resolve the
native (LINKER_ERROR when unknown); the event-store native is special
cased; otherwise check the argument count against the native's
expectation (LINKER_ERROR on mismatch), gather the arguments, dispatch,
charge the returned cost, and push the results. -/
def Interpreter.call_native (ctx : VMContext) (st : Interpreter) (function : FunctionRef)
    (type_actual_tags : List TypeTag) : VMResult Interpreter :=
  let module_id := function.module.self_id
  let function_name := function.name
  match ctx.resolve_native_function module_id function_name with
  | none => .error (VMStatus.new .LINKER_ERROR)
  | some native_function =>
    if module_id = EVENT_MODULE ∧ function_name = EMIT_EVENT_NAME then
      Interpreter.call_emit_event ctx st type_actual_tags
    else
      let expected_args := native_function.num_args
      if function.arg_count ≠ expected_args then
        .error (VMStatus.new .LINKER_ERROR)
      else
        match Interpreter.popNativeArgs expected_args [] st with
        | .error e => .error e
        | .ok (arguments, st) =>
          match native_function.dispatch arguments with
          | .error e => .error e
          | .ok result =>
            match st.gas_meter.consume_gas (GasUnits.mk result.cost) with
            | .error e => .error e
            | .ok gm =>
              match result.result with
              | .error e => .error e
              | .ok values => Interpreter.pushValues values { st with gas_meter := gm }

/-- The argument-storing loop of make_call_frame (interpreter.rs lines
647-649): iteration i pops a value into local slot arg_count - i - 1, so
with remaining = arg_count - i the slot index is remaining - 1. -/
def Interpreter.storeCallArgs : Nat → Locals → Interpreter → VMResult (Locals × Interpreter)
  | 0, locals, st => .ok (locals, st)
  | Nat.succ k, locals, st =>
    match st.popValue with
    | .error e => .error e
    | .ok (v, st) =>
      match locals.store_loc k v with
      | .error e => .error e
      | .ok locals => Interpreter.storeCallArgs k locals st

/-- Interpreter::make_call_frame of interpreter.rs lines 631-652: resolve
the function (LINKER_ERROR when absent); native calls are inlined and
produce no frame; otherwise allocate locals sized to the callee, pop
arg_count values into the locals in reverse order (slot 0 receives the
first, deepest-pushed argument), and produce the new frame. -/
def Interpreter.make_call_frame (ctx : VMContext) (st : Interpreter) (module : LoadedModule)
    (idx : Nat) (type_actual_tags : List TypeTag) : VMResult (Option Frame × Interpreter) :=
  match ctx.resolve_function_ref module idx with
  | .error e => .error e
  | .ok none => .error (VMStatus.new .LINKER_ERROR)
  | .ok (some func) =>
    if func.is_native then
      match Interpreter.call_native ctx st func type_actual_tags with
      | .error e => .error e
      | .ok st => .ok (none, st)
    else
      let locals := Locals.new func.local_count
      let arg_count := func.arg_count
      match Interpreter.storeCallArgs arg_count locals st with
      | .error e => .error e
      | .ok (locals, st) => .ok (some (Frame.new func type_actual_tags locals), st)

/-- Interpreter::save_account of interpreter.rs lines 861-880: resolve
the account struct definition, pop the freshly made account resource and
publish it at the account path of the given address. -/
def Interpreter.save_account (ctx : VMContext) (st : Interpreter)
    (account_module : LoadedModule) (addr : Nat) : VMResult Interpreter :=
  match account_module.struct_defs_table.lookup ACCOUNT_STRUCT_NAME with
  | none => .error (VMStatus.new .LINKER_ERROR)
  | some account_struct_id =>
    match ctx.resolve_struct_def account_module account_struct_id with
    | .error e => .error e
    | .ok none => .error (VMStatus.new .LINKER_ERROR)
    | .ok (some account_struct_def) =>
      match st.popStruct with
      | .error e => .error e
      | .ok (account_resource, st) =>
        let account_path := ctx.make_access_path account_module account_struct_id addr
        match ctx.move_resource_to account_path account_struct_def account_resource st.data_view with
        | .error e => .error e
        | .ok dv => .ok { st with data_view := dv }

/-- Interpreter::maybe_core_dump of interpreter.rs lines 911-924: logging
of invariant violations only; the error value passes through unchanged. -/
def Interpreter.maybe_core_dump (err : VMStatus) : VMStatus := err

/-! ## The interpreter loops, fuel-indexed -/

/-- The result of a fuel-indexed run: success, a VMStatus error, or fuel
exhaustion (the embedding's marker for a computation longer than the
given bound; no theorem draws conclusions from it). -/
inductive RunResult (α : Type)
  | ok (a : α)
  | err (e : VMStatus)
  | outOfFuel

/-- Interpreter::execute_code_unit of interpreter.rs lines 379-624: walk
the code stream of the current frame one instruction at a time (the gas
charge and dispatch are execute_instruction) until an exit code is
produced; reaching past the end of the code fails with PC_OVERFLOW. -/
def execute_code_unit (ctx : VMContext) : Nat → Frame → Interpreter →
    RunResult (ExitCode × Frame × Interpreter)
  | 0, _, _ => .outOfFuel
  | Nat.succ fuel, frame, st =>
    let code := frame.code_definition
    if h : frame.pc < code.length then
      match execute_instruction ctx frame st (code.get ⟨frame.pc, h⟩) with
      | .error e => .err e
      | .ok (none, frame, st) => execute_code_unit ctx fuel frame st
      | .ok (some exit_code, frame, st) => .ok (exit_code, frame, st)
    else .err (VMStatus.new .PC_OVERFLOW)

/-- The argument-loading loop at the top of execute_main (interpreter.rs
lines 305-309): store the i-th argument into local slot i. -/
def storeInitialArgs : Locals → Nat → List Value → VMResult Locals
  | locals, _, [] => .ok locals
  | locals, i, v :: rest =>
    match locals.store_loc i v with
    | .error e => .error e
    | .ok locals => storeInitialArgs locals (i + 1) rest

mutual
/-- Interpreter::execute_main of interpreter.rs lines 299-375: allocate
and fill the entry frame's locals, then drive the frame loop. The
create_account_marker records the call-stack depth at which a Ret
completes this invocation. -/
def execute_main (ctx : VMContext) : Nat → FunctionRef → List Value → Nat → Interpreter →
    RunResult Interpreter
  | 0, _, _, _, _ => .outOfFuel
  | Nat.succ fuel, function, args, create_account_marker, st =>
    match storeInitialArgs (Locals.new function.local_count) 0 args with
    | .error e => .err e
    | .ok locals =>
      execute_main_loop ctx fuel (Frame.new function [] locals) create_account_marker st

/-- The frame loop of execute_main: run the current frame's code to an
exit code, then return to the caller frame, enter a callee frame, or run
the transitional CreateAccount opcode, exactly as the match on ExitCode
in interpreter.rs lines 316-373. -/
def execute_main_loop (ctx : VMContext) : Nat → Frame → Nat → Interpreter → RunResult Interpreter
  | 0, _, _, _ => .outOfFuel
  | Nat.succ fuel, current_frame, create_account_marker, st =>
    match execute_code_unit ctx (Nat.succ fuel) current_frame st with
    | .outOfFuel => .outOfFuel
    | .err e => .err (Interpreter.maybe_core_dump e)
    | .ok (exit_code, current_frame, st) =>
      match exit_code with
      | .Return =>
        if create_account_marker = st.call_stack.frames.length then .ok st
        else
          match st.call_stack.pop with
          | some (frame, cs) =>
            execute_main_loop ctx fuel frame create_account_marker { st with call_stack := cs }
          | none =>
            .err ((VMStatus.new .UNREACHABLE).with_message ("call stack cannot be empty"))
      | .Call idx type_actuals_idx =>
        let type_actuals := current_frame.module.locals_signature_at type_actuals_idx
        match derive_type_tag_list current_frame.module current_frame.type_actual_tags type_actuals with
        | .error e => .err e
        | .ok type_actual_tags =>
          match Interpreter.make_call_frame ctx st current_frame.module idx type_actual_tags with
          | .error e => .err (Interpreter.maybe_core_dump e)
          | .ok (none, st) => execute_main_loop ctx fuel current_frame create_account_marker st
          | .ok (some frame, st) =>
            match st.call_stack.push current_frame with
            | .error _ => .err (Interpreter.maybe_core_dump (VMStatus.new .CALL_STACK_OVERFLOW))
            | .ok cs =>
              execute_main_loop ctx fuel frame create_account_marker { st with call_stack := cs }
      | .CreateAccount =>
        match st.call_stack.push current_frame with
        | .error _ => .err (VMStatus.new .CALL_STACK_OVERFLOW)
        | .ok cs =>
          match create_account_opcode ctx fuel { st with call_stack := cs } with
          | .outOfFuel => .outOfFuel
          | .err e => .err e
          | .ok st =>
            match st.call_stack.pop with
            | some (frame, cs) =>
              execute_main_loop ctx fuel frame create_account_marker { st with call_stack := cs }
            | none =>
              .err ((VMStatus.new .UNREACHABLE).with_message
                ("returning from CreateAccount opcode with no call stack"))

/-- Interpreter::create_account_opcode of interpreter.rs lines 839-859:
look up the account module's make function, pop the address, run make
with metering disabled and the marker at the current call-stack depth,
re-enable metering and save the produced account resource. -/
def create_account_opcode (ctx : VMContext) : Nat → Interpreter → RunResult Interpreter
  | 0, _ => .outOfFuel
  | Nat.succ fuel, st =>
    match ctx.get_loaded_module ACCOUNT_MODULE with
    | .error e => .err e
    | .ok none => .err (VMStatus.new .LINKER_ERROR)
    | .ok (some account_module) =>
      match account_module.function_defs_table.lookup CREATE_ACCOUNT_NAME with
      | none => .err (VMStatus.new .LINKER_ERROR)
      | some create_account_idx =>
        let create_account_fn := FunctionRef.new account_module create_account_idx
        match st.popAddress with
        | .error e => .err e
        | .ok (addr, st) =>
          let st := { st with gas_meter := st.gas_meter.disable_metering }
          match execute_main ctx fuel create_account_fn
              [.byte_array (addressToByteArray addr)] st.call_stack.frames.length st with
          | .outOfFuel => .outOfFuel
          | .err e => .err e
          | .ok st =>
            let st := { st with gas_meter := st.gas_meter.enable_metering }
            match Interpreter.save_account ctx st account_module addr with
            | .error e => .err e
            | .ok st => .ok st
end

/-- Interpreter::execute of interpreter.rs lines 281-289: run execute_main
with marker 0; on failure both stacks are cleared and the error
propagates (the embedding's error carries no state, matching the fact
that the caller never reads the interpreter's stacks after a failure). -/
def Interpreter.execute (ctx : VMContext) (fuel : Nat) (st : Interpreter)
    (function : FunctionRef) (args : List Value) : RunResult Interpreter :=
  execute_main ctx fuel function args 0 st

/-- Interpreter::execute_function of interpreter.rs lines 239-256: load
the module, look the function up by name (LINKER_ERROR when either is
absent) and execute it. -/
def Interpreter.execute_function (ctx : VMContext) (fuel : Nat) (st : Interpreter)
    (module : ModuleIdT) (function_name : String) (args : List Value) : RunResult Interpreter :=
  match ctx.get_loaded_module module with
  | .error e => .err e
  | .ok none => .err (VMStatus.new .LINKER_ERROR)
  | .ok (some loaded_module) =>
    match loaded_module.function_defs_table.lookup function_name with
    | none => .err (VMStatus.new .LINKER_ERROR)
    | some func_idx =>
      Interpreter.execute ctx fuel st (FunctionRef.new loaded_module func_idx) args

/-- Interpreter::interpeter_entrypoint of interpreter.rs lines 260-278:
charge the intrinsic gas for the transaction size, then execute. -/
def Interpreter.interpeter_entrypoint (ctx : VMContext) (fuel : Nat) (st : Interpreter)
    (func : FunctionRef) (args : List Value) : RunResult Interpreter :=
  let txn_size := st.txn_data.transaction_size
  match st.gas_meter.charge_transaction_gas txn_size with
  | .error e => .err e
  | .ok gm => Interpreter.execute ctx fuel { st with gas_meter := gm } func args

/-- Interpreter::create_account_entry of interpreter.rs lines 885-904:
load the account module, run its make function with metering disabled
(the address doubling as the initial authentication key), re-enable
metering and save the account resource. -/
def Interpreter.create_account_entry (ctx : VMContext) (fuel : Nat) (st : Interpreter)
    (addr : Nat) : RunResult Interpreter :=
  match ctx.get_loaded_module ACCOUNT_MODULE with
  | .error e => .err e
  | .ok none => .err (VMStatus.new .LINKER_ERROR)
  | .ok (some account_module) =>
    let st := { st with gas_meter := st.gas_meter.disable_metering }
    match Interpreter.execute_function ctx fuel st ACCOUNT_MODULE CREATE_ACCOUNT_NAME
        [.byte_array (addressToByteArray addr)] with
    | .outOfFuel => .outOfFuel
    | .err e => .err e
    | .ok st =>
      let st := { st with gas_meter := st.gas_meter.enable_metering }
      match Interpreter.save_account ctx st account_module addr with
      | .error e => .err e
      | .ok st => .ok st

/-! ## The transaction executor: txn_executor.rs -/

/-- The transaction status attached to an output. Modelled from the spec,
section 6: Kept(failure), Discard(failure) or Retry, with Executed
represented as Keep of the EXECUTED status. -/
inductive TransactionStatus
  | Keep (status : VMStatus)
  | Discard (status : VMStatus)
  | Retry

/-- The From conversion of VMStatus into TransactionStatus of
libra-types (not among the available sources). Modelled from the spec,
section 7: an InvariantViolation produces a discarded output; any other
execution-time failure produces a kept output. -/
def TransactionStatus.fromVMStatus (status : VMStatus) : TransactionStatus :=
  if status.statusType = .InvariantViolation then .Discard status else .Keep status

/-- A TransactionOutput: write set, events, gas used and status (spec,
section 6). -/
structure TransactionOutput where
  write_set : WriteSetT
  events : List ContractEvent
  gas_used : Nat
  status : TransactionStatus

/-- WriteSet::default: the empty write set of a discarded output. -/
def WriteSetDefault : WriteSetT := 0

/-- A transaction argument as carried by the signed transaction (spec,
section 6). -/
inductive TransactionArgument
  | U64 (n : Nat)
  | Address (a : Nat)
  | Bool (b : Bool)
  | ByteArray (bytes : List Nat)
  | String (s : String)

/-- convert_txn_args of txn_executor.rs lines 325-335. -/
def convert_txn_args (args : List TransactionArgument) : List Value :=
  args.map fun arg =>
    match arg with
    | .U64 i => .u64 i
    | .Address a => .address a
    | .Bool b => .bool b
    | .ByteArray b => .byte_array b
    | .String s => .string s

/-- The TransactionExecutor state of txn_executor.rs lines 73-82: the
transaction's data cache and event list, its metadata, and the gas-left
bookkeeping field. -/
structure TransactionExecutor where
  txn_data : TransactionMetadata
  data_cache : DVState
  event_data : List ContractEvent
  gas_left : GasUnits

/-- TransactionExecutor::new of txn_executor.rs lines 92-104: fresh data
cache over the remote view, empty events, gas_left at max_gas_amount. -/
def TransactionExecutor.new (txn_data : TransactionMetadata) (data_cache : DVState) :
    TransactionExecutor :=
  { txn_data, data_cache, event_data := [], gas_left := txn_data.max_gas_amount }

/-- TransactionExecutor::create_account of txn_executor.rs lines 113-125:
build a gas meter from gas_left, hand it to a fresh interpreter (which
ignores it), run create_account_entry, and read gas_left back from the
LOCAL meter. -/
def TransactionExecutor.create_account (ctx : VMContext) (fuel : Nat)
    (ex : TransactionExecutor) (addr : Nat) : RunResult TransactionExecutor :=
  let gas_meter := GasMeter.new ex.gas_left
  let interpreter := Interpreter.new ex.txn_data ex.data_cache ex.event_data gas_meter
  match Interpreter.create_account_entry ctx fuel interpreter addr with
  | .outOfFuel => .outOfFuel
  | .err e => .err e
  | .ok st =>
    .ok { ex with
          data_cache := st.data_view
          event_data := st.event_data
          gas_left := gas_meter.remaining_gas }

/-- TransactionExecutor::run_prologue of txn_executor.rs lines 129-147:
fresh interpreter over a meter built from gas_left (ignored by
Interpreter::new), metering disabled around the account module's prologue
function, then gas_left read back from the LOCAL meter. -/
def TransactionExecutor.run_prologue (ctx : VMContext) (fuel : Nat)
    (ex : TransactionExecutor) : RunResult TransactionExecutor :=
  let gas_meter := GasMeter.new ex.gas_left
  let interpreter := Interpreter.new ex.txn_data ex.data_cache ex.event_data gas_meter
  let interpreter := { interpreter with gas_meter := interpreter.gas_meter.disable_metering }
  match Interpreter.execute_function ctx fuel interpreter ACCOUNT_MODULE PROLOGUE_NAME [] with
  | .outOfFuel => .outOfFuel
  | .err e => .err e
  | .ok st =>
    let st := { st with gas_meter := st.gas_meter.enable_metering }
    .ok { ex with
          data_cache := st.data_view
          event_data := st.event_data
          gas_left := gas_meter.remaining_gas }

/-- TransactionExecutor::run_epilogue of txn_executor.rs lines 151-169:
identical to the prologue but invoking the epilogue function. -/
def TransactionExecutor.run_epilogue (ctx : VMContext) (fuel : Nat)
    (ex : TransactionExecutor) : RunResult TransactionExecutor :=
  let gas_meter := GasMeter.new ex.gas_left
  let interpreter := Interpreter.new ex.txn_data ex.data_cache ex.event_data gas_meter
  let interpreter := { interpreter with gas_meter := interpreter.gas_meter.disable_metering }
  match Interpreter.execute_function ctx fuel interpreter ACCOUNT_MODULE EPILOGUE_NAME [] with
  | .outOfFuel => .outOfFuel
  | .err e => .err e
  | .ok st =>
    let st := { st with gas_meter := st.gas_meter.enable_metering }
    .ok { ex with
          data_cache := st.data_view
          event_data := st.event_data
          gas_left := gas_meter.remaining_gas }

/-- TransactionExecutor::clear of txn_executor.rs lines 191-194: drop the
transaction-local writes and events. -/
def TransactionExecutor.clear (ctx : VMContext) (ex : TransactionExecutor) :
    TransactionExecutor :=
  { ex with data_cache := ctx.data_cache_clear ex.data_cache, event_data := [] }

/-- error_output of txn_executor.rs lines 313-322: a discarded output
with no write set, no events and zero gas. -/
def error_output (err : VMStatus) : TransactionOutput :=
  { write_set := WriteSetDefault, events := [], gas_used := 0, status := .Discard err }

/-- TransactionExecutor::make_write_set of txn_executor.rs lines 289-310:
gas_used is max_gas_amount minus gas_left over the wrapping carrier, the
write set is materialized from the data cache, and the status is the
TransactionStatus conversion of the given result. -/
def TransactionExecutor.make_write_set (ctx : VMContext) (ex : TransactionExecutor)
    (to_be_published_modules : List (ModuleIdT × List Nat)) (result : Except VMStatus Unit) :
    VMResult TransactionOutput :=
  let gas_used : Nat := GasAlgebra.get (GasAlgebra.sub ex.txn_data.max_gas_amount ex.gas_left)
  match ctx.make_write_set ex.data_cache to_be_published_modules with
  | .error e => .error e
  | .ok write_set =>
    .ok { write_set, events := ex.event_data, gas_used,
          status :=
            match result with
            | .ok _ => TransactionStatus.fromVMStatus (VMStatus.new .EXECUTED)
            | .error err => TransactionStatus.fromVMStatus err }

/-- TransactionExecutor::failed_transaction_cleanup of txn_executor.rs
lines 177-188: discard all local writes and events, re-run the epilogue
from the clean state, and emit the output for the failing result; an
epilogue failure (or a write-set failure) produces a discarded output. -/
def TransactionExecutor.failed_transaction_cleanup (ctx : VMContext) (fuel : Nat)
    (ex : TransactionExecutor) (result : Except VMStatus Unit) : RunResult TransactionOutput :=
  let ex := TransactionExecutor.clear ctx ex
  match TransactionExecutor.run_epilogue ctx fuel ex with
  | .outOfFuel => .outOfFuel
  | .ok ex =>
    match TransactionExecutor.make_write_set ctx ex [] result with
    | .ok out => .ok out
    | .error err => .ok (error_output err)
  | .err err => .ok (error_output err)

/-- TransactionExecutor::transaction_cleanup of txn_executor.rs lines
197-216: run the epilogue after a successful body; on success emit the
write set, falling back to failed_transaction_cleanup when write-set
materialization fails; an epilogue failure is an invariant-violation
discard or otherwise routed through failed_transaction_cleanup. -/
def TransactionExecutor.transaction_cleanup (ctx : VMContext) (fuel : Nat)
    (ex : TransactionExecutor) (to_be_published_modules : List (ModuleIdT × List Nat)) :
    RunResult TransactionOutput :=
  match TransactionExecutor.run_epilogue ctx fuel ex with
  | .outOfFuel => .outOfFuel
  | .ok ex =>
    match TransactionExecutor.make_write_set ctx ex to_be_published_modules (.ok ()) with
    | .ok trans_out => .ok trans_out
    | .error err => TransactionExecutor.failed_transaction_cleanup ctx fuel ex (.error err)
  | .err err =>
    match err.statusType with
    | .InvariantViolation => .ok (error_output err)
    | _ => TransactionExecutor.failed_transaction_cleanup ctx fuel ex (.error err)

/-- TransactionExecutor::interpeter_entrypoint of txn_executor.rs lines
220-236: a fresh interpreter over a meter built from gas_left (ignored by
Interpreter::new), the entrypoint run on the converted arguments, and
gas_left read back from the LOCAL meter. -/
def TransactionExecutor.interpeter_entrypoint (ctx : VMContext) (fuel : Nat)
    (ex : TransactionExecutor) (func : FunctionRef) (args : List TransactionArgument) :
    RunResult TransactionExecutor :=
  let gas_meter := GasMeter.new ex.gas_left
  let interpreter := Interpreter.new ex.txn_data ex.data_cache ex.event_data gas_meter
  match Interpreter.interpeter_entrypoint ctx fuel interpreter func (convert_txn_args args) with
  | .outOfFuel => .outOfFuel
  | .err e => .err e
  | .ok st =>
    .ok { ex with
          data_cache := st.data_view
          event_data := st.event_data
          gas_left := gas_meter.remaining_gas }

/-- TransactionExecutor::execute_function of txn_executor.rs lines
243-260: as the entrypoint but by module and function name. -/
def TransactionExecutor.execute_function (ctx : VMContext) (fuel : Nat)
    (ex : TransactionExecutor) (module : ModuleIdT) (function_name : String)
    (args : List Value) : RunResult TransactionExecutor :=
  let gas_meter := GasMeter.new ex.gas_left
  let interpreter := Interpreter.new ex.txn_data ex.data_cache ex.event_data gas_meter
  match Interpreter.execute_function ctx fuel interpreter module function_name args with
  | .outOfFuel => .outOfFuel
  | .err e => .err e
  | .ok st =>
    .ok { ex with
          data_cache := st.data_view
          event_data := st.event_data
          gas_left := gas_meter.remaining_gas }

/-! ## The abstract transaction fuzzer:
language/tools/transaction-fuzzer/src/abstract_state.rs and
transaction.rs

Resource identities (type tags with metadata) are embedded as opaque Nat
tokens: the fuzzer only tests them for set membership. Process-global
randomness (the rand crate) is embedded as an oracle record; gen_range of
the rand crate panics when low >= high, which the embedding models as an
explicit panic outcome. Rust panics are a distinct outcome from a None
return, which is what the inhabit theorems below are about. -/

/-- A fuzzer computation outcome: a value, or a Rust panic. -/
inductive FuzzResult (α : Type)
  | ok (a : α)
  | panic (msg : String)
  deriving DecidableEq

/-- An abstract account of abstract_state.rs: its set of resources
(the key material and sequence number play no role here). -/
structure AbstractAccount where
  resources : List Nat
  deriving DecidableEq

/-- The Constraint enum of abstract_state.rs lines 36-42. The range
bounds are over the u128 carrier. -/
inductive Constraint
  | HasResource (r : Nat)
  | DoesNotHaveResource (r : Nat)
  | RangeConstraint (lower : Nat) (upper : Nat)
  | AccountDNE
  deriving DecidableEq

/-- The abstract chain state: the account table keyed by address
(chain_state.rs). -/
structure AbstractChainState where
  accounts : List (Nat × AbstractAccount)

/-- Constraint::constrain_account of abstract_state.rs lines 98-105:
resource constraints test membership; the other constraint kinds panic. -/
def Constraint.constrain_account (c : Constraint) (account : AbstractAccount) : FuzzResult Bool :=
  match c with
  | .HasResource r => .ok (account.resources.contains r)
  | .DoesNotHaveResource r => .ok (!account.resources.contains r)
  | .AccountDNE => .panic ("Contradictory constraint found")
  | .RangeConstraint _ _ => .panic ("Invalid constraint found for address")

/-- Constraint::constrain_bounds of abstract_state.rs lines 107-120: a
range constraint starts or intersects the accumulated bounds (maximum of
lower bounds, minimum of upper bounds); the other constraint kinds
panic. -/
def Constraint.constrain_bounds (c : Constraint) (bounds : Option (Nat × Nat)) :
    FuzzResult (Option (Nat × Nat)) :=
  match c with
  | .RangeConstraint lower upper =>
    match bounds with
    | none => .ok (some (lower, upper))
    | some (other_lower, other_upper) =>
      .ok (some (max lower other_lower, min upper other_upper))
  | .HasResource _ => .panic ("Invalid range constraint encountered")
  | .DoesNotHaveResource _ => .panic ("Invalid range constraint encountered")
  | .AccountDNE => .panic ("Invalid range constraint encountered")

/-- The fold of constrain_bounds over the precondition list
(transaction.rs, the iter().fold(None, ...) in each numeric arm), with
panics propagated. -/
def foldConstrainBounds : List Constraint → Option (Nat × Nat) → FuzzResult (Option (Nat × Nat))
  | [], bounds => .ok bounds
  | c :: rest, bounds =>
    match c.constrain_bounds bounds with
    | .panic m => .panic m
    | .ok bounds => foldConstrainBounds rest bounds

/-- The TransactionArgumentType enum of transaction.rs lines 31-38. -/
inductive TransactionArgumentType
  | U8
  | U64
  | U128
  | Address
  | U8Vector
  | Bool
  deriving DecidableEq

/-- A fuzzer transaction argument (the move-core-types
TransactionArgument as used by the fuzzer, with the u8/u128/u8-vector
variants). -/
inductive FuzzerArgument
  | U8 (n : Nat)
  | U64 (n : Nat)
  | U128 (n : Nat)
  | Address (a : Nat)
  | U8Vector (bytes : List Nat)
  | Bool (b : Bool)
  deriving DecidableEq

/-- The process-global random source of the fuzzer, embedded as an
oracle. gen_range stands for rand's uniform draw over a half-open range;
random_bytes n stands for n fresh random bytes. -/
structure RandomOracle where
  gen_range : Nat → Nat → Nat
  random_u8 : Nat
  random_u64 : Nat
  random_u128 : Nat
  random_bool : Bool
  random_address : Nat
  random_index : Nat
  random_bytes : Nat → List Nat

/-- rand's gen_range(low, high): a uniform draw in the half-open range.
Modelled from the rand crate's contract: the call PANICS when
low >= high. -/
def gen_range (rand : RandomOracle) (low high : Nat) : FuzzResult Nat :=
  if low < high then .ok (rand.gen_range low high)
  else .panic ("gen_range called with low >= high")

/-- TransactionArgumentType::inhabit of transaction.rs lines 132-145: a
fully random value of the type (the unconstrained case). -/
def TransactionArgumentType.inhabit (rand : RandomOracle) :
    TransactionArgumentType → FuzzerArgument
  | .U8 => .U8 (rand.random_u8 % 2 ^ 8)
  | .U64 => .U64 (rand.random_u64 % 2 ^ 64)
  | .U128 => .U128 (rand.random_u128 % 2 ^ 128)
  | .U8Vector => .U8Vector (rand.random_bytes 32)
  | .Bool => .Bool rand.random_bool
  | .Address => .Address rand.random_address

/-- The all-preconditions account test of the Address arm of inhabit
(transaction.rs lines 227-231), short-circuiting like Iterator::all and
propagating panics. -/
def accountMatches : List Constraint → AbstractAccount → FuzzResult Bool
  | [], _ => .ok true
  | c :: rest, account =>
    match c.constrain_account account with
    | .panic m => .panic m
    | .ok b => if b then accountMatches rest account else .ok false

/-- The filter_map over the chain's account table of the Address arm of
inhabit (transaction.rs lines 223-237): the addresses of the accounts
satisfying every precondition. -/
def filterAccounts (preconditions : List Constraint) :
    List (Nat × AbstractAccount) → FuzzResult (List Nat)
  | [] => .ok []
  | (address, account) :: rest =>
    match accountMatches preconditions account with
    | .panic m => .panic m
    | .ok b =>
      match filterAccounts preconditions rest with
      | .panic m => .panic m
      | .ok others => .ok (if b then address :: others else others)

/-- The AbstractTransactionArgument of transaction.rs lines 24-28: a
precondition set and an argument type. -/
structure AbstractTransactionArgument where
  preconditions : List Constraint
  argument_type : TransactionArgumentType

/-- AbstractTransactionArgument::inhabit of transaction.rs lines 147-249.
With no preconditions the type is inhabited fully randomly. Bool ignores
its preconditions. Each numeric type folds its preconditions through
constrain_bounds, falls back to the type's full range, returns none (no
argument) exactly when the bounds are EQUAL, and otherwise calls
gen_range (which panics when lower > upper) and truncates the drawn u128
to the target width. U8Vector draws a length the same way. Address
produces a fresh random address under AccountDNE, and otherwise samples
the accounts satisfying the preconditions (none when the filter is
empty). -/
def AbstractTransactionArgument.inhabit (a : AbstractTransactionArgument)
    (chain_state : AbstractChainState) (rand : RandomOracle) :
    FuzzResult (Option FuzzerArgument) :=
  if a.preconditions.isEmpty then .ok (some (a.argument_type.inhabit rand))
  else
    match a.argument_type with
    | .Bool => .ok (some (TransactionArgumentType.inhabit rand .Bool))
    | .U8 =>
      match foldConstrainBounds a.preconditions none with
      | .panic m => .panic m
      | .ok bounds =>
        let lower_bound := (bounds.getD (0, 2 ^ 8 - 1)).1
        let upper_bound := (bounds.getD (0, 2 ^ 8 - 1)).2
        if lower_bound = upper_bound then .ok none
        else
          match gen_range rand lower_bound upper_bound with
          | .panic m => .panic m
          | .ok val => .ok (some (.U8 (val % 2 ^ 8)))
    | .U64 =>
      match foldConstrainBounds a.preconditions none with
      | .panic m => .panic m
      | .ok bounds =>
        let lower_bound := (bounds.getD (0, 2 ^ 64 - 1)).1
        let upper_bound := (bounds.getD (0, 2 ^ 64 - 1)).2
        if lower_bound = upper_bound then .ok none
        else
          match gen_range rand lower_bound upper_bound with
          | .panic m => .panic m
          | .ok val => .ok (some (.U64 (val % 2 ^ 64)))
    | .U128 =>
      match foldConstrainBounds a.preconditions none with
      | .panic m => .panic m
      | .ok bounds =>
        let lower_bound := (bounds.getD (0, 2 ^ 128 - 1)).1
        let upper_bound := (bounds.getD (0, 2 ^ 128 - 1)).2
        if lower_bound = upper_bound then .ok none
        else
          match gen_range rand lower_bound upper_bound with
          | .panic m => .panic m
          | .ok val => .ok (some (.U128 val))
    | .U8Vector =>
      match foldConstrainBounds a.preconditions none with
      | .panic m => .panic m
      | .ok bounds =>
        let lower_bound := (bounds.getD (0, 2 ^ 128 - 1)).1
        let upper_bound := (bounds.getD (0, 2 ^ 128 - 1)).2
        if lower_bound = upper_bound then .ok none
        else
          match gen_range rand lower_bound upper_bound with
          | .panic m => .panic m
          | .ok end_ => .ok (some (.U8Vector (rand.random_bytes (end_ + 1))))
    | .Address =>
      if a.preconditions.contains .AccountDNE then
        .ok (some (.Address rand.random_address))
      else
        match filterAccounts a.preconditions chain_state.accounts with
        | .panic m => .panic m
        | .ok available_accounts =>
          if available_accounts.isEmpty then .ok none
          else
            .ok (some (.Address (available_accounts.getD
              (rand.random_index % available_accounts.length) 0)))

/-! ## Theorems

Shared unfolding lemmas for the gas-algebra instances. -/

@[simp]
theorem GasUnits_get (n : Nat) : GasAlgebra.get (GasUnits.mk n) = n := rfl

@[simp]
theorem GasUnits_new : (GasAlgebra.new : Nat → GasUnits) = GasUnits.mk := rfl

@[simp]
theorem GasUnits_get_val (x : GasUnits) : GasAlgebra.get x = x.val := rfl

@[simp]
theorem AbstractMemorySize_get (n : Nat) : GasAlgebra.get (AbstractMemorySize.mk n) = n := rfl

@[simp]
theorem AbstractMemorySize_new : (GasAlgebra.new : Nat → AbstractMemorySize) = AbstractMemorySize.mk := rfl

@[simp]
theorem AbstractMemorySize_get_val (x : AbstractMemorySize) : GasAlgebra.get x = x.val := rfl

@[simp]
theorem GasPrice_get (n : Nat) : GasAlgebra.get (GasPrice.mk n) = n := rfl

@[simp]
theorem GasPrice_new : (GasAlgebra.new : Nat → GasPrice) = GasPrice.mk := rfl

@[simp]
theorem GasPrice_get_val (x : GasPrice) : GasAlgebra.get x = x.val := rfl

/-- Claim C3: for every transaction size s not exceeding the maximum
transaction size, calculate_intrinsic_gas returns 600 gas units when
s <= 600 bytes and 600 + 8 * ceil((s - 600) / 8) gas units when
s > 600 bytes; in particular it maps 600 to 600, 601 to 608 and 608
to 608. -/
theorem c3_calculate_intrinsic_gas (s : Nat) (h : s ≤ MAX_TRANSACTION_SIZE_IN_BYTES) :
    (calculate_intrinsic_gas (AbstractMemorySize.mk s)).val =
      (if s ≤ 600 then 600 else 600 + 8 * ((s - 600 + 7) / 8)) ∧
    (calculate_intrinsic_gas (AbstractMemorySize.mk 600)).val = 600 ∧
    (calculate_intrinsic_gas (AbstractMemorySize.mk 601)).val = 608 ∧
    (calculate_intrinsic_gas (AbstractMemorySize.mk 608)).val = 608 := by
  refine ⟨?_, by decide, by decide, by decide⟩
  have hs : s ≤ 4096 := h
  simp only [calculate_intrinsic_gas, words_in, GasAlgebra.add, GasAlgebra.sub, GasAlgebra.mul,
    GasAlgebra.unitary_cast, GasAlgebra.map2, MIN_TRANSACTION_GAS_UNITS,
    LARGE_TRANSACTION_CUTOFF, WORD_SIZE, INTRINSIC_GAS_PER_BYTE, u64wrapAdd, u64wrapSub,
    u64wrapMul, u64div, u64Modulus, GasUnits_new, AbstractMemorySize_new, GasUnits_get,
    AbstractMemorySize_get, GasUnits_get_val, AbstractMemorySize_get_val]
  split
  · next hgt =>
    have h600 : ¬ s ≤ 600 := by omega
    simp only [h600, if_false]
    omega
  · next hle =>
    have h600 : s ≤ 600 := by omega
    simp only [h600, if_true]

/-- Witness for claim C3 at the concrete size 601. -/
theorem c3_calculate_intrinsic_gas_witness :
    601 ≤ MAX_TRANSACTION_SIZE_IN_BYTES ∧
    ((calculate_intrinsic_gas (AbstractMemorySize.mk 601)).val =
      (if 601 ≤ 600 then 600 else 600 + 8 * ((601 - 600 + 7) / 8)) ∧
    (calculate_intrinsic_gas (AbstractMemorySize.mk 600)).val = 600 ∧
    (calculate_intrinsic_gas (AbstractMemorySize.mk 601)).val = 608 ∧
    (calculate_intrinsic_gas (AbstractMemorySize.mk 608)).val = 608) :=
  ⟨by decide, c3_calculate_intrinsic_gas 601 (by decide)⟩

/-- Counterexample for claim C5: the gas-algebra add of u64::MAX and 1 is
an overflowing input, yet the operation returns the wrapped value 0
rather than propagating any failure (there is no failure channel in the
GasAlgebra operations at all, and no ARITHMETIC_ERROR is produced). -/
theorem c5_counterexample :
    GasAlgebra.get (GasUnits.mk (2 ^ 64 - 1)) + GasAlgebra.get (GasUnits.mk 1) = 2 ^ 64 ∧
    GasAlgebra.add (GasUnits.mk (2 ^ 64 - 1)) (GasUnits.mk 1) = GasUnits.mk 0 := by
  constructor
  · decide
  · decide

/-- Claim C5 as amended: for the gas algebra newtypes over the u64
carrier, add, sub and mul are TOTAL operations computing the wrapped
(modulo 2 ^ 64) result of the carrier arithmetic — on overflow they
return the wrapped value instead of failing — and div truncates (its
zero-divisor case is a Rust panic, not an ARITHMETIC_ERROR); no gas
algebra operation produces a VMStatus. -/
theorem c5_gas_algebra_unchecked :
    (∀ a b : Nat,
      (GasAlgebra.add (GasUnits.mk a) (GasUnits.mk b)).val = (a + b) % 2 ^ 64 ∧
      (GasAlgebra.add (AbstractMemorySize.mk a) (AbstractMemorySize.mk b)).val = (a + b) % 2 ^ 64 ∧
      (GasAlgebra.add (GasPrice.mk a) (GasPrice.mk b)).val = (a + b) % 2 ^ 64 ∧
      (GasAlgebra.mul (GasUnits.mk a) (GasUnits.mk b)).val = (a * b) % 2 ^ 64 ∧
      (GasAlgebra.mul (AbstractMemorySize.mk a) (AbstractMemorySize.mk b)).val = (a * b) % 2 ^ 64 ∧
      (GasAlgebra.mul (GasPrice.mk a) (GasPrice.mk b)).val = (a * b) % 2 ^ 64) ∧
    (∀ a b : Nat, a < 2 ^ 64 → b < 2 ^ 64 → 2 ^ 64 ≤ a + b →
      (GasAlgebra.add (GasUnits.mk a) (GasUnits.mk b)).val = a + b - 2 ^ 64) ∧
    (∀ a b : Nat, b ≤ a → a < 2 ^ 64 →
      (GasAlgebra.sub (GasUnits.mk a) (GasUnits.mk b)).val = a - b) ∧
    (∀ a b : Nat, a < b → b < 2 ^ 64 →
      (GasAlgebra.sub (GasUnits.mk a) (GasUnits.mk b)).val = a + 2 ^ 64 - b) ∧
    (∀ a b : Nat, b ≠ 0 →
      (GasAlgebra.div (GasUnits.mk a) (GasUnits.mk b)).val = a / b) := by
  refine ⟨?_, ?_, ?_, ?_, ?_⟩
  · intro a b
    refine ⟨rfl, rfl, rfl, rfl, rfl, rfl⟩
  · intro a b ha hb hab
    simp only [GasAlgebra.add, GasAlgebra.map2, u64wrapAdd, u64Modulus, GasUnits_new,
      GasUnits_get]
    omega
  · intro a b hba ha
    simp only [GasAlgebra.sub, GasAlgebra.map2, u64wrapSub, u64Modulus, GasUnits_new,
      GasUnits_get]
    omega
  · intro a b hab hb
    simp only [GasAlgebra.sub, GasAlgebra.map2, u64wrapSub, u64Modulus, GasUnits_new,
      GasUnits_get]
    omega
  · intro a b hb
    rfl

/-- Witness for the amended claim C5 at concrete operands. -/
theorem c5_gas_algebra_unchecked_witness :
    ((5 : Nat) < 2 ^ 64 ∧ (2 ^ 64 - 2 : Nat) < 2 ^ 64 ∧ 2 ^ 64 ≤ 5 + (2 ^ 64 - 2) ∧
      (3 : Nat) ≤ 5 ∧ (5 : Nat) < 2 ^ 64 ∧ (3 : Nat) < 5 ∧ (5 : Nat) < 2 ^ 64 ∧ (5 : Nat) ≠ 0) ∧
    (GasAlgebra.add (GasUnits.mk 5) (GasUnits.mk (2 ^ 64 - 2))).val = 5 + (2 ^ 64 - 2) - 2 ^ 64 ∧
    (GasAlgebra.sub (GasUnits.mk 5) (GasUnits.mk 3)).val = 5 - 3 ∧
    (GasAlgebra.sub (GasUnits.mk 3) (GasUnits.mk 5)).val = 3 + 2 ^ 64 - 5 ∧
    (GasAlgebra.div (GasUnits.mk 17) (GasUnits.mk 5)).val = 17 / 5 :=
  ⟨⟨by decide, by decide, by decide, by decide, by decide, by decide, by decide, by decide⟩,
    (c5_gas_algebra_unchecked.2.1 5 (2 ^ 64 - 2) (by decide) (by decide) (by decide)),
    (c5_gas_algebra_unchecked.2.2.1 5 3 (by decide) (by decide)),
    (c5_gas_algebra_unchecked.2.2.2.1 3 5 (by decide) (by decide)),
    (c5_gas_algebra_unchecked.2.2.2.2 17 5 (by decide))⟩

/-- A trivially empty loaded module, used as a concrete input. -/
def emptyModule : LoadedModule :=
  { struct_handles := []
    module_handles := []
    identifiers := []
    address_pool := []
    user_strings := []
    byte_array_pool := []
    locals_signatures := []
    function_defs := []
    function_defs_table := []
    struct_defs_table := []
    field_offsets := []
    struct_def_field_counts := []
    self_id := { address := 0, name := "" } }

/-- Counterexample for claim C6: derive_type_tag on a String token fails
with major status UNKNOWN_INVARIANT_VIOLATION_ERROR, which is not the
VERIFIER_INVARIANT_VIOLATION the claim asserts. -/
theorem c6_counterexample :
    VMResult.majorOf (derive_type_tag emptyModule [] .String) =
      some .UNKNOWN_INVARIANT_VIOLATION_ERROR ∧
    StatusCode.UNKNOWN_INVARIANT_VIOLATION_ERROR ≠ StatusCode.VERIFIER_INVARIANT_VIOLATION := by
  constructor
  · simp [derive_type_tag, VMResult.majorOf, VMStatus.new, VMStatus.with_message]
  · decide

/-- Claim C6 as amended: derive_type_tag substitutes the frame's
type-tag actuals for TypeParameter(i), failing with
VERIFIER_INVARIANT_VIOLATION when i is out of bounds; it maps
Struct(idx, subs) to a struct tag built from the module's pools whose
type parameters are the derived tags of subs (propagating the first
failure among them); it fails with VERIFIER_INVARIANT_VIOLATION for
references; and it fails with UNKNOWN_INVARIANT_VIOLATION_ERROR (not
VERIFIER_INVARIANT_VIOLATION) for strings. -/
theorem c6_derive_type_tag (module : LoadedModule) (tags : List TypeTag) :
    (∀ i : Nat, derive_type_tag module tags (.TypeParameter i) =
      match tags.get? i with
      | some inner => .ok inner
      | none => .error ((VMStatus.new .VERIFIER_INVARIANT_VIOLATION).with_message
          ("Cannot derive type tag: type parameter index out of bounds."))) ∧
    (∀ t : SignatureToken,
      derive_type_tag module tags (.Reference t) =
        .error ((VMStatus.new .VERIFIER_INVARIANT_VIOLATION).with_message
          ("Cannot derive type tag for references.")) ∧
      derive_type_tag module tags (.MutableReference t) =
        .error ((VMStatus.new .VERIFIER_INVARIANT_VIOLATION).with_message
          ("Cannot derive type tag for references."))) ∧
    (derive_type_tag module tags .String =
      .error ((VMStatus.new .UNKNOWN_INVARIANT_VIOLATION_ERROR).with_message
        ("Cannot derive type tags for strings: unimplemented."))) ∧
    (∀ (idx : Nat) (subs : List SignatureToken) (ts : List TypeTag),
      derive_type_tag_list module tags subs = .ok ts →
      derive_type_tag module tags (.Struct idx subs) =
        .ok (.Struct
          (module.address_at (module.module_handle_at (module.struct_handle_at idx).module).address)
          (module.identifier_at (module.module_handle_at (module.struct_handle_at idx).module).name)
          (module.identifier_at (module.struct_handle_at idx).name)
          ts)) ∧
    (∀ (idx : Nat) (subs : List SignatureToken) (e : VMStatus),
      derive_type_tag_list module tags subs = .error e →
      derive_type_tag module tags (.Struct idx subs) = .error e) ∧
    (∀ (sub : SignatureToken) (rest : List SignatureToken),
      derive_type_tag_list module tags (sub :: rest) =
        match derive_type_tag module tags sub with
        | .error e => .error e
        | .ok tag =>
          match derive_type_tag_list module tags rest with
          | .error e => .error e
          | .ok more => .ok (tag :: more)) := by
  refine ⟨?_, ?_, ?_, ?_, ?_, ?_⟩
  · intro i
    simp only [derive_type_tag]
  · intro t
    constructor
    · simp only [derive_type_tag]
    · simp only [derive_type_tag]
  · simp only [derive_type_tag]
  · intro idx subs ts h
    rw [derive_type_tag]
    simp only [h]
  · intro idx subs e h
    rw [derive_type_tag]
    simp only [h]
  · intro sub rest
    rw [derive_type_tag_list]

/-- A one-struct module for concrete derivations: struct handle 0 names
identifier 1 ("S") in module handle 0, which names identifier 0 ("M") at
address-pool entry 0 (address 7). -/
def witnessModule : LoadedModule :=
  { struct_handles := [{ module := 0, name := 1 }]
    module_handles := [{ address := 0, name := 0 }]
    identifiers := ["M", "S"]
    address_pool := [7]
    user_strings := []
    byte_array_pool := []
    locals_signatures := []
    function_defs := []
    function_defs_table := []
    struct_defs_table := []
    field_offsets := []
    struct_def_field_counts := []
    self_id := { address := 7, name := "M" } }

/-- Witness for the amended claim C6 on a one-struct module: the
TypeParameter substitution, the recursive struct derivation and the
propagation branches at concrete inputs. -/
theorem c6_derive_type_tag_witness :
    derive_type_tag_list witnessModule [.U64] [.Bool, .TypeParameter 0] = .ok [.Bool, .U64] ∧
    derive_type_tag witnessModule [.U64] (.Struct 0 [.Bool, .TypeParameter 0]) =
      .ok (.Struct 7 "M" "S" [.Bool, .U64]) ∧
    derive_type_tag_list witnessModule [.U64] [.String] =
      .error ((VMStatus.new .UNKNOWN_INVARIANT_VIOLATION_ERROR).with_message
        ("Cannot derive type tags for strings: unimplemented.")) ∧
    derive_type_tag witnessModule [.U64] (.Struct 0 [.String]) =
      .error ((VMStatus.new .UNKNOWN_INVARIANT_VIOLATION_ERROR).with_message
        ("Cannot derive type tags for strings: unimplemented.")) := by
  have hlist : derive_type_tag_list witnessModule [.U64] [.Bool, .TypeParameter 0] =
      .ok [.Bool, .U64] := by
    simp [derive_type_tag_list, derive_type_tag]
  have hbad : derive_type_tag_list witnessModule [.U64] [.String] =
      .error ((VMStatus.new .UNKNOWN_INVARIANT_VIOLATION_ERROR).with_message
        ("Cannot derive type tags for strings: unimplemented.")) := by
    simp [derive_type_tag_list, derive_type_tag]
  refine ⟨hlist, ?_, hbad, ?_⟩
  · have h := (c6_derive_type_tag witnessModule [.U64]).2.2.2.1 0 [.Bool, .TypeParameter 0]
      [.Bool, .U64] hlist
    simpa [witnessModule, LoadedModule.struct_handle_at, LoadedModule.module_handle_at,
      LoadedModule.identifier_at, LoadedModule.address_at] using h
  · exact (c6_derive_type_tag witnessModule [.U64]).2.2.2.2.1 0 [.String] _ hbad

/-- A concrete random oracle (lowest draw, zero randomness). -/
def rand0 : RandomOracle :=
  { gen_range := fun lo _ => lo
    random_u8 := 0
    random_u64 := 0
    random_u128 := 0
    random_bool := false
    random_address := 0
    random_index := 0
    random_bytes := fun _ => [] }

/-- An empty abstract chain state. -/
def chain0 : AbstractChainState := ⟨[]⟩

/-- Counterexample for claim C9: with the incompatible range constraints
[10, 20) and [0, 5) the intersection is (10, 5) with lower bound strictly
above upper bound; the claim says inhabit fails by returning no
argument, but the code only checks for EQUAL bounds and instead reaches
gen_range, which panics. -/
theorem c9_counterexample :
    AbstractTransactionArgument.inhabit
      { preconditions := [.RangeConstraint 10 20, .RangeConstraint 0 5]
        argument_type := .U64 } chain0 rand0 =
      .panic ("gen_range called with low >= high") ∧
    (FuzzResult.panic ("gen_range called with low >= high") :
      FuzzResult (Option FuzzerArgument)) ≠ .ok none := by
  constructor
  · decide
  · decide

/-- The claimed intersection of range constraints, written from the
claim's words: the componentwise maximum of lower bounds and minimum of
upper bounds, folded over the constraint list. -/
def intersectBounds (p : Nat × Nat) (ps : List (Nat × Nat)) : Nat × Nat :=
  ps.foldl (fun b q => (max q.1 b.1, min q.2 b.2)) p

/-- Range constraints constructed from a list of bound pairs. -/
def rangePreconds (qs : List (Nat × Nat)) : List Constraint :=
  qs.map fun q => .RangeConstraint q.1 q.2

/-- The constrain_bounds fold over pure range constraints computes the
componentwise intersection. -/
theorem foldConstrainBounds_ranges (ps : List (Nat × Nat)) (acc : Nat × Nat) :
    foldConstrainBounds (rangePreconds ps) (some acc) = .ok (some (intersectBounds acc ps)) := by
  induction ps generalizing acc with
  | nil => rfl
  | cons q rest ih =>
    simp only [rangePreconds, List.map_cons, foldConstrainBounds, Constraint.constrain_bounds,
      intersectBounds, List.foldl_cons]
    exact ih (max q.1 acc.1, min q.2 acc.2)

/-- The intersection fold is componentwise the max-fold of the lower
bounds and the min-fold of the upper bounds. -/
theorem intersectBounds_spec (ps : List (Nat × Nat)) (acc : Nat × Nat) :
    (intersectBounds acc ps).1 = (ps.map Prod.fst).foldl (fun a b => max b a) acc.1 ∧
    (intersectBounds acc ps).2 = (ps.map Prod.snd).foldl (fun a b => min b a) acc.2 := by
  induction ps generalizing acc with
  | nil => exact ⟨rfl, rfl⟩
  | cons q rest ih =>
    simpa [intersectBounds, List.foldl_cons] using ih (max q.1 acc.1, min q.2 acc.2)

/-- Claim C9 as amended: for a numeric argument spec whose preconditions
are the (nonempty) range constraints with bounds p :: ps, inhabit
intersects them by taking the maximum of the lower bounds and the
minimum of the upper bounds; when the resulting bounds are EQUAL it
returns no argument; when the lower bound strictly exceeds the upper
bound (incompatible constraints) the underlying gen_range call PANICS
instead of returning no argument; and otherwise it returns the uniform
draw over the resulting half-open bounds, truncated to the numeric
type's width. -/
theorem c9_inhabit (p : Nat × Nat) (ps : List (Nat × Nat)) (chain : AbstractChainState)
    (rand : RandomOracle) :
    ((intersectBounds p ps).1 = ((p :: ps).map Prod.fst).foldl (fun a b => max b a) 0 ∧
     (intersectBounds p ps).2 = ((p :: ps).map Prod.snd).foldl (fun a b => min b a) p.2) ∧
    ((intersectBounds p ps).1 = (intersectBounds p ps).2 →
      AbstractTransactionArgument.inhabit
        { preconditions := rangePreconds (p :: ps), argument_type := .U64 } chain rand = .ok none ∧
      AbstractTransactionArgument.inhabit
        { preconditions := rangePreconds (p :: ps), argument_type := .U8 } chain rand = .ok none ∧
      AbstractTransactionArgument.inhabit
        { preconditions := rangePreconds (p :: ps), argument_type := .U128 } chain rand = .ok none) ∧
    ((intersectBounds p ps).2 < (intersectBounds p ps).1 →
      AbstractTransactionArgument.inhabit
        { preconditions := rangePreconds (p :: ps), argument_type := .U64 } chain rand =
          .panic ("gen_range called with low >= high") ∧
      AbstractTransactionArgument.inhabit
        { preconditions := rangePreconds (p :: ps), argument_type := .U8 } chain rand =
          .panic ("gen_range called with low >= high") ∧
      AbstractTransactionArgument.inhabit
        { preconditions := rangePreconds (p :: ps), argument_type := .U128 } chain rand =
          .panic ("gen_range called with low >= high")) ∧
    ((intersectBounds p ps).1 < (intersectBounds p ps).2 →
      AbstractTransactionArgument.inhabit
        { preconditions := rangePreconds (p :: ps), argument_type := .U64 } chain rand =
          .ok (some (.U64 (rand.gen_range (intersectBounds p ps).1 (intersectBounds p ps).2 % 2 ^ 64))) ∧
      AbstractTransactionArgument.inhabit
        { preconditions := rangePreconds (p :: ps), argument_type := .U8 } chain rand =
          .ok (some (.U8 (rand.gen_range (intersectBounds p ps).1 (intersectBounds p ps).2 % 2 ^ 8))) ∧
      AbstractTransactionArgument.inhabit
        { preconditions := rangePreconds (p :: ps), argument_type := .U128 } chain rand =
          .ok (some (.U128 (rand.gen_range (intersectBounds p ps).1 (intersectBounds p ps).2)))) := by
  have hfold : foldConstrainBounds (rangePreconds (p :: ps)) none =
      .ok (some (intersectBounds p ps)) := by
    show foldConstrainBounds (rangePreconds (p :: ps)) none = _
    simp only [rangePreconds, List.map_cons, foldConstrainBounds, Constraint.constrain_bounds]
    exact foldConstrainBounds_ranges ps p
  have hne : (rangePreconds (p :: ps)).isEmpty = false := by
    simp [rangePreconds]
  constructor
  · constructor
    · rw [(intersectBounds_spec ps p).1]
      simp [List.foldl_cons, Nat.max_comm]
    · rw [(intersectBounds_spec ps p).2]
      simp [List.foldl_cons]
  refine ⟨?_, ?_, ?_⟩
  · intro heq
    refine ⟨?_, ?_, ?_⟩ <;>
      simp [AbstractTransactionArgument.inhabit, hne, hfold, heq]
  · intro hlt
    have hne2 : ¬ (intersectBounds p ps).1 = (intersectBounds p ps).2 := by omega
    have hnlt : ¬ (intersectBounds p ps).1 < (intersectBounds p ps).2 := by omega
    refine ⟨?_, ?_, ?_⟩ <;>
      simp [AbstractTransactionArgument.inhabit, hne, hfold, hne2, gen_range, hnlt]
  · intro hlt
    have hne2 : ¬ (intersectBounds p ps).1 = (intersectBounds p ps).2 := by omega
    refine ⟨?_, ?_, ?_⟩ <;>
      simp [AbstractTransactionArgument.inhabit, hne, hfold, hne2, gen_range, hlt]

/-- Witness for the amended claim C9: intersecting [1, 5) with [0, 3)
gives the half-open bounds [1, 3), and inhabit returns the uniform draw
over them. -/
theorem c9_inhabit_witness :
    (intersectBounds (1, 5) [(0, 3)]).1 < (intersectBounds (1, 5) [(0, 3)]).2 ∧
    AbstractTransactionArgument.inhabit
      { preconditions := rangePreconds ((1, 5) :: [(0, 3)]), argument_type := .U64 }
      chain0 rand0 =
      .ok (some (.U64 (rand0.gen_range (intersectBounds (1, 5) [(0, 3)]).1
        (intersectBounds (1, 5) [(0, 3)]).2 % 2 ^ 64))) :=
  ⟨by decide, ((c9_inhabit (1, 5) [(0, 3)] chain0 rand0).2.2.2 (by decide)).1⟩

/-- Claim C10: Interpreter::new ignores the gas_meter argument it
receives and always constructs its own meter from the transaction's
max_gas_amount, so the interpreter the executor creates for the
prologue, script body and epilogue — over a meter built from the
executor's current gas_left — is identical to one built over the full
max-gas meter: every invocation begins metering from max_gas_amount. -/
theorem c10_interpreter_new_ignores_meter (txn_data : TransactionMetadata) (dv : DVState)
    (ev : List ContractEvent) (gm gm' : GasMeter) :
    Interpreter.new txn_data dv ev gm = Interpreter.new txn_data dv ev gm' ∧
    (Interpreter.new txn_data dv ev gm).gas_meter = GasMeter.new txn_data.max_gas_amount ∧
    (Interpreter.new txn_data dv ev gm).gas_meter.remaining_gas = txn_data.max_gas_amount ∧
    (∀ gas_left : GasUnits,
      Interpreter.new txn_data dv ev (GasMeter.new gas_left) =
        Interpreter.new txn_data dv ev (GasMeter.new txn_data.max_gas_amount)) :=
  ⟨rfl, rfl, rfl, fun _ => rfl⟩

/-- Claim C1: for a script body that failed with a non-InvariantViolation
error, failed_transaction_cleanup first clears the data cache and event
list, then runs the epilogue from that clean state, and produces a KEPT
output carrying the failing status whose events and writes are exactly
the epilogue's (the failed body contributes neither events nor writes:
the epilogue starts from an empty event list and a cleared cache). -/
theorem c1_failed_transaction_cleanup (ctx : VMContext) (fuel : Nat)
    (ex : TransactionExecutor) (err : VMStatus) (ex' : TransactionExecutor) (ws : WriteSetT)
    (hiv : err.statusType ≠ .InvariantViolation)
    (hep : TransactionExecutor.run_epilogue ctx fuel (TransactionExecutor.clear ctx ex) = .ok ex')
    (hws : ctx.make_write_set ex'.data_cache [] = .ok ws) :
    TransactionExecutor.failed_transaction_cleanup ctx fuel ex (.error err) =
      .ok { write_set := ws
            events := ex'.event_data
            gas_used := GasAlgebra.get (GasAlgebra.sub ex'.txn_data.max_gas_amount ex'.gas_left)
            status := .Keep err } ∧
    (TransactionExecutor.clear ctx ex).event_data = [] ∧
    (TransactionExecutor.clear ctx ex).data_cache = ctx.data_cache_clear ex.data_cache := by
  refine ⟨?_, rfl, rfl⟩
  simp only [TransactionExecutor.failed_transaction_cleanup, hep,
    TransactionExecutor.make_write_set, hws]
  simp [TransactionStatus.fromVMStatus, hiv]

/-- A concrete transaction metadata value. -/
def txnData0 : TransactionMetadata :=
  { sender := 0
    sequence_number := 0
    max_gas_amount := GasUnits.mk 1000
    gas_unit_price := GasPrice.mk 1
    transaction_size := AbstractMemorySize.mk 10
    public_key := [] }

/-- A concrete account module whose prologue and epilogue immediately
return. -/
def accountModule0 : LoadedModule :=
  { struct_handles := []
    module_handles := []
    identifiers := []
    address_pool := []
    user_strings := []
    byte_array_pool := []
    locals_signatures := []
    function_defs :=
      [{ name := EPILOGUE_NAME, local_count := 0, arg_count := 0, is_native := false, code := [.Ret] },
       { name := PROLOGUE_NAME, local_count := 0, arg_count := 0, is_native := false, code := [.Ret] }]
    function_defs_table := [(EPILOGUE_NAME, 0), (PROLOGUE_NAME, 1)]
    struct_defs_table := []
    field_offsets := []
    struct_def_field_counts := []
    self_id := ACCOUNT_MODULE }

/-- A concrete oracle record: zero instruction costs, the account module
above, trivially succeeding data-cache operations over the opaque cache
token. -/
def ctx0 : VMContext :=
  { instruction_cost := fun _ => 0
    resolve_function_ref := fun _ _ => .ok none
    resolve_struct_def := fun _ _ => .ok (some 0)
    get_loaded_module := fun id => if id = ACCOUNT_MODULE then .ok (some accountModule0) else .ok none
    resolve_native_function := fun _ _ => none
    simple_serialize := fun _ => none
    event_key_of := fun _ => none
    make_access_path := fun _ _ addr => { address := addr, path := [] }
    borrow_field := fun v _ => .ok v
    read_ref := fun v => .ok v
    write_ref := fun _ _ dv => dv
    borrow_global := fun _ _ dv => .ok (0, AbstractMemorySize.mk 5, dv)
    resource_exists := fun _ _ dv => .ok (false, AbstractMemorySize.mk 5, dv)
    move_resource_from := fun _ _ dv => .ok (.struct_ [], dv)
    move_resource_to := fun _ _ _ dv => .ok dv
    data_cache_clear := fun _ => 0
    make_write_set := fun _ _ => .ok 0 }

/-- A concrete executor state over a dirty cache token. -/
def ex0 : TransactionExecutor := TransactionExecutor.new txnData0 7

/-- The executor state after clearing and running the trivial epilogue. -/
def ex0fin : TransactionExecutor :=
  { txn_data := txnData0, data_cache := 0, event_data := [], gas_left := GasUnits.mk 1000 }

/-- Witness for claim C1: a concrete failed transaction whose cleanup
keeps the ARITHMETIC_ERROR status with the trivial epilogue's (empty)
events and writes. -/
theorem c1_failed_transaction_cleanup_witness :
    (VMStatus.new .ARITHMETIC_ERROR).statusType ≠ StatusType.InvariantViolation ∧
    TransactionExecutor.run_epilogue ctx0 3 (TransactionExecutor.clear ctx0 ex0) = .ok ex0fin ∧
    ctx0.make_write_set ex0fin.data_cache [] = .ok 0 ∧
    TransactionExecutor.failed_transaction_cleanup ctx0 3 ex0
        (.error (VMStatus.new .ARITHMETIC_ERROR)) =
      .ok { write_set := 0
            events := ex0fin.event_data
            gas_used := GasAlgebra.get (GasAlgebra.sub ex0fin.txn_data.max_gas_amount ex0fin.gas_left)
            status := .Keep (VMStatus.new .ARITHMETIC_ERROR) } := by
  have hiv : (VMStatus.new .ARITHMETIC_ERROR).statusType ≠ StatusType.InvariantViolation := by
    decide
  have hep : TransactionExecutor.run_epilogue ctx0 3 (TransactionExecutor.clear ctx0 ex0) =
      .ok ex0fin := by
    simp [TransactionExecutor.run_epilogue, TransactionExecutor.clear, ex0,
      TransactionExecutor.new, ctx0, txnData0, accountModule0, Interpreter.new,
      Interpreter.execute_function, Interpreter.execute, execute_main, execute_main_loop,
      execute_code_unit, execute_instruction, storeInitialArgs, Locals.new, Frame.new,
      FunctionRef.new, Frame.code_definition, FunctionRef.code_definition,
      FunctionRef.local_count, GasMeter.new, GasMeter.disable_metering, GasMeter.enable_metering,
      GasMeter.calculate_and_consume, GasMeter.consume_gas, GasMeter.remaining_gas,
      List.lookup, Stack.new, CallStack.new, ex0fin, EPILOGUE_NAME, PROLOGUE_NAME,
      ACCOUNT_MODULE]
  have hws : ctx0.make_write_set ex0fin.data_cache [] = .ok 0 := rfl
  exact ⟨hiv, hep, hws,
    (c1_failed_transaction_cleanup ctx0 3 ex0 (VMStatus.new .ARITHMETIC_ERROR) ex0fin 0
      hiv hep hws).1⟩

/-! ## Stack characterization lemmas shared by the interpreter theorems -/

theorem Stack.push_lt {s : Stack} {v : Value}
    (h : s.values.length < OPERAND_STACK_SIZE_LIMIT) :
    s.push v = .ok ⟨v :: s.values⟩ := by
  simp [Stack.push, h]

theorem Stack.push_full {s : Stack} {v : Value}
    (h : OPERAND_STACK_SIZE_LIMIT ≤ s.values.length) :
    s.push v = .error (VMStatus.new .EXECUTION_STACK_OVERFLOW) := by
  simp [Stack.push, Nat.not_lt.mpr h]

theorem Stack.push_ok {s : Stack} {v : Value} {s' : Stack} (h : s.push v = .ok s') :
    s' = ⟨v :: s.values⟩ ∧ s.values.length < OPERAND_STACK_SIZE_LIMIT := by
  unfold Stack.push at h
  split at h
  · exact ⟨by cases h; rfl, by assumption⟩
  · cases h

theorem CallStack.push_frame_lt {cs : CallStack} {f : Frame}
    (h : cs.frames.length < CALL_STACK_SIZE_LIMIT) :
    cs.push f = .ok ⟨f :: cs.frames⟩ := by
  simp [CallStack.push, h]

theorem CallStack.push_frame_full {cs : CallStack} {f : Frame}
    (h : CALL_STACK_SIZE_LIMIT ≤ cs.frames.length) :
    cs.push f = .error f := by
  simp [CallStack.push, Nat.not_lt.mpr h]

theorem CallStack.push_frame_ok {cs : CallStack} {f : Frame} {cs' : CallStack}
    (h : cs.push f = .ok cs') :
    cs' = ⟨f :: cs.frames⟩ ∧ cs.frames.length < CALL_STACK_SIZE_LIMIT := by
  unfold CallStack.push at h
  split at h
  · exact ⟨by cases h; rfl, by assumption⟩
  · cases h

theorem Interpreter.pushValue_eq {st : Interpreter} {v : Value}
    (h : st.operand_stack.values.length < OPERAND_STACK_SIZE_LIMIT) :
    st.pushValue v = .ok { st with operand_stack := ⟨v :: st.operand_stack.values⟩ } := by
  simp [Interpreter.pushValue, Stack.push_lt h]

theorem Interpreter.popValue_cons {st : Interpreter} {v : Value} {rest : List Value}
    (h : st.operand_stack.values = v :: rest) :
    st.popValue = .ok (v, { st with operand_stack := ⟨rest⟩ }) := by
  simp [Interpreter.popValue, Stack.pop, h]

theorem Interpreter.popU64_cons {st : Interpreter} {n : Nat} {rest : List Value}
    (h : st.operand_stack.values = .u64 n :: rest) :
    st.popU64 = .ok (n, { st with operand_stack := ⟨rest⟩ }) := by
  simp [Interpreter.popU64, Interpreter.popValue_cons h, Value.value_as_u64]

theorem Interpreter.popBool_cons {st : Interpreter} {b : Bool} {rest : List Value}
    (h : st.operand_stack.values = .bool b :: rest) :
    st.popBool = .ok (b, { st with operand_stack := ⟨rest⟩ }) := by
  simp [Interpreter.popBool, Interpreter.popValue_cons h, Value.value_as_bool]

theorem Interpreter.popAddress_cons {st : Interpreter} {a : Nat} {rest : List Value}
    (h : st.operand_stack.values = .address a :: rest) :
    st.popAddress = .ok (a, { st with operand_stack := ⟨rest⟩ }) := by
  simp [Interpreter.popAddress, Interpreter.popValue_cons h, Value.value_as_address]

theorem Interpreter.popStruct_cons {st : Interpreter} {fs : List Value} {rest : List Value}
    (h : st.operand_stack.values = .struct_ fs :: rest) :
    st.popStruct = .ok (fs, { st with operand_stack := ⟨rest⟩ }) := by
  simp [Interpreter.popStruct, Interpreter.popValue_cons h, Value.value_as_struct]

/-- The behavior of binop_int on a stack whose top two values are u64:
the right operand is on top, and the result is pushed or the operation
fails with ARITHMETIC_ERROR. -/
theorem Interpreter.binop_int_spec {st : Interpreter} {a b : Nat} {rest : List Value}
    (f : Nat → Nat → Option Nat)
    (h : st.operand_stack.values = .u64 b :: .u64 a :: rest)
    (hlen : st.operand_stack.values.length ≤ OPERAND_STACK_SIZE_LIMIT) :
    st.binop_int f =
      match f a b with
      | some v => .ok { st with operand_stack := ⟨.u64 v :: rest⟩ }
      | none => .error (VMStatus.new .ARITHMETIC_ERROR) := by
  have hroom : rest.length < OPERAND_STACK_SIZE_LIMIT := by
    rw [h] at hlen
    simp at hlen
    omega
  rw [Interpreter.binop_int, Interpreter.popU64_cons h]
  simp only []
  rw [@Interpreter.popU64_cons { st with operand_stack := ⟨.u64 a :: rest⟩ } a rest rfl]
  simp only []
  cases hf : f a b with
  | some v =>
    have hr : ({ st with operand_stack := ⟨rest⟩ } : Interpreter).operand_stack.values.length <
        OPERAND_STACK_SIZE_LIMIT := hroom
    show ({ st with operand_stack := ⟨rest⟩ } : Interpreter).pushValue (.u64 v) = _
    rw [Interpreter.pushValue_eq hr]
  | none => rfl

/-- Claim C2: with two u64 operands on the stack (right operand on top)
and the instruction's gas pre-charge succeeding, Add, Sub and Mul fail
with ARITHMETIC_ERROR exactly when the mathematical result lies outside
the u64 range, Div and Mod fail with ARITHMETIC_ERROR exactly when the
divisor is 0, and every non-failing case pushes the exact u64 result. -/
theorem c2_arithmetic_instructions (ctx : VMContext) (frame : Frame) (st : Interpreter)
    (a b : Nat) (rest : List Value) (gmAdd gmSub gmMul gmMod gmDiv : GasMeter)
    (hstack : st.operand_stack.values = .u64 b :: .u64 a :: rest)
    (hlen : st.operand_stack.values.length ≤ OPERAND_STACK_SIZE_LIMIT)
    (hgAdd : st.gas_meter.calculate_and_consume ctx.instruction_cost .Add
      (AbstractMemorySize.mk 1) = .ok gmAdd)
    (hgSub : st.gas_meter.calculate_and_consume ctx.instruction_cost .Sub
      (AbstractMemorySize.mk 1) = .ok gmSub)
    (hgMul : st.gas_meter.calculate_and_consume ctx.instruction_cost .Mul
      (AbstractMemorySize.mk 1) = .ok gmMul)
    (hgMod : st.gas_meter.calculate_and_consume ctx.instruction_cost .Mod
      (AbstractMemorySize.mk 1) = .ok gmMod)
    (hgDiv : st.gas_meter.calculate_and_consume ctx.instruction_cost .Div
      (AbstractMemorySize.mk 1) = .ok gmDiv) :
    ((a + b < 2 ^ 64 → execute_instruction ctx frame st .Add =
        .ok (none, { frame with pc := frame.pc + 1 },
          { st with gas_meter := gmAdd, operand_stack := ⟨.u64 (a + b) :: rest⟩ })) ∧
     (2 ^ 64 ≤ a + b → execute_instruction ctx frame st .Add =
        .error (VMStatus.new .ARITHMETIC_ERROR))) ∧
    ((b ≤ a → execute_instruction ctx frame st .Sub =
        .ok (none, { frame with pc := frame.pc + 1 },
          { st with gas_meter := gmSub, operand_stack := ⟨.u64 (a - b) :: rest⟩ })) ∧
     (a < b → execute_instruction ctx frame st .Sub =
        .error (VMStatus.new .ARITHMETIC_ERROR))) ∧
    ((a * b < 2 ^ 64 → execute_instruction ctx frame st .Mul =
        .ok (none, { frame with pc := frame.pc + 1 },
          { st with gas_meter := gmMul, operand_stack := ⟨.u64 (a * b) :: rest⟩ })) ∧
     (2 ^ 64 ≤ a * b → execute_instruction ctx frame st .Mul =
        .error (VMStatus.new .ARITHMETIC_ERROR))) ∧
    ((b ≠ 0 → execute_instruction ctx frame st .Mod =
        .ok (none, { frame with pc := frame.pc + 1 },
          { st with gas_meter := gmMod, operand_stack := ⟨.u64 (a % b) :: rest⟩ })) ∧
     (b = 0 → execute_instruction ctx frame st .Mod =
        .error (VMStatus.new .ARITHMETIC_ERROR))) ∧
    ((b ≠ 0 → execute_instruction ctx frame st .Div =
        .ok (none, { frame with pc := frame.pc + 1 },
          { st with gas_meter := gmDiv, operand_stack := ⟨.u64 (a / b) :: rest⟩ })) ∧
     (b = 0 → execute_instruction ctx frame st .Div =
        .error (VMStatus.new .ARITHMETIC_ERROR))) := by
  have hspec : ∀ (gm : GasMeter) (f : Nat → Nat → Option Nat),
      Interpreter.binop_int { st with gas_meter := gm } f =
        match f a b with
        | some v => .ok { st with gas_meter := gm, operand_stack := ⟨.u64 v :: rest⟩ }
        | none => .error (VMStatus.new .ARITHMETIC_ERROR) := by
    intro gm f
    exact Interpreter.binop_int_spec f hstack hlen
  refine ⟨⟨?_, ?_⟩, ⟨?_, ?_⟩, ⟨?_, ?_⟩, ⟨?_, ?_⟩, ⟨?_, ?_⟩⟩
  · intro hcase
    simp only [execute_instruction, hgAdd, hspec, u64checked_add, u64Modulus, if_pos hcase]
  · intro hcase
    simp only [execute_instruction, hgAdd, hspec, u64checked_add, u64Modulus,
      if_neg (Nat.not_lt.mpr hcase)]
  · intro hcase
    simp only [execute_instruction, hgSub, hspec, u64checked_sub, if_pos hcase]
  · intro hcase
    simp only [execute_instruction, hgSub, hspec, u64checked_sub,
      if_neg (Nat.not_le.mpr hcase)]
  · intro hcase
    simp only [execute_instruction, hgMul, hspec, u64checked_mul, u64Modulus, if_pos hcase]
  · intro hcase
    simp only [execute_instruction, hgMul, hspec, u64checked_mul, u64Modulus,
      if_neg (Nat.not_lt.mpr hcase)]
  · intro hcase
    simp only [execute_instruction, hgMod, hspec, u64checked_rem, if_neg hcase]
  · intro hcase
    simp only [execute_instruction, hgMod, hspec, u64checked_rem, if_pos hcase]
  · intro hcase
    simp only [execute_instruction, hgDiv, hspec, u64checked_div, if_neg hcase]
  · intro hcase
    simp only [execute_instruction, hgDiv, hspec, u64checked_div, if_pos hcase]

/-- A concrete frame over the concrete account module. -/
def frame0 : Frame := Frame.new (FunctionRef.new accountModule0 0) [] (Locals.new 0)

/-- The gas meter after one zero-cost charge for instruction i under the
concrete oracle. -/
def gmAfter (i : Bytecode) : GasMeter :=
  { enabled := true, remaining := GasUnits.mk 1000, charge_log := [(i, 1)] }

/-- Interpreter state with the operands of an overflowing Add:
u64::MAX below, 1 on top. -/
def stMax : Interpreter :=
  { Interpreter.new txnData0 0 [] (GasMeter.new (GasUnits.mk 1000)) with
    operand_stack := ⟨[.u64 1, .u64 (2 ^ 64 - 1)]⟩ }

/-- Interpreter state with small operands: 2 below, 3 on top. -/
def stSmall : Interpreter :=
  { Interpreter.new txnData0 0 [] (GasMeter.new (GasUnits.mk 1000)) with
    operand_stack := ⟨[.u64 3, .u64 2]⟩ }

/-- Interpreter state with a zero divisor on top of 7. -/
def stDiv0 : Interpreter :=
  { Interpreter.new txnData0 0 [] (GasMeter.new (GasUnits.mk 1000)) with
    operand_stack := ⟨[.u64 0, .u64 7]⟩ }

/-- Witness for claim C2: Add of u64::MAX and 1 fails with
ARITHMETIC_ERROR, Add of 2 and 3 pushes 5, and Div by 0 fails with
ARITHMETIC_ERROR. -/
theorem c2_arithmetic_instructions_witness :
    execute_instruction ctx0 frame0 stMax .Add = .error (VMStatus.new .ARITHMETIC_ERROR) ∧
    execute_instruction ctx0 frame0 stSmall .Add =
      .ok (none, { frame0 with pc := frame0.pc + 1 },
        { stSmall with gas_meter := gmAfter .Add, operand_stack := ⟨[.u64 5]⟩ }) ∧
    execute_instruction ctx0 frame0 stDiv0 .Div = .error (VMStatus.new .ARITHMETIC_ERROR) := by
  refine ⟨?_, ?_, ?_⟩
  · exact (c2_arithmetic_instructions ctx0 frame0 stMax (2 ^ 64 - 1) 1 []
      (gmAfter .Add) (gmAfter .Sub) (gmAfter .Mul) (gmAfter .Mod) (gmAfter .Div)
      rfl (by decide) rfl rfl rfl rfl rfl).1.2 (by decide)
  · exact (c2_arithmetic_instructions ctx0 frame0 stSmall 2 3 []
      (gmAfter .Add) (gmAfter .Sub) (gmAfter .Mul) (gmAfter .Mod) (gmAfter .Div)
      rfl (by decide) rfl rfl rfl rfl rfl).1.1 (by decide)
  · exact (c2_arithmetic_instructions ctx0 frame0 stDiv0 7 0 []
      (gmAfter .Add) (gmAfter .Sub) (gmAfter .Mul) (gmAfter .Mod) (gmAfter .Div)
      rfl (by decide) rfl rfl rfl rfl rfl).2.2.2.2.2 rfl

/-- Dropping at the index just set exposes the new element. -/
theorem List.drop_set_cons {α : Type} (l : List α) (n : Nat) (a : α) (h : n < l.length) :
    (l.set n a).drop n = a :: l.drop (n + 1) := by
  induction l generalizing n with
  | nil => simp at h
  | cons x xs ih =>
    cases n with
    | zero => simp
    | succ k =>
      simp only [List.set_cons_succ, List.drop_succ_cons]
      exact ih k (by simpa using h)

/-- The argument-storing loop of make_call_frame pops exactly the top
vs.length values (vs listed top first) and writes them into the locals at
descending slot indices, so the written prefix is vs reversed. -/
theorem Interpreter.storeCallArgs_spec (vs : List Value) (rest : List Value)
    (st : Interpreter) (locals : Locals)
    (hargs : st.operand_stack.values = vs ++ rest)
    (hlen : vs.length ≤ locals.slots.length) :
    Interpreter.storeCallArgs vs.length locals st =
      .ok (⟨vs.reverse.map LocalSlot.val ++ locals.slots.drop vs.length⟩,
        { st with operand_stack := ⟨rest⟩ }) := by
  induction vs generalizing st locals with
  | nil =>
    simp only [List.length_nil, Interpreter.storeCallArgs, List.reverse_nil, List.map_nil,
      List.nil_append, List.drop_zero]
    have hst : st.operand_stack = ⟨rest⟩ := by
      cases hos : st.operand_stack with
      | mk values => simpa [hos] using hargs
    cases locals
    congr 1
    · cases st
      simp_all
  | cons v vs' ih =>
    have hlt : vs'.length < locals.slots.length := by
      simp at hlen
      omega
    simp only [List.length_cons, Interpreter.storeCallArgs]
    rw [@Interpreter.popValue_cons _ v (vs' ++ rest) (by simpa using hargs)]
    simp only [Locals.store_loc, if_pos hlt]
    rw [ih { st with operand_stack := ⟨vs' ++ rest⟩ } ⟨locals.slots.set vs'.length (.val v)⟩
      rfl (by simpa using Nat.le_of_lt hlt)]
    rw [List.drop_set_cons locals.slots vs'.length (.val v) hlt]
    simp

/-- Claim C8: a call to a non-native function with arg_count arguments
pops exactly arg_count values (vs, listed top first) off the operand
stack and stores them into the callee's locals in reverse pop order: the
locals hold vs reversed followed by Invalid padding, so local slot 0
holds the deepest-pushed (first) argument and slot arg_count - 1 the
last. -/
theorem c8_make_call_frame (ctx : VMContext) (st : Interpreter) (module : LoadedModule)
    (idx : Nat) (tags : List TypeTag) (func : FunctionRef) (vs rest : List Value)
    (hres : ctx.resolve_function_ref module idx = .ok (some func))
    (hnat : func.is_native = false)
    (hargs : st.operand_stack.values = vs ++ rest)
    (hlen : vs.length = func.arg_count)
    (hcount : func.arg_count ≤ func.local_count) :
    Interpreter.make_call_frame ctx st module idx tags =
      .ok (some (Frame.new func tags
        ⟨vs.reverse.map LocalSlot.val ++
          List.replicate (func.local_count - func.arg_count) .Invalid⟩),
        { st with operand_stack := ⟨rest⟩ }) ∧
    (∀ j : Nat, j < func.arg_count →
      (vs.reverse.map LocalSlot.val ++
        List.replicate (func.local_count - func.arg_count) LocalSlot.Invalid)[j]? =
        some (.val (vs.getD (func.arg_count - 1 - j) (.u64 0)))) := by
  constructor
  · rw [Interpreter.make_call_frame, hres]
    simp only [hnat, Bool.false_eq_true, if_false]
    have hst := Interpreter.storeCallArgs_spec vs rest st (Locals.new func.local_count)
      hargs (by simpa [Locals.new] using hlen.le.trans hcount)
    rw [hlen] at hst
    rw [hst]
    simp [Locals.new, List.drop_replicate]
  · intro j hj
    have hj' : j < (vs.reverse.map LocalSlot.val).length := by
      simpa using hlen ▸ hj
    rw [List.getElem?_append_left hj']
    rw [List.getElem?_map]
    rw [List.getElem?_reverse (by simpa using hlen ▸ hj)]
    have hj2 : j < vs.length := by omega
    have hidx : vs.length - 1 - j < vs.length := by omega
    rw [List.getElem?_eq_getElem hidx]
    rw [List.getD_eq_getElem vs (.u64 0) (by omega)]
    have harith : func.arg_count - 1 - j = vs.length - 1 - j := by omega
    simp [harith]

/-- A concrete non-native callee: two arguments, three locals. -/
def funcF : FunctionRef :=
  { module := emptyModule
    fdef := { name := "f", local_count := 3, arg_count := 2, is_native := false, code := [.Ret] } }

/-- The oracle record resolving every function reference to funcF. -/
def ctx8 : VMContext := { ctx0 with resolve_function_ref := fun _ _ => .ok (some funcF) }

/-- Interpreter state with the two call arguments: first argument 20
pushed deepest, last argument 10 on top. -/
def st8 : Interpreter :=
  { Interpreter.new txnData0 0 [] (GasMeter.new (GasUnits.mk 1000)) with
    operand_stack := ⟨[.u64 10, .u64 20]⟩ }

/-- Witness for claim C8: calling funcF with arguments 20 (deepest) and
10 (top) stores 20 into slot 0 and 10 into slot 1, leaves slot 2 Invalid,
and pops both values. -/
theorem c8_make_call_frame_witness :
    Interpreter.make_call_frame ctx8 st8 emptyModule 0 [] =
      .ok (some (Frame.new funcF []
        ⟨[.val (.u64 20), .val (.u64 10), .Invalid]⟩),
        { st8 with operand_stack := ⟨[]⟩ }) ∧
    ([LocalSlot.val (.u64 20), LocalSlot.val (.u64 10), LocalSlot.Invalid][0]? =
      some (LocalSlot.val (.u64 20))) := by
  have h := c8_make_call_frame ctx8 st8 emptyModule 0 [] funcF [.u64 10, .u64 20] []
    rfl rfl (by simp [st8, Interpreter.new, Stack.new]) rfl (by decide)
  refine ⟨?_, rfl⟩
  simpa using h.1

/-! ## Inversion lemmas for the interpreter helpers, shared by the
stack-bound and gas-charge theorems -/

theorem Interpreter.pushValue_inv {st : Interpreter} {v : Value} {st' : Interpreter}
    (h : st.pushValue v = .ok st') :
    st' = { st with operand_stack := ⟨v :: st.operand_stack.values⟩ } ∧
    st.operand_stack.values.length < OPERAND_STACK_SIZE_LIMIT := by
  unfold Interpreter.pushValue at h
  cases hp : st.operand_stack.push v with
  | error e => rw [hp] at h; cases h
  | ok s =>
    rw [hp] at h
    cases h
    obtain ⟨h1, h2⟩ := Stack.push_ok hp
    exact ⟨by rw [h1], h2⟩

theorem Interpreter.popValue_inv {st : Interpreter} {v : Value} {st' : Interpreter}
    (h : st.popValue = .ok (v, st')) :
    ∃ rest, st.operand_stack.values = v :: rest ∧
      st' = { st with operand_stack := ⟨rest⟩ } := by
  unfold Interpreter.popValue Stack.pop at h
  cases hs : st.operand_stack.values with
  | nil => rw [hs] at h; cases h
  | cons w rest =>
    rw [hs] at h
    cases h
    exact ⟨rest, rfl, rfl⟩

theorem Interpreter.popBool_inv {st : Interpreter} {b : Bool} {st' : Interpreter}
    (h : st.popBool = .ok (b, st')) :
    ∃ rest, st.operand_stack.values = .bool b :: rest ∧
      st' = { st with operand_stack := ⟨rest⟩ } := by
  unfold Interpreter.popBool at h
  cases hp : st.popValue with
  | error e => rw [hp] at h; cases h
  | ok p =>
    rw [hp] at h
    obtain ⟨v, st₁⟩ := p
    cases hv : v with
    | bool b' => subst hv; simp [Value.value_as_bool] at h; obtain ⟨hb, hst⟩ := h
                 obtain ⟨rest, h1, h2⟩ := Interpreter.popValue_inv hp
                 exact ⟨rest, by rw [h1, hb], by rw [← hst, h2]⟩
    | _ => subst hv; simp [Value.value_as_bool] at h

theorem Interpreter.popU64_inv {st : Interpreter} {n : Nat} {st' : Interpreter}
    (h : st.popU64 = .ok (n, st')) :
    ∃ rest, st.operand_stack.values = .u64 n :: rest ∧
      st' = { st with operand_stack := ⟨rest⟩ } := by
  unfold Interpreter.popU64 at h
  cases hp : st.popValue with
  | error e => rw [hp] at h; cases h
  | ok p =>
    rw [hp] at h
    obtain ⟨v, st₁⟩ := p
    cases hv : v with
    | u64 m => subst hv; simp [Value.value_as_u64] at h; obtain ⟨hb, hst⟩ := h
               obtain ⟨rest, h1, h2⟩ := Interpreter.popValue_inv hp
               exact ⟨rest, by rw [h1, hb], by rw [← hst, h2]⟩
    | _ => subst hv; simp [Value.value_as_u64] at h

theorem Interpreter.popAddress_inv {st : Interpreter} {a : Nat} {st' : Interpreter}
    (h : st.popAddress = .ok (a, st')) :
    ∃ rest, st.operand_stack.values = .address a :: rest ∧
      st' = { st with operand_stack := ⟨rest⟩ } := by
  unfold Interpreter.popAddress at h
  cases hp : st.popValue with
  | error e => rw [hp] at h; cases h
  | ok p =>
    rw [hp] at h
    obtain ⟨v, st₁⟩ := p
    cases hv : v with
    | address m => subst hv; simp [Value.value_as_address] at h; obtain ⟨hb, hst⟩ := h
                   obtain ⟨rest, h1, h2⟩ := Interpreter.popValue_inv hp
                   exact ⟨rest, by rw [h1, hb], by rw [← hst, h2]⟩
    | _ => subst hv; simp [Value.value_as_address] at h

theorem Interpreter.popByteArray_inv {st : Interpreter} {bs : List Nat} {st' : Interpreter}
    (h : st.popByteArray = .ok (bs, st')) :
    ∃ rest, st.operand_stack.values = .byte_array bs :: rest ∧
      st' = { st with operand_stack := ⟨rest⟩ } := by
  unfold Interpreter.popByteArray at h
  cases hp : st.popValue with
  | error e => rw [hp] at h; cases h
  | ok p =>
    rw [hp] at h
    obtain ⟨v, st₁⟩ := p
    cases hv : v with
    | byte_array m => subst hv; simp [Value.value_as_byte_array] at h; obtain ⟨hb, hst⟩ := h
                      obtain ⟨rest, h1, h2⟩ := Interpreter.popValue_inv hp
                      exact ⟨rest, by rw [h1, hb], by rw [← hst, h2]⟩
    | _ => subst hv; simp [Value.value_as_byte_array] at h

theorem Interpreter.popStruct_inv {st : Interpreter} {fs : List Value} {st' : Interpreter}
    (h : st.popStruct = .ok (fs, st')) :
    ∃ rest, st.operand_stack.values = .struct_ fs :: rest ∧
      st' = { st with operand_stack := ⟨rest⟩ } := by
  unfold Interpreter.popStruct at h
  cases hp : st.popValue with
  | error e => rw [hp] at h; cases h
  | ok p =>
    rw [hp] at h
    obtain ⟨v, st₁⟩ := p
    cases hv : v with
    | struct_ m => subst hv; simp [Value.value_as_struct] at h; obtain ⟨hb, hst⟩ := h
                   obtain ⟨rest, h1, h2⟩ := Interpreter.popValue_inv hp
                   exact ⟨rest, by rw [h1, hb], by rw [← hst, h2]⟩
    | _ => subst hv; simp [Value.value_as_struct] at h

theorem Interpreter.popReference_inv {st : Interpreter} {r : Value} {st' : Interpreter}
    (h : st.popReference = .ok (r, st')) :
    ∃ rest, st.operand_stack.values = r :: rest ∧
      st' = { st with operand_stack := ⟨rest⟩ } := by
  unfold Interpreter.popReference at h
  cases hp : st.popValue with
  | error e => rw [hp] at h; cases h
  | ok p =>
    rw [hp] at h
    obtain ⟨v, st₁⟩ := p
    cases hr : v.isReference with
    | false => simp [Value.value_as_reference, hr] at h
    | true =>
      simp [Value.value_as_reference, hr] at h
      obtain ⟨hb, hst⟩ := h
      obtain ⟨rest, h1, h2⟩ := Interpreter.popValue_inv hp
      exact ⟨rest, by rw [h1, hb], by rw [← hst, h2]⟩

theorem GasMeter.calculate_and_consume_inv {gm gm' : GasMeter} {cost : Bytecode → Nat}
    {instr : Bytecode} {size : AbstractMemorySize}
    (h : gm.calculate_and_consume cost instr size = .ok gm') :
    gm'.charge_log = (instr, size.val) :: gm.charge_log := by
  simp only [GasMeter.calculate_and_consume, GasMeter.consume_gas] at h
  split at h
  · split at h
    · cases h; rfl
    · cases h
  · cases h; rfl

theorem Interpreter.binop_int_inv {st : Interpreter} {f : Nat → Nat → Option Nat}
    {st' : Interpreter} (h : st.binop_int f = .ok st') :
    st'.operand_stack.values.length ≤ OPERAND_STACK_SIZE_LIMIT ∧
    st'.call_stack = st.call_stack ∧ st'.gas_meter = st.gas_meter ∧
    st'.data_view = st.data_view ∧ st'.event_data = st.event_data := by
  unfold Interpreter.binop_int at h
  split at h
  · simp at h
  · rename_i rhs st1 heq1
    obtain ⟨r1, hv1, rfl⟩ := Interpreter.popU64_inv heq1
    split at h
    · simp at h
    · rename_i lhs st2 heq2
      obtain ⟨r2, hv2, rfl⟩ := Interpreter.popU64_inv heq2
      split at h
      · rename_i v heq3
        obtain ⟨rfl, hlt⟩ := Interpreter.pushValue_inv h
        exact ⟨by simpa using hlt, rfl, rfl, rfl, rfl⟩
      · simp at h

theorem Interpreter.binop_bool_int_inv {st : Interpreter} {f : Nat → Nat → Bool}
    {st' : Interpreter} (h : st.binop_bool_int f = .ok st') :
    st'.operand_stack.values.length ≤ OPERAND_STACK_SIZE_LIMIT ∧
    st'.call_stack = st.call_stack ∧ st'.gas_meter = st.gas_meter ∧
    st'.data_view = st.data_view ∧ st'.event_data = st.event_data := by
  unfold Interpreter.binop_bool_int at h
  split at h
  · simp at h
  · rename_i rhs st1 heq1
    obtain ⟨r1, hv1, rfl⟩ := Interpreter.popU64_inv heq1
    split at h
    · simp at h
    · rename_i lhs st2 heq2
      obtain ⟨r2, hv2, rfl⟩ := Interpreter.popU64_inv heq2
      obtain ⟨rfl, hlt⟩ := Interpreter.pushValue_inv h
      exact ⟨by simpa using hlt, rfl, rfl, rfl, rfl⟩

theorem Interpreter.binop_bool_bool_inv {st : Interpreter} {f : Bool → Bool → Bool}
    {st' : Interpreter} (h : st.binop_bool_bool f = .ok st') :
    st'.operand_stack.values.length ≤ OPERAND_STACK_SIZE_LIMIT ∧
    st'.call_stack = st.call_stack ∧ st'.gas_meter = st.gas_meter ∧
    st'.data_view = st.data_view ∧ st'.event_data = st.event_data := by
  unfold Interpreter.binop_bool_bool at h
  split at h
  · simp at h
  · rename_i rhs st1 heq1
    obtain ⟨r1, hv1, rfl⟩ := Interpreter.popBool_inv heq1
    split at h
    · simp at h
    · rename_i lhs st2 heq2
      obtain ⟨r2, hv2, rfl⟩ := Interpreter.popBool_inv heq2
      obtain ⟨rfl, hlt⟩ := Interpreter.pushValue_inv h
      exact ⟨by simpa using hlt, rfl, rfl, rfl, rfl⟩

theorem Interpreter.pushUnpackedFields_inv {fields : List Value} :
    ∀ {count start : Nat} {st st' : Interpreter},
    Interpreter.pushUnpackedFields fields start count st = .ok st' →
    (st.operand_stack.values.length ≤ OPERAND_STACK_SIZE_LIMIT →
      st'.operand_stack.values.length ≤ OPERAND_STACK_SIZE_LIMIT) ∧
    st'.call_stack = st.call_stack ∧ st'.gas_meter = st.gas_meter ∧
    st'.data_view = st.data_view ∧ st'.event_data = st.event_data := by
  intro count
  induction count with
  | zero =>
    intro start st st' h
    cases h
    exact ⟨fun hl => hl, rfl, rfl, rfl, rfl⟩
  | succ k ih =>
    intro start st st' h
    unfold Interpreter.pushUnpackedFields at h
    split at h
    · simp at h
    · rename_i v heq1
      split at h
      · simp at h
      · rename_i st1 heq2
        obtain ⟨rfl, hlt⟩ := Interpreter.pushValue_inv heq2
        obtain ⟨ihl, ihc, ihg, ihd, ihe⟩ := ih h
        exact ⟨fun _ => ihl (by simpa using hlt), ihc, ihg, ihd, ihe⟩

theorem Stack.popn_inv {s : Stack} {n : Nat} {args : List Value} {s' : Stack}
    (h : s.popn n = .ok (args, s')) :
    s' = ⟨s.values.drop n⟩ ∧ args = (s.values.take n).reverse ∧ n ≤ s.values.length := by
  unfold Stack.popn at h
  split at h
  · cases h
    exact ⟨rfl, rfl, by assumption⟩
  · cases h

theorem Interpreter.borrow_global_op_inv {ctx : VMContext} {st : Interpreter}
    {ap : AccessPath} {sd : StructDef} {size : AbstractMemorySize} {st' : Interpreter}
    (h : Interpreter.borrow_global_op ctx st ap sd = .ok (size, st')) :
    ∃ rid dv, ctx.borrow_global ap sd st.data_view = .ok (rid, size, dv) ∧
      st' = { st with
              data_view := dv
              operand_stack := ⟨.global_ref rid :: st.operand_stack.values⟩ } ∧
      st.operand_stack.values.length < OPERAND_STACK_SIZE_LIMIT := by
  unfold Interpreter.borrow_global_op at h
  split at h
  · simp at h
  · rename_i rid sz dv heq
    split at h
    · simp at h
    · rename_i st1 heq2
      obtain ⟨rfl, hlt⟩ := Interpreter.pushValue_inv heq2
      cases h
      exact ⟨rid, dv, heq, rfl, by simpa using hlt⟩

theorem Interpreter.exists_op_inv {ctx : VMContext} {st : Interpreter}
    {ap : AccessPath} {sd : StructDef} {size : AbstractMemorySize} {st' : Interpreter}
    (h : Interpreter.exists_op ctx st ap sd = .ok (size, st')) :
    ∃ b dv, ctx.resource_exists ap sd st.data_view = .ok (b, size, dv) ∧
      st' = { st with
              data_view := dv
              operand_stack := ⟨.bool b :: st.operand_stack.values⟩ } ∧
      st.operand_stack.values.length < OPERAND_STACK_SIZE_LIMIT := by
  unfold Interpreter.exists_op at h
  split at h
  · simp at h
  · rename_i b sz dv heq
    split at h
    · simp at h
    · rename_i st1 heq2
      obtain ⟨rfl, hlt⟩ := Interpreter.pushValue_inv heq2
      cases h
      exact ⟨b, dv, heq, rfl, by simpa using hlt⟩

theorem Interpreter.move_from_op_inv {ctx : VMContext} {st : Interpreter}
    {ap : AccessPath} {sd : StructDef} {size : AbstractMemorySize} {st' : Interpreter}
    (h : Interpreter.move_from_op ctx st ap sd = .ok (size, st')) :
    ∃ resource dv, ctx.move_resource_from ap sd st.data_view = .ok (resource, dv) ∧
      size = AbstractMemorySize.mk resource.size ∧
      st' = { st with
              data_view := dv
              operand_stack := ⟨resource :: st.operand_stack.values⟩ } ∧
      st.operand_stack.values.length < OPERAND_STACK_SIZE_LIMIT := by
  unfold Interpreter.move_from_op at h
  split at h
  · simp at h
  · rename_i resource dv heq
    split at h
    · simp at h
    · rename_i st1 heq2
      obtain ⟨rfl, hlt⟩ := Interpreter.pushValue_inv heq2
      cases h
      exact ⟨resource, dv, heq, rfl, rfl, by simpa using hlt⟩

theorem Interpreter.move_to_sender_op_inv {ctx : VMContext} {st : Interpreter}
    {ap : AccessPath} {sd : StructDef} {size : AbstractMemorySize} {st' : Interpreter}
    (h : Interpreter.move_to_sender_op ctx st ap sd = .ok (size, st')) :
    ∃ fields rest dv, st.operand_stack.values = .struct_ fields :: rest ∧
      ctx.move_resource_to ap sd fields st.data_view = .ok dv ∧
      size = AbstractMemorySize.mk (Value.size (.struct_ fields)) ∧
      st' = { st with operand_stack := ⟨rest⟩, data_view := dv } := by
  unfold Interpreter.move_to_sender_op at h
  split at h
  · simp at h
  · rename_i fields st1 heq
    obtain ⟨rest, hv, rfl⟩ := Interpreter.popStruct_inv heq
    split at h
    · simp at h
    · rename_i dv heq2
      cases h
      exact ⟨fields, rest, dv, hv, heq2, rfl, rfl⟩

theorem Interpreter.global_data_op_inv {ctx : VMContext} {st : Interpreter} {address : Nat}
    {idx : Nat} {module : LoadedModule} {op : GlobalDataOp} {size : AbstractMemorySize}
    {st' : Interpreter}
    (h : Interpreter.global_data_op ctx st address idx module op = .ok (size, st')) :
    ∃ sd, ctx.resolve_struct_def module idx = .ok (some sd) ∧
      (match op with
       | .BorrowGlobal =>
         Interpreter.borrow_global_op ctx st (ctx.make_access_path module idx address) sd
       | .ExistsOp =>
         Interpreter.exists_op ctx st (ctx.make_access_path module idx address) sd
       | .MoveFrom =>
         Interpreter.move_from_op ctx st (ctx.make_access_path module idx address) sd
       | .MoveToSender =>
         Interpreter.move_to_sender_op ctx st (ctx.make_access_path module idx address) sd) =
        .ok (size, st') := by
  unfold Interpreter.global_data_op at h
  split at h
  · simp at h
  · simp at h
  · rename_i sd heq
    exact ⟨sd, heq, h⟩

theorem Interpreter.global_data_op_pres {ctx : VMContext} {st : Interpreter} {address : Nat}
    {idx : Nat} {module : LoadedModule} {op : GlobalDataOp} {size : AbstractMemorySize}
    {st' : Interpreter}
    (h : Interpreter.global_data_op ctx st address idx module op = .ok (size, st')) :
    (st.operand_stack.values.length ≤ OPERAND_STACK_SIZE_LIMIT →
      st'.operand_stack.values.length ≤ OPERAND_STACK_SIZE_LIMIT) ∧
    st'.call_stack = st.call_stack ∧ st'.gas_meter = st.gas_meter := by
  obtain ⟨sd, hsd, hop⟩ := Interpreter.global_data_op_inv h
  cases op with
  | BorrowGlobal =>
    obtain ⟨rid, dv, _, rfl, hlt⟩ := Interpreter.borrow_global_op_inv hop
    exact ⟨fun _ => by simpa using hlt, rfl, rfl⟩
  | ExistsOp =>
    obtain ⟨b, dv, _, rfl, hlt⟩ := Interpreter.exists_op_inv hop
    exact ⟨fun _ => by simpa using hlt, rfl, rfl⟩
  | MoveFrom =>
    obtain ⟨resource, dv, _, _, rfl, hlt⟩ := Interpreter.move_from_op_inv hop
    exact ⟨fun _ => by simpa using hlt, rfl, rfl⟩
  | MoveToSender =>
    obtain ⟨fields, rest, dv, hv, _, _, rfl⟩ := Interpreter.move_to_sender_op_inv hop
    refine ⟨fun hl => ?_, rfl, rfl⟩
    simp only []
    rw [hv] at hl
    simp at hl ⊢
    omega

/-- The global-storage instructions: the five opcodes dispatched through
global_data_op. -/
def Bytecode.isGlobalOp : Bytecode → Bool
  | .MutBorrowGlobal _ _ => true
  | .ImmBorrowGlobal _ _ => true
  | .Exists _ _ => true
  | .MoveFrom _ _ => true
  | .MoveToSender _ _ => true
  | _ => false

/-- The per-instruction inversion shared by the stack-bound and
gas-charge theorems: a successful instruction never touches the call
stack, keeps the operand stack within its limit, and — for every
instruction that is not a global-storage instruction — extends the
charge log by exactly the one pre-execution charge with memory-size
operand 1. -/
theorem execute_instruction_inv (ctx : VMContext) (frame : Frame) (st : Interpreter)
    (instr : Bytecode) (out : Option ExitCode) (frame' : Frame) (st' : Interpreter)
    (h : execute_instruction ctx frame st instr = .ok (out, frame', st')) :
    st'.call_stack = st.call_stack ∧
    (st.operand_stack.values.length ≤ OPERAND_STACK_SIZE_LIMIT →
      st'.operand_stack.values.length ≤ OPERAND_STACK_SIZE_LIMIT) ∧
    (instr.isGlobalOp = false →
      st'.gas_meter.charge_log = (instr, 1) :: st.gas_meter.charge_log) := by
  cases instr
  case Pop =>
    unfold execute_instruction at h
    split at h
    · simp at h
    · rename_i gm hgm
      have hlog := GasMeter.calculate_and_consume_inv hgm
      dsimp only [] at h
      split at h
      · simp at h
      · rename_i v st1 hpop
        obtain ⟨rest, hv, rfl⟩ := Interpreter.popValue_inv hpop
        cases h
        refine ⟨rfl, fun hl => ?_, fun _ => by simpa using hlog⟩
        rw [hv] at hl
        simp at hl ⊢
        omega
  case Ret =>
    unfold execute_instruction at h
    split at h
    · simp at h
    · rename_i gm hgm
      have hlog := GasMeter.calculate_and_consume_inv hgm
      dsimp only [] at h
      cases h
      exact ⟨rfl, fun hl => hl, fun _ => by simpa using hlog⟩
  case BrTrue offset =>
    unfold execute_instruction at h
    split at h
    · simp at h
    · rename_i gm hgm
      have hlog := GasMeter.calculate_and_consume_inv hgm
      dsimp only [] at h
      split at h
      · simp at h
      · rename_i b st1 hpop
        obtain ⟨rest, hv, rfl⟩ := Interpreter.popBool_inv hpop
        split at h <;>
        · cases h
          refine ⟨rfl, fun hl => ?_, fun _ => by simpa using hlog⟩
          rw [hv] at hl
          simp at hl ⊢
          omega
  case BrFalse offset =>
    unfold execute_instruction at h
    split at h
    · simp at h
    · rename_i gm hgm
      have hlog := GasMeter.calculate_and_consume_inv hgm
      dsimp only [] at h
      split at h
      · simp at h
      · rename_i b st1 hpop
        obtain ⟨rest, hv, rfl⟩ := Interpreter.popBool_inv hpop
        split at h <;>
        · cases h
          refine ⟨rfl, fun hl => ?_, fun _ => by simpa using hlog⟩
          rw [hv] at hl
          simp at hl ⊢
          omega
  case Branch offset =>
    unfold execute_instruction at h
    split at h
    · simp at h
    · rename_i gm hgm
      have hlog := GasMeter.calculate_and_consume_inv hgm
      dsimp only [] at h
      cases h
      exact ⟨rfl, fun hl => hl, fun _ => by simpa using hlog⟩
  case LdConst int_const =>
    unfold execute_instruction at h
    split at h
    · simp at h
    · rename_i gm hgm
      have hlog := GasMeter.calculate_and_consume_inv hgm
      dsimp only [] at h
      split at h
      · simp at h
      · rename_i st1 hpush
        obtain ⟨rfl, hlt⟩ := Interpreter.pushValue_inv hpush
        cases h
        exact ⟨rfl, fun _ => by simpa using hlt, fun _ => by simpa using hlog⟩
  case LdAddr idx =>
    unfold execute_instruction at h
    split at h
    · simp at h
    · rename_i gm hgm
      have hlog := GasMeter.calculate_and_consume_inv hgm
      dsimp only [] at h
      split at h
      · simp at h
      · rename_i st1 hpush
        obtain ⟨rfl, hlt⟩ := Interpreter.pushValue_inv hpush
        cases h
        exact ⟨rfl, fun _ => by simpa using hlt, fun _ => by simpa using hlog⟩
  case LdStr idx =>
    unfold execute_instruction at h
    split at h
    · simp at h
    · rename_i gm hgm
      have hlog := GasMeter.calculate_and_consume_inv hgm
      dsimp only [] at h
      split at h
      · simp at h
      · rename_i st1 hpush
        obtain ⟨rfl, hlt⟩ := Interpreter.pushValue_inv hpush
        cases h
        exact ⟨rfl, fun _ => by simpa using hlt, fun _ => by simpa using hlog⟩
  case LdByteArray idx =>
    unfold execute_instruction at h
    split at h
    · simp at h
    · rename_i gm hgm
      have hlog := GasMeter.calculate_and_consume_inv hgm
      dsimp only [] at h
      split at h
      · simp at h
      · rename_i st1 hpush
        obtain ⟨rfl, hlt⟩ := Interpreter.pushValue_inv hpush
        cases h
        exact ⟨rfl, fun _ => by simpa using hlt, fun _ => by simpa using hlog⟩
  case LdTrue =>
    unfold execute_instruction at h
    split at h
    · simp at h
    · rename_i gm hgm
      have hlog := GasMeter.calculate_and_consume_inv hgm
      dsimp only [] at h
      split at h
      · simp at h
      · rename_i st1 hpush
        obtain ⟨rfl, hlt⟩ := Interpreter.pushValue_inv hpush
        cases h
        exact ⟨rfl, fun _ => by simpa using hlt, fun _ => by simpa using hlog⟩
  case LdFalse =>
    unfold execute_instruction at h
    split at h
    · simp at h
    · rename_i gm hgm
      have hlog := GasMeter.calculate_and_consume_inv hgm
      dsimp only [] at h
      split at h
      · simp at h
      · rename_i st1 hpush
        obtain ⟨rfl, hlt⟩ := Interpreter.pushValue_inv hpush
        cases h
        exact ⟨rfl, fun _ => by simpa using hlt, fun _ => by simpa using hlog⟩
  case CopyLoc idx =>
    unfold execute_instruction at h
    split at h
    · simp at h
    · rename_i gm hgm
      have hlog := GasMeter.calculate_and_consume_inv hgm
      dsimp only [] at h
      split at h
      · simp at h
      · rename_i v hloc
        split at h
        · simp at h
        · rename_i st1 hpush
          obtain ⟨rfl, hlt⟩ := Interpreter.pushValue_inv hpush
          cases h
          exact ⟨rfl, fun _ => by simpa using hlt, fun _ => by simpa using hlog⟩
  case MoveLoc idx =>
    unfold execute_instruction at h
    split at h
    · simp at h
    · rename_i gm hgm
      have hlog := GasMeter.calculate_and_consume_inv hgm
      dsimp only [] at h
      split at h
      · simp at h
      · rename_i v frame2 hloc
        split at h
        · simp at h
        · rename_i st1 hpush
          obtain ⟨rfl, hlt⟩ := Interpreter.pushValue_inv hpush
          cases h
          exact ⟨rfl, fun _ => by simpa using hlt, fun _ => by simpa using hlog⟩
  case StLoc idx =>
    unfold execute_instruction at h
    split at h
    · simp at h
    · rename_i gm hgm
      have hlog := GasMeter.calculate_and_consume_inv hgm
      dsimp only [] at h
      split at h
      · simp at h
      · rename_i v st1 hpop
        obtain ⟨rest, hv, rfl⟩ := Interpreter.popValue_inv hpop
        split at h
        · simp at h
        · rename_i frame2 hsl
          cases h
          refine ⟨rfl, fun hl => ?_, fun _ => by simpa using hlog⟩
          rw [hv] at hl
          simp at hl ⊢
          omega
  case Call idx type_actuals_idx =>
    unfold execute_instruction at h
    split at h
    · simp at h
    · rename_i gm hgm
      have hlog := GasMeter.calculate_and_consume_inv hgm
      dsimp only [] at h
      cases h
      exact ⟨rfl, fun hl => hl, fun _ => by simpa using hlog⟩
  case MutBorrowLoc idx =>
    unfold execute_instruction at h
    split at h
    · simp at h
    · rename_i gm hgm
      have hlog := GasMeter.calculate_and_consume_inv hgm
      dsimp only [] at h
      split at h
      · simp at h
      · rename_i v hloc
        split at h
        · simp at h
        · rename_i st1 hpush
          obtain ⟨rfl, hlt⟩ := Interpreter.pushValue_inv hpush
          cases h
          exact ⟨rfl, fun _ => by simpa using hlt, fun _ => by simpa using hlog⟩
  case ImmBorrowLoc idx =>
    unfold execute_instruction at h
    split at h
    · simp at h
    · rename_i gm hgm
      have hlog := GasMeter.calculate_and_consume_inv hgm
      dsimp only [] at h
      split at h
      · simp at h
      · rename_i v hloc
        split at h
        · simp at h
        · rename_i st1 hpush
          obtain ⟨rfl, hlt⟩ := Interpreter.pushValue_inv hpush
          cases h
          exact ⟨rfl, fun _ => by simpa using hlt, fun _ => by simpa using hlog⟩
  case ImmBorrowField fd_idx =>
    unfold execute_instruction at h
    split at h
    · simp at h
    · rename_i gm hgm
      have hlog := GasMeter.calculate_and_consume_inv hgm
      dsimp only [] at h
      split at h
      · simp at h
      · rename_i off hoff
        split at h
        · simp at h
        · rename_i r st2 hpr
          obtain ⟨rest, hv, rfl⟩ := Interpreter.popReference_inv hpr
          split at h
          · simp at h
          · rename_i fr hbf
            split at h
            · simp at h
            · rename_i st3 hpush
              obtain ⟨rfl, hlt⟩ := Interpreter.pushValue_inv hpush
              cases h
              exact ⟨rfl, fun _ => by simpa using hlt, fun _ => by simpa using hlog⟩
  case MutBorrowField fd_idx =>
    unfold execute_instruction at h
    split at h
    · simp at h
    · rename_i gm hgm
      have hlog := GasMeter.calculate_and_consume_inv hgm
      dsimp only [] at h
      split at h
      · simp at h
      · rename_i off hoff
        split at h
        · simp at h
        · rename_i r st2 hpr
          obtain ⟨rest, hv, rfl⟩ := Interpreter.popReference_inv hpr
          split at h
          · simp at h
          · rename_i fr hbf
            split at h
            · simp at h
            · rename_i st3 hpush
              obtain ⟨rfl, hlt⟩ := Interpreter.pushValue_inv hpush
              cases h
              exact ⟨rfl, fun _ => by simpa using hlt, fun _ => by simpa using hlog⟩
  case Pack sd_idx type_actuals_idx =>
    unfold execute_instruction at h
    split at h
    · simp at h
    · rename_i gm hgm
      have hlog := GasMeter.calculate_and_consume_inv hgm
      dsimp only [] at h
      split at h
      · simp at h
      · rename_i n hfc
        split at h
        · simp at h
        · rename_i args s2 hpopn
          obtain ⟨rfl, hargs, hle⟩ := Stack.popn_inv hpopn
          split at h
          · simp at h
          · rename_i st3 hpush
            obtain ⟨rfl, hlt⟩ := Interpreter.pushValue_inv hpush
            cases h
            exact ⟨rfl, fun _ => by simpa using hlt, fun _ => by simpa using hlog⟩
  case Unpack sd_idx type_actuals_idx =>
    unfold execute_instruction at h
    split at h
    · simp at h
    · rename_i gm hgm
      have hlog := GasMeter.calculate_and_consume_inv hgm
      dsimp only [] at h
      split at h
      · simp at h
      · rename_i n hfc
        split at h
        · simp at h
        · rename_i fields st2 hps
          obtain ⟨rest, hv, rfl⟩ := Interpreter.popStruct_inv hps
          split at h
          · simp at h
          · rename_i st3 hpuf
            obtain ⟨plen, pcs, pgas, _, _⟩ := Interpreter.pushUnpackedFields_inv hpuf
            cases h
            refine ⟨by rw [pcs], fun hl => ?_, fun _ => by rw [pgas]; simpa using hlog⟩
            refine plen ?_
            rw [hv] at hl
            simp at hl ⊢
            omega
  case ReadRef =>
    unfold execute_instruction at h
    split at h
    · simp at h
    · rename_i gm hgm
      have hlog := GasMeter.calculate_and_consume_inv hgm
      dsimp only [] at h
      split at h
      · simp at h
      · rename_i r st2 hpr
        obtain ⟨rest, hv, rfl⟩ := Interpreter.popReference_inv hpr
        split at h
        · simp at h
        · rename_i v hrr
          split at h
          · simp at h
          · rename_i st3 hpush
            obtain ⟨rfl, hlt⟩ := Interpreter.pushValue_inv hpush
            cases h
            exact ⟨rfl, fun _ => by simpa using hlt, fun _ => by simpa using hlog⟩
  case WriteRef =>
    unfold execute_instruction at h
    split at h
    · simp at h
    · rename_i gm hgm
      have hlog := GasMeter.calculate_and_consume_inv hgm
      dsimp only [] at h
      split at h
      · simp at h
      · rename_i r st2 hpr
        obtain ⟨rest, hv, rfl⟩ := Interpreter.popReference_inv hpr
        split at h
        · simp at h
        · rename_i v st3 hpv
          obtain ⟨rest2, hv2, rfl⟩ := Interpreter.popValue_inv hpv
          cases h
          refine ⟨rfl, fun hl => ?_, fun _ => by simpa using hlog⟩
          simp at hv2
          rw [hv] at hl
          rw [hv2] at hl
          simp at hl ⊢
          omega
  case Add =>
    unfold execute_instruction at h
    split at h
    · simp at h
    · rename_i gm hgm
      have hlog := GasMeter.calculate_and_consume_inv hgm
      dsimp only [] at h
      split at h
      · simp at h
      · rename_i st2 hb
        obtain ⟨blen, bcs, bgas, _, _⟩ := Interpreter.binop_int_inv hb
        cases h
        exact ⟨bcs, fun _ => blen, fun _ => by rw [bgas]; simpa using hlog⟩
  case Sub =>
    unfold execute_instruction at h
    split at h
    · simp at h
    · rename_i gm hgm
      have hlog := GasMeter.calculate_and_consume_inv hgm
      dsimp only [] at h
      split at h
      · simp at h
      · rename_i st2 hb
        obtain ⟨blen, bcs, bgas, _, _⟩ := Interpreter.binop_int_inv hb
        cases h
        exact ⟨bcs, fun _ => blen, fun _ => by rw [bgas]; simpa using hlog⟩
  case Mul =>
    unfold execute_instruction at h
    split at h
    · simp at h
    · rename_i gm hgm
      have hlog := GasMeter.calculate_and_consume_inv hgm
      dsimp only [] at h
      split at h
      · simp at h
      · rename_i st2 hb
        obtain ⟨blen, bcs, bgas, _, _⟩ := Interpreter.binop_int_inv hb
        cases h
        exact ⟨bcs, fun _ => blen, fun _ => by rw [bgas]; simpa using hlog⟩
  case Mod =>
    unfold execute_instruction at h
    split at h
    · simp at h
    · rename_i gm hgm
      have hlog := GasMeter.calculate_and_consume_inv hgm
      dsimp only [] at h
      split at h
      · simp at h
      · rename_i st2 hb
        obtain ⟨blen, bcs, bgas, _, _⟩ := Interpreter.binop_int_inv hb
        cases h
        exact ⟨bcs, fun _ => blen, fun _ => by rw [bgas]; simpa using hlog⟩
  case Div =>
    unfold execute_instruction at h
    split at h
    · simp at h
    · rename_i gm hgm
      have hlog := GasMeter.calculate_and_consume_inv hgm
      dsimp only [] at h
      split at h
      · simp at h
      · rename_i st2 hb
        obtain ⟨blen, bcs, bgas, _, _⟩ := Interpreter.binop_int_inv hb
        cases h
        exact ⟨bcs, fun _ => blen, fun _ => by rw [bgas]; simpa using hlog⟩
  case BitOr =>
    unfold execute_instruction at h
    split at h
    · simp at h
    · rename_i gm hgm
      have hlog := GasMeter.calculate_and_consume_inv hgm
      dsimp only [] at h
      split at h
      · simp at h
      · rename_i st2 hb
        obtain ⟨blen, bcs, bgas, _, _⟩ := Interpreter.binop_int_inv hb
        cases h
        exact ⟨bcs, fun _ => blen, fun _ => by rw [bgas]; simpa using hlog⟩
  case BitAnd =>
    unfold execute_instruction at h
    split at h
    · simp at h
    · rename_i gm hgm
      have hlog := GasMeter.calculate_and_consume_inv hgm
      dsimp only [] at h
      split at h
      · simp at h
      · rename_i st2 hb
        obtain ⟨blen, bcs, bgas, _, _⟩ := Interpreter.binop_int_inv hb
        cases h
        exact ⟨bcs, fun _ => blen, fun _ => by rw [bgas]; simpa using hlog⟩
  case Xor =>
    unfold execute_instruction at h
    split at h
    · simp at h
    · rename_i gm hgm
      have hlog := GasMeter.calculate_and_consume_inv hgm
      dsimp only [] at h
      split at h
      · simp at h
      · rename_i st2 hb
        obtain ⟨blen, bcs, bgas, _, _⟩ := Interpreter.binop_int_inv hb
        cases h
        exact ⟨bcs, fun _ => blen, fun _ => by rw [bgas]; simpa using hlog⟩
  case Or =>
    unfold execute_instruction at h
    split at h
    · simp at h
    · rename_i gm hgm
      have hlog := GasMeter.calculate_and_consume_inv hgm
      dsimp only [] at h
      split at h
      · simp at h
      · rename_i st2 hb
        obtain ⟨blen, bcs, bgas, _, _⟩ := Interpreter.binop_bool_bool_inv hb
        cases h
        exact ⟨bcs, fun _ => blen, fun _ => by rw [bgas]; simpa using hlog⟩
  case And =>
    unfold execute_instruction at h
    split at h
    · simp at h
    · rename_i gm hgm
      have hlog := GasMeter.calculate_and_consume_inv hgm
      dsimp only [] at h
      split at h
      · simp at h
      · rename_i st2 hb
        obtain ⟨blen, bcs, bgas, _, _⟩ := Interpreter.binop_bool_bool_inv hb
        cases h
        exact ⟨bcs, fun _ => blen, fun _ => by rw [bgas]; simpa using hlog⟩
  case Lt =>
    unfold execute_instruction at h
    split at h
    · simp at h
    · rename_i gm hgm
      have hlog := GasMeter.calculate_and_consume_inv hgm
      dsimp only [] at h
      split at h
      · simp at h
      · rename_i st2 hb
        obtain ⟨blen, bcs, bgas, _, _⟩ := Interpreter.binop_bool_int_inv hb
        cases h
        exact ⟨bcs, fun _ => blen, fun _ => by rw [bgas]; simpa using hlog⟩
  case Gt =>
    unfold execute_instruction at h
    split at h
    · simp at h
    · rename_i gm hgm
      have hlog := GasMeter.calculate_and_consume_inv hgm
      dsimp only [] at h
      split at h
      · simp at h
      · rename_i st2 hb
        obtain ⟨blen, bcs, bgas, _, _⟩ := Interpreter.binop_bool_int_inv hb
        cases h
        exact ⟨bcs, fun _ => blen, fun _ => by rw [bgas]; simpa using hlog⟩
  case Le =>
    unfold execute_instruction at h
    split at h
    · simp at h
    · rename_i gm hgm
      have hlog := GasMeter.calculate_and_consume_inv hgm
      dsimp only [] at h
      split at h
      · simp at h
      · rename_i st2 hb
        obtain ⟨blen, bcs, bgas, _, _⟩ := Interpreter.binop_bool_int_inv hb
        cases h
        exact ⟨bcs, fun _ => blen, fun _ => by rw [bgas]; simpa using hlog⟩
  case Ge =>
    unfold execute_instruction at h
    split at h
    · simp at h
    · rename_i gm hgm
      have hlog := GasMeter.calculate_and_consume_inv hgm
      dsimp only [] at h
      split at h
      · simp at h
      · rename_i st2 hb
        obtain ⟨blen, bcs, bgas, _, _⟩ := Interpreter.binop_bool_int_inv hb
        cases h
        exact ⟨bcs, fun _ => blen, fun _ => by rw [bgas]; simpa using hlog⟩
  case Abort =>
    unfold execute_instruction at h
    split at h
    · simp at h
    · rename_i gm hgm
      have hlog := GasMeter.calculate_and_consume_inv hgm
      dsimp only [] at h
      split at h
      · simp at h
      · simp at h
  case Eq =>
    unfold execute_instruction at h
    split at h
    · simp at h
    · rename_i gm hgm
      have hlog := GasMeter.calculate_and_consume_inv hgm
      dsimp only [] at h
      split at h
      · simp at h
      · rename_i lhs st2 hp1
        obtain ⟨rest1, hv1, rfl⟩ := Interpreter.popValue_inv hp1
        split at h
        · simp at h
        · rename_i rhs st3 hp2
          obtain ⟨rest2, hv2, rfl⟩ := Interpreter.popValue_inv hp2
          split at h
          · simp at h
          · rename_i b heqv
            split at h
            · simp at h
            · rename_i st4 hpush
              obtain ⟨rfl, hlt⟩ := Interpreter.pushValue_inv hpush
              cases h
              exact ⟨rfl, fun _ => by simpa using hlt, fun _ => by simpa using hlog⟩
  case Neq =>
    unfold execute_instruction at h
    split at h
    · simp at h
    · rename_i gm hgm
      have hlog := GasMeter.calculate_and_consume_inv hgm
      dsimp only [] at h
      split at h
      · simp at h
      · rename_i lhs st2 hp1
        obtain ⟨rest1, hv1, rfl⟩ := Interpreter.popValue_inv hp1
        split at h
        · simp at h
        · rename_i rhs st3 hp2
          obtain ⟨rest2, hv2, rfl⟩ := Interpreter.popValue_inv hp2
          split at h
          · simp at h
          · rename_i b heqv
            split at h
            · simp at h
            · rename_i st4 hpush
              obtain ⟨rfl, hlt⟩ := Interpreter.pushValue_inv hpush
              cases h
              exact ⟨rfl, fun _ => by simpa using hlt, fun _ => by simpa using hlog⟩
  case GetTxnGasUnitPrice =>
    unfold execute_instruction at h
    split at h
    · simp at h
    · rename_i gm hgm
      have hlog := GasMeter.calculate_and_consume_inv hgm
      dsimp only [] at h
      split at h
      · simp at h
      · rename_i st1 hpush
        obtain ⟨rfl, hlt⟩ := Interpreter.pushValue_inv hpush
        cases h
        exact ⟨rfl, fun _ => by simpa using hlt, fun _ => by simpa using hlog⟩
  case GetTxnMaxGasUnits =>
    unfold execute_instruction at h
    split at h
    · simp at h
    · rename_i gm hgm
      have hlog := GasMeter.calculate_and_consume_inv hgm
      dsimp only [] at h
      split at h
      · simp at h
      · rename_i st1 hpush
        obtain ⟨rfl, hlt⟩ := Interpreter.pushValue_inv hpush
        cases h
        exact ⟨rfl, fun _ => by simpa using hlt, fun _ => by simpa using hlog⟩
  case GetTxnSequenceNumber =>
    unfold execute_instruction at h
    split at h
    · simp at h
    · rename_i gm hgm
      have hlog := GasMeter.calculate_and_consume_inv hgm
      dsimp only [] at h
      split at h
      · simp at h
      · rename_i st1 hpush
        obtain ⟨rfl, hlt⟩ := Interpreter.pushValue_inv hpush
        cases h
        exact ⟨rfl, fun _ => by simpa using hlt, fun _ => by simpa using hlog⟩
  case GetTxnSenderAddress =>
    unfold execute_instruction at h
    split at h
    · simp at h
    · rename_i gm hgm
      have hlog := GasMeter.calculate_and_consume_inv hgm
      dsimp only [] at h
      split at h
      · simp at h
      · rename_i st1 hpush
        obtain ⟨rfl, hlt⟩ := Interpreter.pushValue_inv hpush
        cases h
        exact ⟨rfl, fun _ => by simpa using hlt, fun _ => by simpa using hlog⟩
  case GetTxnPublicKey =>
    unfold execute_instruction at h
    split at h
    · simp at h
    · rename_i gm hgm
      have hlog := GasMeter.calculate_and_consume_inv hgm
      dsimp only [] at h
      split at h
      · simp at h
      · rename_i st1 hpush
        obtain ⟨rfl, hlt⟩ := Interpreter.pushValue_inv hpush
        cases h
        exact ⟨rfl, fun _ => by simpa using hlt, fun _ => by simpa using hlog⟩
  case MutBorrowGlobal idx type_actuals_idx =>
    unfold execute_instruction at h
    split at h
    · simp at h
    · rename_i gm hgm
      have hlog := GasMeter.calculate_and_consume_inv hgm
      dsimp only [] at h
      split at h
      · simp at h
      · rename_i a st2 hpa
        obtain ⟨rest, hv, rfl⟩ := Interpreter.popAddress_inv hpa
        split at h
        · simp at h
        · rename_i size st3 hgdo
          obtain ⟨glen, gcs, ggas⟩ := Interpreter.global_data_op_pres hgdo
          split at h
          · simp at h
          · rename_i gm2 hgm2
            cases h
            refine ⟨gcs, fun hl => ?_, fun habs => by simp [Bytecode.isGlobalOp] at habs⟩
            refine glen ?_
            rw [hv] at hl
            simp at hl ⊢
            omega
  case ImmBorrowGlobal idx type_actuals_idx =>
    unfold execute_instruction at h
    split at h
    · simp at h
    · rename_i gm hgm
      have hlog := GasMeter.calculate_and_consume_inv hgm
      dsimp only [] at h
      split at h
      · simp at h
      · rename_i a st2 hpa
        obtain ⟨rest, hv, rfl⟩ := Interpreter.popAddress_inv hpa
        split at h
        · simp at h
        · rename_i size st3 hgdo
          obtain ⟨glen, gcs, ggas⟩ := Interpreter.global_data_op_pres hgdo
          split at h
          · simp at h
          · rename_i gm2 hgm2
            cases h
            refine ⟨gcs, fun hl => ?_, fun habs => by simp [Bytecode.isGlobalOp] at habs⟩
            refine glen ?_
            rw [hv] at hl
            simp at hl ⊢
            omega
  case Exists idx type_actuals_idx =>
    unfold execute_instruction at h
    split at h
    · simp at h
    · rename_i gm hgm
      have hlog := GasMeter.calculate_and_consume_inv hgm
      dsimp only [] at h
      split at h
      · simp at h
      · rename_i a st2 hpa
        obtain ⟨rest, hv, rfl⟩ := Interpreter.popAddress_inv hpa
        split at h
        · simp at h
        · rename_i size st3 hgdo
          obtain ⟨glen, gcs, ggas⟩ := Interpreter.global_data_op_pres hgdo
          split at h
          · simp at h
          · rename_i gm2 hgm2
            cases h
            refine ⟨gcs, fun hl => ?_, fun habs => by simp [Bytecode.isGlobalOp] at habs⟩
            refine glen ?_
            rw [hv] at hl
            simp at hl ⊢
            omega
  case MoveFrom idx type_actuals_idx =>
    unfold execute_instruction at h
    split at h
    · simp at h
    · rename_i gm hgm
      have hlog := GasMeter.calculate_and_consume_inv hgm
      dsimp only [] at h
      split at h
      · simp at h
      · rename_i a st2 hpa
        obtain ⟨rest, hv, rfl⟩ := Interpreter.popAddress_inv hpa
        split at h
        · simp at h
        · rename_i size st3 hgdo
          obtain ⟨glen, gcs, ggas⟩ := Interpreter.global_data_op_pres hgdo
          split at h
          · simp at h
          · rename_i gm2 hgm2
            cases h
            refine ⟨gcs, fun hl => ?_, fun habs => by simp [Bytecode.isGlobalOp] at habs⟩
            refine glen ?_
            rw [hv] at hl
            simp at hl ⊢
            omega
  case MoveToSender idx type_actuals_idx =>
    unfold execute_instruction at h
    split at h
    · simp at h
    · rename_i gm hgm
      have hlog := GasMeter.calculate_and_consume_inv hgm
      dsimp only [] at h
      split at h
      · simp at h
      · rename_i size st3 hgdo
        obtain ⟨glen, gcs, ggas⟩ := Interpreter.global_data_op_pres hgdo
        split at h
        · simp at h
        · rename_i gm2 hgm2
          cases h
          exact ⟨gcs, fun hl => glen hl, fun habs => by simp [Bytecode.isGlobalOp] at habs⟩
  case CreateAccount =>
    unfold execute_instruction at h
    split at h
    · simp at h
    · rename_i gm hgm
      have hlog := GasMeter.calculate_and_consume_inv hgm
      dsimp only [] at h
      cases h
      exact ⟨rfl, fun hl => hl, fun _ => by simpa using hlog⟩
  case FreezeRef =>
    unfold execute_instruction at h
    split at h
    · simp at h
    · rename_i gm hgm
      have hlog := GasMeter.calculate_and_consume_inv hgm
      dsimp only [] at h
      cases h
      exact ⟨rfl, fun hl => hl, fun _ => by simpa using hlog⟩
  case Not =>
    unfold execute_instruction at h
    split at h
    · simp at h
    · rename_i gm hgm
      have hlog := GasMeter.calculate_and_consume_inv hgm
      dsimp only [] at h
      split at h
      · simp at h
      · rename_i b st1 hpop
        obtain ⟨rest, hv, rfl⟩ := Interpreter.popBool_inv hpop
        split at h
        · simp at h
        · rename_i st2 hpush
          obtain ⟨rfl, hlt⟩ := Interpreter.pushValue_inv hpush
          cases h
          exact ⟨rfl, fun _ => by simpa using hlt, fun _ => by simpa using hlog⟩
  case GetGasRemaining =>
    unfold execute_instruction at h
    split at h
    · simp at h
    · rename_i gm hgm
      have hlog := GasMeter.calculate_and_consume_inv hgm
      dsimp only [] at h
      split at h
      · simp at h
      · rename_i st1 hpush
        obtain ⟨rfl, hlt⟩ := Interpreter.pushValue_inv hpush
        cases h
        exact ⟨rfl, fun _ => by simpa using hlt, fun _ => by simpa using hlog⟩


/-- Claim C7: a successfully executed global-storage instruction
(MutBorrowGlobal, ImmBorrowGlobal, Exists, MoveFrom, MoveToSender) is
charged gas exactly twice — first the pre-execution charge with
memory-size operand 1, then a post-execution charge with the actual
AbstractMemorySize produced by the data-cache operation — while every
other instruction is charged exactly once, with memory-size operand 1. -/
theorem c7_gas_charges (ctx : VMContext) (frame : Frame) (st : Interpreter)
    (instr : Bytecode) (out : Option ExitCode) (frame' : Frame) (st' : Interpreter)
    (h : execute_instruction ctx frame st instr = .ok (out, frame', st')) :
    (instr.isGlobalOp = false →
      st'.gas_meter.charge_log = (instr, 1) :: st.gas_meter.charge_log) ∧
    (∀ idx ta, instr = .MutBorrowGlobal idx ta ∨ instr = .ImmBorrowGlobal idx ta →
      ∃ addr rest sd rid size dv,
        st.operand_stack.values = .address addr :: rest ∧
        ctx.resolve_struct_def frame.module idx = .ok (some sd) ∧
        ctx.borrow_global (ctx.make_access_path frame.module idx addr) sd st.data_view =
          .ok (rid, size, dv) ∧
        st'.gas_meter.charge_log =
          (instr, size.val) :: (instr, 1) :: st.gas_meter.charge_log) ∧
    (∀ idx ta, instr = .Exists idx ta →
      ∃ addr rest sd b size dv,
        st.operand_stack.values = .address addr :: rest ∧
        ctx.resolve_struct_def frame.module idx = .ok (some sd) ∧
        ctx.resource_exists (ctx.make_access_path frame.module idx addr) sd st.data_view =
          .ok (b, size, dv) ∧
        st'.gas_meter.charge_log =
          (instr, size.val) :: (instr, 1) :: st.gas_meter.charge_log) ∧
    (∀ idx ta, instr = .MoveFrom idx ta →
      ∃ addr rest sd resource dv,
        st.operand_stack.values = .address addr :: rest ∧
        ctx.resolve_struct_def frame.module idx = .ok (some sd) ∧
        ctx.move_resource_from (ctx.make_access_path frame.module idx addr) sd st.data_view =
          .ok (resource, dv) ∧
        st'.gas_meter.charge_log =
          (instr, Value.size resource) :: (instr, 1) :: st.gas_meter.charge_log) ∧
    (∀ idx ta, instr = .MoveToSender idx ta →
      ∃ fields rest sd dv,
        st.operand_stack.values = .struct_ fields :: rest ∧
        ctx.resolve_struct_def frame.module idx = .ok (some sd) ∧
        ctx.move_resource_to (ctx.make_access_path frame.module idx st.txn_data.sender) sd
          fields st.data_view = .ok dv ∧
        st'.gas_meter.charge_log =
          (instr, Value.size (.struct_ fields)) :: (instr, 1) :: st.gas_meter.charge_log) := by
  refine ⟨(execute_instruction_inv ctx frame st instr out frame' st' h).2.2, ?_, ?_, ?_, ?_⟩
  · rintro idx ta (rfl | rfl) <;>
    · unfold execute_instruction at h
      split at h
      · simp at h
      · rename_i gm hgm
        have hlog1 := GasMeter.calculate_and_consume_inv hgm
        dsimp only [] at h
        split at h
        · simp at h
        · rename_i a st2 hpa
          obtain ⟨rest, hv, rfl⟩ := Interpreter.popAddress_inv hpa
          split at h
          · simp at h
          · rename_i size st3 hgdo
            obtain ⟨sd, hsd, hop⟩ := Interpreter.global_data_op_inv hgdo
            obtain ⟨rid, dv, hbg, rfl, hlt⟩ := Interpreter.borrow_global_op_inv hop
            split at h
            · simp at h
            · rename_i gm2 hgm2
              have hlog2 := GasMeter.calculate_and_consume_inv hgm2
              cases h
              refine ⟨a, rest, sd, rid, size, dv, hv, hsd, hbg, ?_⟩
              rw [hlog2, hlog1]
  · rintro idx ta rfl
    unfold execute_instruction at h
    split at h
    · simp at h
    · rename_i gm hgm
      have hlog1 := GasMeter.calculate_and_consume_inv hgm
      dsimp only [] at h
      split at h
      · simp at h
      · rename_i a st2 hpa
        obtain ⟨rest, hv, rfl⟩ := Interpreter.popAddress_inv hpa
        split at h
        · simp at h
        · rename_i size st3 hgdo
          obtain ⟨sd, hsd, hop⟩ := Interpreter.global_data_op_inv hgdo
          obtain ⟨b, dv, hre, rfl, hlt⟩ := Interpreter.exists_op_inv hop
          split at h
          · simp at h
          · rename_i gm2 hgm2
            have hlog2 := GasMeter.calculate_and_consume_inv hgm2
            cases h
            refine ⟨a, rest, sd, b, size, dv, hv, hsd, hre, ?_⟩
            rw [hlog2, hlog1]
  · rintro idx ta rfl
    unfold execute_instruction at h
    split at h
    · simp at h
    · rename_i gm hgm
      have hlog1 := GasMeter.calculate_and_consume_inv hgm
      dsimp only [] at h
      split at h
      · simp at h
      · rename_i a st2 hpa
        obtain ⟨rest, hv, rfl⟩ := Interpreter.popAddress_inv hpa
        split at h
        · simp at h
        · rename_i size st3 hgdo
          obtain ⟨sd, hsd, hop⟩ := Interpreter.global_data_op_inv hgdo
          obtain ⟨resource, dv, hmf, rfl, rfl, hlt⟩ := Interpreter.move_from_op_inv hop
          split at h
          · simp at h
          · rename_i gm2 hgm2
            have hlog2 := GasMeter.calculate_and_consume_inv hgm2
            cases h
            refine ⟨a, rest, sd, resource, dv, hv, hsd, hmf, ?_⟩
            rw [hlog2, hlog1]
  · rintro idx ta rfl
    unfold execute_instruction at h
    split at h
    · simp at h
    · rename_i gm hgm
      have hlog1 := GasMeter.calculate_and_consume_inv hgm
      dsimp only [] at h
      split at h
      · simp at h
      · rename_i size st3 hgdo
        obtain ⟨sd, hsd, hop⟩ := Interpreter.global_data_op_inv hgdo
        obtain ⟨fields, rest, dv, hv, hmt, rfl, rfl⟩ := Interpreter.move_to_sender_op_inv hop
        split at h
        · simp at h
        · rename_i gm2 hgm2
          have hlog2 := GasMeter.calculate_and_consume_inv hgm2
          cases h
          refine ⟨fields, rest, sd, dv, hv, hsd, hmt, ?_⟩
          rw [hlog2, hlog1]

/-- Interpreter state with an address operand for a global op. -/
def stGlob : Interpreter :=
  { Interpreter.new txnData0 0 [] (GasMeter.new (GasUnits.mk 1000)) with
    operand_stack := ⟨[.address 9]⟩ }

/-- The state after executing MutBorrowGlobal on stGlob under ctx0: the
global reference is pushed and the charge log holds the post-execution
charge with the data cache's size 5 on top of the pre-execution charge
with size 1. -/
def stGlobAfter : Interpreter :=
  { operand_stack := ⟨[.global_ref 0]⟩
    call_stack := ⟨[]⟩
    gas_meter := { enabled := true, remaining := GasUnits.mk 1000,
                   charge_log := [(.MutBorrowGlobal 0 0, 5), (.MutBorrowGlobal 0 0, 1)] }
    txn_data := txnData0
    event_data := []
    data_view := 0 }

/-- Witness for claim C7: a concrete MutBorrowGlobal execution is
double-charged (sizes 5 then 1 in the log, most recent first), and a
concrete Pop execution is charged exactly once with size 1. -/
theorem c7_gas_charges_witness :
    execute_instruction ctx0 frame0 stGlob (.MutBorrowGlobal 0 0) =
      .ok (none, { frame0 with pc := 1 }, stGlobAfter) ∧
    (∃ addr rest sd rid size dv,
      stGlob.operand_stack.values = .address addr :: rest ∧
      ctx0.resolve_struct_def frame0.module 0 = .ok (some sd) ∧
      ctx0.borrow_global (ctx0.make_access_path frame0.module 0 addr) sd stGlob.data_view =
        .ok (rid, size, dv) ∧
      stGlobAfter.gas_meter.charge_log =
        (.MutBorrowGlobal 0 0, size.val) :: (.MutBorrowGlobal 0 0, 1) ::
          stGlob.gas_meter.charge_log) ∧
    ((Bytecode.Pop).isGlobalOp = false ∧
      ∀ out frame' st', execute_instruction ctx0 frame0 stGlob .Pop = .ok (out, frame', st') →
        st'.gas_meter.charge_log = (Bytecode.Pop, 1) :: stGlob.gas_meter.charge_log) := by
  have hbg : execute_instruction ctx0 frame0 stGlob (.MutBorrowGlobal 0 0) =
      .ok (none, { frame0 with pc := 1 }, stGlobAfter) := rfl
  refine ⟨hbg, ?_, rfl, ?_⟩
  · exact (c7_gas_charges ctx0 frame0 stGlob (.MutBorrowGlobal 0 0) none
      { frame0 with pc := 1 } stGlobAfter hbg).2.1 0 0 (Or.inl rfl)
  · intro out frame' st' hpop
    exact (c7_gas_charges ctx0 frame0 stGlob .Pop out frame' st' hpop).1 rfl

/-- Well-formed stacks: both depths within their limits. -/
def WFStacks (st : Interpreter) : Prop :=
  st.operand_stack.values.length ≤ OPERAND_STACK_SIZE_LIMIT ∧
  st.call_stack.frames.length ≤ CALL_STACK_SIZE_LIMIT

theorem Interpreter.storeCallArgs_pres : ∀ {n : Nat} {locals : Locals} {st : Interpreter}
    {locals' : Locals} {st' : Interpreter},
    Interpreter.storeCallArgs n locals st = .ok (locals', st') →
    st'.operand_stack.values.length ≤ st.operand_stack.values.length ∧
    st'.call_stack = st.call_stack ∧ st'.gas_meter = st.gas_meter := by
  intro n
  induction n with
  | zero =>
    intro locals st locals' st' h
    cases h
    exact ⟨Nat.le_refl _, rfl, rfl⟩
  | succ k ih =>
    intro locals st locals' st' h
    unfold Interpreter.storeCallArgs at h
    split at h
    · simp at h
    · rename_i v st1 hpop
      obtain ⟨rest, hv, rfl⟩ := Interpreter.popValue_inv hpop
      split at h
      · simp at h
      · rename_i locals2 hsl
        obtain ⟨hlen, hcs, hgas⟩ := ih h
        refine ⟨?_, hcs, hgas⟩
        refine hlen.trans ?_
        rw [hv]
        simp

theorem Interpreter.popNativeArgs_pres : ∀ {n : Nat} {acc : List Value} {st : Interpreter}
    {args : List Value} {st' : Interpreter},
    Interpreter.popNativeArgs n acc st = .ok (args, st') →
    st'.operand_stack.values.length ≤ st.operand_stack.values.length ∧
    st'.call_stack = st.call_stack ∧ st'.gas_meter = st.gas_meter := by
  intro n
  induction n with
  | zero =>
    intro acc st args st' h
    cases h
    exact ⟨Nat.le_refl _, rfl, rfl⟩
  | succ k ih =>
    intro acc st args st' h
    unfold Interpreter.popNativeArgs at h
    split at h
    · simp at h
    · rename_i v st1 hpop
      obtain ⟨rest, hv, rfl⟩ := Interpreter.popValue_inv hpop
      obtain ⟨hlen, hcs, hgas⟩ := ih h
      refine ⟨?_, hcs, hgas⟩
      refine hlen.trans ?_
      rw [hv]
      simp

theorem Interpreter.pushValues_pres : ∀ {vs : List Value} {st st' : Interpreter},
    Interpreter.pushValues vs st = .ok st' →
    (st.operand_stack.values.length ≤ OPERAND_STACK_SIZE_LIMIT →
      st'.operand_stack.values.length ≤ OPERAND_STACK_SIZE_LIMIT) ∧
    st'.call_stack = st.call_stack := by
  intro vs
  induction vs with
  | nil =>
    intro st st' h
    cases h
    exact ⟨fun hl => hl, rfl⟩
  | cons v rest ih =>
    intro st st' h
    unfold Interpreter.pushValues at h
    split at h
    · simp at h
    · rename_i st1 hpush
      obtain ⟨rfl, hlt⟩ := Interpreter.pushValue_inv hpush
      obtain ⟨hlen, hcs⟩ := ih h
      exact ⟨fun _ => hlen (by simpa using hlt), hcs⟩

theorem Interpreter.call_emit_event_pres {ctx : VMContext} {st : Interpreter}
    {tags : List TypeTag} {st' : Interpreter}
    (h : Interpreter.call_emit_event ctx st tags = .ok st') :
    st'.operand_stack.values.length ≤ st.operand_stack.values.length ∧
    st'.call_stack = st.call_stack := by
  unfold Interpreter.call_emit_event at h
  split at h
  · rename_i type_tag
    split at h
    · simp at h
    · rename_i v st1 hpop
      obtain ⟨rest, hv, rfl⟩ := Interpreter.popValue_inv hpop
      split at h
      · simp at h
      · rename_i msg hser
        split at h
        · simp at h
        · rename_i count st2 hpc
          obtain ⟨rest2, hv2, rfl⟩ := Interpreter.popU64_inv hpc
          split at h
          · simp at h
          · rename_i key st3 hpk
            obtain ⟨rest3, hv3, rfl⟩ := Interpreter.popByteArray_inv hpk
            split at h
            · simp at h
            · rename_i guid hguid
              cases h
              refine ⟨?_, rfl⟩
              simp at hv2 hv3
              rw [hv]
              rw [hv2, hv3]
              simp
              omega
  · simp at h

theorem Interpreter.call_native_pres {ctx : VMContext} {st : Interpreter}
    {function : FunctionRef} {tags : List TypeTag} {st' : Interpreter}
    (h : Interpreter.call_native ctx st function tags = .ok st') :
    (st.operand_stack.values.length ≤ OPERAND_STACK_SIZE_LIMIT →
      st'.operand_stack.values.length ≤ OPERAND_STACK_SIZE_LIMIT) ∧
    st'.call_stack = st.call_stack := by
  unfold Interpreter.call_native at h
  dsimp only [] at h
  split at h
  · simp at h
  · rename_i nf hnf
    split at h
    · obtain ⟨hlen, hcs⟩ := Interpreter.call_emit_event_pres h
      exact ⟨fun hl => hlen.trans hl, hcs⟩
    · split at h
      · simp at h
      · split at h
        · simp at h
        · rename_i args st1 hpna
          obtain ⟨hlen1, hcs1, hgas1⟩ := Interpreter.popNativeArgs_pres hpna
          split at h
          · simp at h
          · rename_i result hdisp
            split at h
            · simp at h
            · rename_i gm2 hcg
              split at h
              · simp at h
              · rename_i values hvals
                obtain ⟨hlen2, hcs2⟩ := Interpreter.pushValues_pres h
                refine ⟨fun hl => hlen2 (by simpa using hlen1.trans hl), ?_⟩
                rw [hcs2]
                exact hcs1

theorem Interpreter.make_call_frame_pres {ctx : VMContext} {st : Interpreter}
    {module : LoadedModule} {idx : Nat} {tags : List TypeTag}
    {optf : Option Frame} {st' : Interpreter}
    (h : Interpreter.make_call_frame ctx st module idx tags = .ok (optf, st')) :
    (st.operand_stack.values.length ≤ OPERAND_STACK_SIZE_LIMIT →
      st'.operand_stack.values.length ≤ OPERAND_STACK_SIZE_LIMIT) ∧
    st'.call_stack = st.call_stack := by
  unfold Interpreter.make_call_frame at h
  split at h
  · simp at h
  · simp at h
  · rename_i func hres
    split at h
    · split at h
      · simp at h
      · rename_i st1 hcn
        obtain ⟨hlen, hcs⟩ := Interpreter.call_native_pres hcn
        cases h
        exact ⟨hlen, hcs⟩
    · dsimp only [] at h
      split at h
      · simp at h
      · rename_i locals2 st2 hsca
        obtain ⟨hlen, hcs, hgas⟩ := Interpreter.storeCallArgs_pres hsca
        cases h
        exact ⟨fun hl => hlen.trans hl, hcs⟩

theorem Interpreter.save_account_pres {ctx : VMContext} {st : Interpreter}
    {account_module : LoadedModule} {addr : Nat} {st' : Interpreter}
    (h : Interpreter.save_account ctx st account_module addr = .ok st') :
    st'.operand_stack.values.length ≤ st.operand_stack.values.length ∧
    st'.call_stack = st.call_stack := by
  unfold Interpreter.save_account at h
  split at h
  · simp at h
  · rename_i sid hsid
    split at h
    · simp at h
    · simp at h
    · rename_i sd hsd
      split at h
      · simp at h
      · rename_i fields st1 hps
        obtain ⟨rest, hv, rfl⟩ := Interpreter.popStruct_inv hps
        dsimp only [] at h
        split at h
        · simp at h
        · rename_i dv hmt
          cases h
          refine ⟨?_, rfl⟩
          rw [hv]
          simp

theorem CallStack.pop_inv {cs : CallStack} {f : Frame} {cs' : CallStack}
    (h : cs.pop = some (f, cs')) :
    cs.frames = f :: cs'.frames := by
  unfold CallStack.pop at h
  cases hcs : cs.frames with
  | nil =>
    rw [hcs] at h
    simp at h
  | cons g rest =>
    rw [hcs] at h
    simp at h
    obtain ⟨rfl, rfl⟩ := h
    rfl

theorem execute_code_unit_pres (ctx : VMContext) : ∀ {fuel : Nat} {frame : Frame}
    {st : Interpreter} {ec : ExitCode} {frame2 : Frame} {st' : Interpreter},
    execute_code_unit ctx fuel frame st = .ok (ec, frame2, st') →
    st'.call_stack = st.call_stack ∧
    (st.operand_stack.values.length ≤ OPERAND_STACK_SIZE_LIMIT →
      st'.operand_stack.values.length ≤ OPERAND_STACK_SIZE_LIMIT) := by
  intro fuel
  induction fuel with
  | zero =>
    intro frame st ec frame2 st' h
    simp [execute_code_unit] at h
  | succ k ih =>
    intro frame st ec frame2 st' h
    rw [execute_code_unit.eq_def] at h
    dsimp only [] at h
    split at h
    · rename_i hpc
      split at h
      · simp at h
      · rename_i fr2 st2 hexec
        obtain ⟨hcs1, hlen1, hlog1⟩ := execute_instruction_inv _ _ _ _ _ _ _ hexec
        obtain ⟨hcs2, hlen2⟩ := ih h
        exact ⟨hcs2.trans hcs1, fun hl => hlen2 (hlen1 hl)⟩
      · rename_i exC fr2 st2 hexec
        obtain ⟨hcs1, hlen1, hlog1⟩ := execute_instruction_inv _ _ _ _ _ _ _ hexec
        cases h
        exact ⟨hcs1, hlen1⟩
    · simp at h

theorem exec_family_pres (ctx : VMContext) : ∀ fuel : Nat,
    (∀ {function : FunctionRef} {args : List Value} {marker : Nat} {st st' : Interpreter},
      execute_main ctx fuel function args marker st = .ok st' → WFStacks st → WFStacks st') ∧
    (∀ {frame : Frame} {marker : Nat} {st st' : Interpreter},
      execute_main_loop ctx fuel frame marker st = .ok st' → WFStacks st → WFStacks st') ∧
    (∀ {st st' : Interpreter},
      create_account_opcode ctx fuel st = .ok st' → WFStacks st → WFStacks st') := by
  intro fuel
  induction fuel using Nat.strong_induction_on with
  | _ fuel ih =>
    cases fuel with
    | zero =>
      refine ⟨?_, ?_, ?_⟩
      · intro function args marker st st' h
        simp [execute_main] at h
      · intro frame marker st st' h
        simp [execute_main_loop] at h
      · intro st st' h
        simp [create_account_opcode] at h
    | succ k =>
      refine ⟨?_, ?_, ?_⟩
      · intro function args marker st st' h hw
        rw [execute_main.eq_def] at h
        dsimp only [] at h
        split at h
        · simp at h
        · exact (ih k (Nat.lt_succ_self k)).2.1 h hw
      · intro frame marker st st' h hw
        rw [execute_main_loop.eq_def] at h
        dsimp only [] at h
        split at h
        · simp at h
        · simp at h
        · rename_i ec frame2 st2 hecu
          obtain ⟨hcs1, hlen1⟩ := execute_code_unit_pres ctx hecu
          have hw2 : WFStacks st2 := ⟨hlen1 hw.1, by rw [hcs1]; exact hw.2⟩
          split at h
          · split at h
            · cases h
              exact hw2
            · split at h
              · rename_i frame3 cs3 hpop
                have hframes := CallStack.pop_inv hpop
                refine (ih k (Nat.lt_succ_self k)).2.1 h ⟨hw2.1, ?_⟩
                have := hw2.2
                rw [hframes] at this
                simp at this ⊢
                omega
              · simp at h
          · split at h
            · simp at h
            · split at h
              · simp at h
              · rename_i st3 hmcf
                obtain ⟨hlen3, hcs3⟩ := Interpreter.make_call_frame_pres hmcf
                refine (ih k (Nat.lt_succ_self k)).2.1 h
                  ⟨hlen3 hw2.1, by rw [hcs3]; exact hw2.2⟩
              · rename_i frame3 st3 hmcf
                obtain ⟨hlen3, hcs3⟩ := Interpreter.make_call_frame_pres hmcf
                split at h
                · simp at h
                · rename_i cs4 hpush
                  obtain ⟨rfl, hlt⟩ := CallStack.push_frame_ok hpush
                  refine (ih k (Nat.lt_succ_self k)).2.1 h ⟨hlen3 hw2.1, by simpa using hlt⟩
          · split at h
            · simp at h
            · rename_i cs4 hpush
              obtain ⟨rfl, hlt⟩ := CallStack.push_frame_ok hpush
              split at h
              · simp at h
              · simp at h
              · rename_i st4 hcao
                have hw4 : WFStacks st4 :=
                  (ih k (Nat.lt_succ_self k)).2.2 hcao ⟨hlen1 hw.1, by simpa using hlt⟩
                split at h
                · rename_i frame5 cs5 hpop
                  have hframes := CallStack.pop_inv hpop
                  refine (ih k (Nat.lt_succ_self k)).2.1 h ⟨hw4.1, ?_⟩
                  have := hw4.2
                  rw [hframes] at this
                  simp at this ⊢
                  omega
                · simp at h
      · intro st st' h hw
        rw [create_account_opcode.eq_def] at h
        dsimp only [] at h
        split at h
        · simp at h
        · simp at h
        · rename_i account_module hglm
          split at h
          · simp at h
          · rename_i create_account_idx hlook
            split at h
            · simp at h
            · rename_i addr st1 hpa
              obtain ⟨rest, hv, rfl⟩ := Interpreter.popAddress_inv hpa
              dsimp only [] at h
              split at h
              · simp at h
              · simp at h
              · rename_i st3 hem
                have hw3 : WFStacks st3 := by
                  refine (ih k (Nat.lt_succ_self k)).1 hem ⟨?_, hw.2⟩
                  have := hw.1
                  rw [hv] at this
                  simp at this ⊢
                  omega
                split at h
                · simp at h
                · rename_i st5 hsa
                  obtain ⟨hlen5, hcs5⟩ := Interpreter.save_account_pres hsa
                  cases h
                  exact ⟨hlen5.trans hw3.1, by rw [hcs5]; exact hw3.2⟩

/-- C4. Stack discipline. (i) Stack::push succeeds exactly below the
1024-entry limit and fails with EXECUTION_STACK_OVERFLOW on a full stack,
producing no new stack (the stack is unmodified); (ii) CallStack::push
succeeds exactly below the 1024-frame limit and on a full stack hands the
frame back as the error payload, leaving the stack unmodified; (iii) both
limits are 1024; (iv) every successful run of execute_main keeps both
depths within their limits, whenever they start within them; (v) a call
whose new frame would be pushed onto a full call stack makes
execute_main_loop fail with CALL_STACK_OVERFLOW. -/
theorem c4_stack_bounds :
    (∀ (s : Stack) (v : Value),
      (s.values.length < OPERAND_STACK_SIZE_LIMIT → s.push v = .ok ⟨v :: s.values⟩) ∧
      (OPERAND_STACK_SIZE_LIMIT ≤ s.values.length →
        s.push v = .error (VMStatus.new .EXECUTION_STACK_OVERFLOW))) ∧
    (∀ (cs : CallStack) (f : Frame),
      (cs.frames.length < CALL_STACK_SIZE_LIMIT → cs.push f = .ok ⟨f :: cs.frames⟩) ∧
      (CALL_STACK_SIZE_LIMIT ≤ cs.frames.length → cs.push f = .error f)) ∧
    (OPERAND_STACK_SIZE_LIMIT = 1024 ∧ CALL_STACK_SIZE_LIMIT = 1024) ∧
    (∀ (ctx : VMContext) (fuel : Nat) (function : FunctionRef) (args : List Value)
      (marker : Nat) (st st' : Interpreter),
      execute_main ctx fuel function args marker st = .ok st' →
      WFStacks st → WFStacks st') ∧
    (∀ (ctx : VMContext) (k : Nat) (frame : Frame) (marker : Nat) (st : Interpreter)
      (idx tyidx : Nat) (frame2 : Frame) (st2 : Interpreter) (tags : List TypeTag)
      (frame3 : Frame) (st3 : Interpreter),
      execute_code_unit ctx (Nat.succ k) frame st = .ok (.Call idx tyidx, frame2, st2) →
      derive_type_tag_list frame2.module frame2.type_actual_tags
        (frame2.module.locals_signature_at tyidx) = .ok tags →
      Interpreter.make_call_frame ctx st2 frame2.module idx tags = .ok (some frame3, st3) →
      CALL_STACK_SIZE_LIMIT ≤ st3.call_stack.frames.length →
      execute_main_loop ctx (Nat.succ k) frame marker st =
        .err (VMStatus.new .CALL_STACK_OVERFLOW)) := by
  refine ⟨?_, ?_, ⟨rfl, rfl⟩, ?_, ?_⟩
  · intro s v
    exact ⟨Stack.push_lt, Stack.push_full⟩
  · intro cs f
    exact ⟨CallStack.push_frame_lt, CallStack.push_frame_full⟩
  · intro ctx fuel function args marker st st' h hw
    exact (exec_family_pres ctx fuel).1 h hw
  · intro ctx k frame marker st idx tyidx frame2 st2 tags frame3 st3 h1 h2 h3 h4
    rw [execute_main_loop.eq_def]
    dsimp only []
    rw [h1]
    dsimp only []
    rw [h2]
    dsimp only []
    rw [h3]
    dsimp only []
    rw [CallStack.push_frame_full h4]
    rfl

/-- A concrete argumentless non-native callee. -/
def funcG : FunctionRef :=
  { module := emptyModule
    fdef := { name := "g", local_count := 0, arg_count := 0, is_native := false, code := [.Ret] } }

/-- The oracle record resolving every function reference to funcG. -/
def ctxC4 : VMContext := { ctx0 with resolve_function_ref := fun _ _ => .ok (some funcG) }

/-- A caller whose single instruction calls function 0. -/
def funcCaller : FunctionRef :=
  { module := emptyModule
    fdef := { name := "c", local_count := 0, arg_count := 0, is_native := false,
              code := [.Call 0 0] } }

/-- The caller's frame at its first instruction. -/
def frameC4 : Frame := Frame.new funcCaller [] (Locals.new 0)

/-- An interpreter state whose call stack is already full. -/
def stC4 : Interpreter :=
  { Interpreter.new txnData0 0 [] (GasMeter.new (GasUnits.mk 1000)) with
    call_stack := ⟨List.replicate CALL_STACK_SIZE_LIMIT frame0⟩ }

/-- stC4 after the gas charge for the Call instruction. -/
def st2C4 : Interpreter :=
  { stC4 with gas_meter :=
      { enabled := true, remaining := GasUnits.mk 1000, charge_log := [(.Call 0 0, 1)] } }

/-- Witness for claim C4: with the call stack already holding 1024 frames,
executing a Call makes the frame loop fail with CALL_STACK_OVERFLOW, and a
push onto an operand stack holding 1024 values fails with
EXECUTION_STACK_OVERFLOW. -/
theorem c4_stack_bounds_witness :
    execute_main_loop ctxC4 1 frameC4 0 stC4 = .err (VMStatus.new .CALL_STACK_OVERFLOW) ∧
    Stack.push ⟨List.replicate OPERAND_STACK_SIZE_LIMIT (.u64 0)⟩ (.u64 1) =
      .error (VMStatus.new .EXECUTION_STACK_OVERFLOW) := by
  constructor
  · refine c4_stack_bounds.2.2.2.2 ctxC4 0 frameC4 0 stC4 0 0
      { frameC4 with pc := 1 } st2C4 [] (Frame.new funcG [] (Locals.new 0)) st2C4
      ?_ rfl rfl ?_
    · rfl
    · simp [st2C4, stC4]
  · exact (c4_stack_bounds.1 ⟨List.replicate OPERAND_STACK_SIZE_LIMIT (.u64 0)⟩ (.u64 1)).2
      (by simp)
